import Mathlib

/-!
# AI test-case generator: the response pipeline of `BaseAIService`

A shallow embedding of `src/backend/src/services/BaseAIService.js`
(`buildPrompt`, `parseResponse`, `estimateTime`, `validateTestCases`) together
with the JavaScript built-ins those methods call (`String.prototype.replace`
with a global regular expression, `String.prototype.trim`, `JSON.parse`,
property lookup through `Object.prototype`, the `||` operator, object spread),
followed by the services built on it (`openaiService.js`,
`huggingfaceService.js`), the offline service (`mockAIService.js`), the
handlers of `routes/testCases.js` and `routes/export.js`, and the step editor
of `TestCaseDetail.js`.

Conventions of the embedding
* A JavaScript string is the list of its UTF-16 code units (`JStr`).
* A thrown exception is the `Except.error` branch; `console.error` and
  `console.log` only write to the log and are left out.
* A number that `JSON.parse` reads is kept as the decimal literal it was read
  from (`JNum`); the program never computes with such a number, it only tests
  whether it is zero.
-/

namespace AITestGen

/-! ## Strings -/

/-- A JavaScript string: the sequence of its UTF-16 code units. -/
abbrev JStr := List Nat

/-- The UTF-16 code units of one Unicode scalar value. -/
def utf16 (c : Char) : List Nat :=
  if c.toNat < 65536 then [c.toNat]
  else [55296 + (c.toNat - 65536) / 1024, 56320 + (c.toNat - 65536) % 1024]

/-- The JavaScript string written by a literal. -/
def js (s : String) : JStr := s.toList.flatMap utf16

/-- Decimal digits of a natural number, most significant first, given enough fuel. -/
def natDigitsAux : Nat → Nat → List Nat → List Nat
  | 0, _, acc => acc
  | fuel + 1, n, acc =>
    if n < 10 then (48 + n) :: acc
    else natDigitsAux fuel (n / 10) ((48 + n % 10) :: acc)

/-- The decimal rendering of a natural number (`String(n)` for an integer below 10^21). -/
def natToJStr (n : Nat) : JStr := natDigitsAux (n + 1) n []

/-! ## `String.prototype.replace(re, '')` with a global regular expression

`removeAll matchLen 0 s` scans `s` from the left.  `matchLen t` is the length of
the match of the expression anchored at the head of `t` (`0` when it does not
match there; the two expressions used by the program never match the empty
string).  A match is dropped and the scan resumes right after it; otherwise
one code unit is kept and the scan moves on by one.  The first argument counts
the code units of the current match that are still to be dropped. -/

/-- Removal of every left-most, non-overlapping match. -/
def removeAll (matchLen : JStr → Nat) : Nat → JStr → JStr
  | _, [] => []
  | k + 1, _ :: cs => removeAll matchLen k cs
  | 0, c :: cs =>
    match matchLen (c :: cs) with
    | 0 => c :: removeAll matchLen 0 cs
    | m + 1 => removeAll matchLen m cs

/-- Three backticks followed by `json`. -/
def fenceJson : JStr := js "```json"

/-- Three backticks. -/
def fence : JStr := js "```"

/-- Anchored match of the expression "three backticks, json, optional line feed". -/
def matchFenceJson (s : JStr) : Nat :=
  if fenceJson.isPrefixOf s then
    (if (s.drop 7).head? = some 10 then 8 else 7)
  else 0

/-- Anchored match of the expression "three backticks". -/
def matchFence (s : JStr) : Nat :=
  if fence.isPrefixOf s then 3 else 0

/-- White space and line terminators of ECMAScript, the code units `trim` removes. -/
def isJSWhitespace (c : Nat) : Bool :=
  c == 9 || c == 10 || c == 11 || c == 12 || c == 13 || c == 32 || c == 160 ||
  c == 5760 || (8192 ≤ c && c ≤ 8202) || c == 8232 || c == 8233 || c == 8239 ||
  c == 8287 || c == 12288 || c == 65279

/-- The method `String.prototype.trim`. -/
def trim (s : JStr) : JStr :=
  ((s.reverse.dropWhile isJSWhitespace).reverse).dropWhile isJSWhitespace

/-- The first statement of `parseResponse`:
`response.replace(/[3 backticks]json\n?/g, '').replace(/[3 backticks]/g, '').trim()`. -/
def cleanResponse (response : JStr) : JStr :=
  trim (removeAll matchFence 0 (removeAll matchFenceJson 0 response))

/-! ## Values -/

/-- A number as `JSON.parse` reads it: sign, decimal mantissa and power of ten of the
literal, so that the literal denotes `(-1)^neg * mant * 10^exp10`. -/
structure JNum where
  neg : Bool
  mant : Nat
  exp10 : Int
  deriving DecidableEq, Repr

/-- The number written by a small non-negative integer literal of the program. -/
def JNum.ofNat (n : Nat) : JNum := ⟨false, n, 0⟩

/-- Whether the double nearest to the literal is `+0` or `-0`: the literal is at most
`2^(-1075)` in absolute value (half the least positive double, ties to even). -/
def JNum.isZero (n : JNum) : Bool :=
  n.mant == 0 || (n.exp10 < 0 && n.mant * 2 ^ 1075 ≤ 10 ^ (-n.exp10).toNat)

/-- The properties every ordinary object inherits from `Object.prototype`
(ECMAScript, Annex B included), and `Object.prototype` itself. -/
inductive Native where
  | objectCtor
  | objectProto
  | hasOwnProperty
  | isPrototypeOf
  | propertyIsEnumerable
  | toLocaleString
  | toString
  | valueOf
  | defineGetter
  | defineSetter
  | lookupGetter
  | lookupSetter
  deriving DecidableEq, Repr

/-- The values `JSON.parse` returns.  The fields of an object are listed in the order
in which JavaScript enumerates them. -/
inductive JVal where
  | null
  | bool (b : Bool)
  | num (n : JNum)
  | str (s : JStr)
  | arr (xs : List JVal)
  | obj (fields : List (JStr × JVal))

/-- The values a property read can give in this program: a JSON value or a built-in
inherited from `Object.prototype`. -/
inductive Val where
  | json (v : JVal)
  | native (f : Native)

/-- An object built by an object literal of the program: its own fields in
enumeration order; its prototype is `Object.prototype`. -/
abbrev Obj := List (JStr × Val)

/-- Thrown values.  `error m` is `new Error(m)`; the others are raised by the engine
(`typeError`: reading a property of `null`, failed conversion to a primitive;
`jsonError`: the `SyntaxError` of `JSON.parse`) and their message text is
engine-specific. -/
inductive JSError where
  | error (message : JStr)
  | typeError
  | jsonError
  deriving DecidableEq, Repr

/-- The value `ToBoolean` gives: what `!v` and `v || d` test. -/
def truthy : Val → Bool
  | .json .null => false
  | .json (.bool b) => b
  | .json (.num n) => !n.isZero
  | .json (.str s) => !s.isEmpty
  | .json (.arr _) => true
  | .json (.obj _) => true
  | .native _ => true

/-- The expression `v || d` where `v` is the result of a property read
(`none` is `undefined`). -/
def orDefault (v : Option Val) (d : Val) : Val :=
  match v with
  | some x => if truthy x then x else d
  | none => d

/-- The expression `!v` where `v` is the result of a property read. -/
def isFalsy (v : Option Val) : Bool :=
  match v with
  | some x => !truthy x
  | none => true

/-! ## Objects -/

/-- The value of the first field named `k`. -/
def lookup {α : Type} (k : JStr) : List (JStr × α) → Option α
  | [] => none
  | (k1, v) :: rest => if k1 = k then some v else lookup k rest

/-- Replaces the value of the first field named `k`. -/
def replaceVal {α : Type} (k : JStr) (v : α) : List (JStr × α) → List (JStr × α)
  | [] => []
  | (k1, v1) :: rest => if k1 = k then (k1, v) :: rest else (k1, v1) :: replaceVal k v rest

/-- Value of a string of decimal digits. -/
def digitsVal (ds : JStr) : Nat := ds.foldl (fun a d => 10 * a + (d - 48)) 0

/-- Whether a code unit is a decimal digit. -/
def isDigit (c : Nat) : Bool := 48 ≤ c && c ≤ 57

/-- The array index a property name denotes, if any: the canonical decimal form of
an integer below `2^32 - 1`. -/
def arrayIndex? (k : JStr) : Option Nat :=
  match k with
  | [] => none
  | c :: cs =>
    if (c :: cs).all isDigit && (c != 48 || cs.isEmpty) && cs.length < 10
        && digitsVal (c :: cs) < 4294967295 then
      some (digitsVal (c :: cs))
    else none

/-- Inserts a new index-named field: index names are enumerated first, ascending. -/
def insertIndexed {α : Type} (i : Nat) (k : JStr) (v : α) :
    List (JStr × α) → List (JStr × α)
  | [] => [(k, v)]
  | (k1, v1) :: rest =>
    match arrayIndex? k1 with
    | some j => if j < i then (k1, v1) :: insertIndexed i k v rest
                else (k, v) :: (k1, v1) :: rest
    | none => (k, v) :: (k1, v1) :: rest

/-- The operation `CreateDataProperty(o, k, v)` on an ordinary object: an existing field
keeps its place and gets the new value, a new index-named field goes among the
index names, any other new field goes last. -/
def setProp {α : Type} (o : List (JStr × α)) (k : JStr) (v : α) : List (JStr × α) :=
  if (lookup k o).isSome then replaceVal k v o
  else
    match arrayIndex? k with
    | some i => insertIndexed i k v o
    | none => o ++ [(k, v)]

/-! ## `JSON.parse`

A recursive-descent reader of the JSON grammar (ECMA-404), as `JSON.parse`
applies it: white space is space, tab, line feed and carriage return; a string
may not contain a raw control character; a number has no leading zero, and a
fraction or exponent has at least one digit; of two members with the same name
the later value wins.  The first argument of the mutually recursive functions
bounds the number of nested calls; `jsonParse` starts them with more than the
length of the text, and every call is made on a strictly shorter text. -/

/-- White space of the JSON grammar. -/
def isJsonWs (c : Nat) : Bool := c == 32 || c == 9 || c == 10 || c == 13

/-- Skips JSON white space. -/
def skipWs (s : JStr) : JStr := s.dropWhile isJsonWs

/-- Value of a hexadecimal digit. -/
def hexVal (c : Nat) : Option Nat :=
  if 48 ≤ c ∧ c ≤ 57 then some (c - 48)
  else if 97 ≤ c ∧ c ≤ 102 then some (c - 87)
  else if 65 ≤ c ∧ c ≤ 70 then some (c - 55)
  else none

/-- The code unit written by the four hexadecimal digits of a `\u` escape. -/
def hex4 (a b c d : Nat) : Option Nat :=
  match hexVal a, hexVal b, hexVal c, hexVal d with
  | some x, some y, some z, some w => some (((x * 16 + y) * 16 + z) * 16 + w)
  | _, _, _, _ => none

/-- The code unit a one-letter escape stands for. -/
def simpleEscape (e : Nat) : Option Nat :=
  if e = 34 then some 34
  else if e = 92 then some 92
  else if e = 47 then some 47
  else if e = 98 then some 8
  else if e = 102 then some 12
  else if e = 110 then some 10
  else if e = 114 then some 13
  else if e = 116 then some 9
  else none

/-- Reads a string after its opening quote: the decoded string and the text that
follows the closing quote. -/
def parseStringBody : JStr → Option (JStr × JStr)
  | [] => none
  | c :: rest =>
    if c = 34 then some ([], rest)
    else if c = 92 then
      match rest with
      | [] => none
      | e :: rest1 =>
        if e = 117 then
          match rest1 with
          | a :: b :: c1 :: d :: rest2 =>
            match hex4 a b c1 d with
            | some u => (parseStringBody rest2).map (fun p => (u :: p.1, p.2))
            | none => none
          | _ => none
        else
          match simpleEscape e with
          | some u => (parseStringBody rest1).map (fun p => (u :: p.1, p.2))
          | none => none
    else if c < 32 then none
    else (parseStringBody rest).map (fun p => (c :: p.1, p.2))

/-- Reads the digits of an integer part: a single `0`, or a run of digits that does
not start with `0`. -/
def parseIntPart (s : JStr) : Option (JStr × JStr) :=
  match s with
  | [] => none
  | c :: rest =>
    if c = 48 then some ([48], rest)
    else if isDigit c then some (c :: rest.takeWhile isDigit, rest.dropWhile isDigit)
    else none

/-- Reads an optional fraction: a point followed by at least one digit. -/
def parseFracPart (s : JStr) : Option (JStr × JStr) :=
  match s with
  | 46 :: rest =>
    if (rest.takeWhile isDigit).isEmpty then none
    else some (rest.takeWhile isDigit, rest.dropWhile isDigit)
  | _ => some ([], s)

/-- Reads an optional exponent: `e` or `E`, an optional sign, at least one digit. -/
def parseExpPart (s : JStr) : Option (Int × JStr) :=
  match s with
  | [] => some (0, s)
  | c :: rest =>
    if c = 101 ∨ c = 69 then
      match rest with
      | [] => none
      | g :: rest1 =>
        if g = 45 then
          (if (rest1.takeWhile isDigit).isEmpty then none
           else some (-(digitsVal (rest1.takeWhile isDigit) : Int), rest1.dropWhile isDigit))
        else if g = 43 then
          (if (rest1.takeWhile isDigit).isEmpty then none
           else some ((digitsVal (rest1.takeWhile isDigit) : Int), rest1.dropWhile isDigit))
        else
          (if (rest.takeWhile isDigit).isEmpty then none
           else some ((digitsVal (rest.takeWhile isDigit) : Int), rest.dropWhile isDigit))
    else some (0, s)

/-- Reads a number after its optional minus sign. -/
def parseUnsigned (neg : Bool) (s : JStr) : Option (JNum × JStr) :=
  match parseIntPart s with
  | none => none
  | some (ip, s1) =>
    match parseFracPart s1 with
    | none => none
    | some (fp, s2) =>
      match parseExpPart s2 with
      | none => none
      | some (e, s3) => some (⟨neg, digitsVal (ip ++ fp), e - fp.length⟩, s3)

/-- Reads a number. -/
def parseNumber (s : JStr) : Option (JNum × JStr) :=
  match s with
  | [] => none
  | c :: rest => if c = 45 then parseUnsigned true rest else parseUnsigned false (c :: rest)

/-- Reads one of the words `true`, `false`, `null`. -/
def parseWord (s : JStr) : Option (JVal × JStr) :=
  if (js "true").isPrefixOf s then some (.bool true, s.drop 4)
  else if (js "false").isPrefixOf s then some (.bool false, s.drop 5)
  else if (js "null").isPrefixOf s then some (.null, s.drop 4)
  else none

mutual
/-- Reads a value that starts at the head of the text. -/
def parseValue : Nat → JStr → Option (JVal × JStr)
  | 0, _ => none
  | fuel + 1, s =>
    match s with
    | [] => none
    | c :: rest =>
      if c = 34 then (parseStringBody rest).map (fun p => (JVal.str p.1, p.2))
      else if c = 91 then
        match skipWs rest with
        | [] => none
        | d :: r =>
          if d = 93 then some (.arr [], r)
          else
            match parseValue fuel (d :: r) with
            | none => none
            | some (v, r1) =>
              (parseElements fuel (skipWs r1)).map (fun p => (JVal.arr (v :: p.1), p.2))
      else if c = 123 then
        match skipWs rest with
        | [] => none
        | d :: r =>
          if d = 125 then some (.obj [], r)
          else (parseMembers fuel (d :: r) []).map (fun p => (JVal.obj p.1, p.2))
      else if c = 45 ∨ isDigit c then
        (parseNumber (c :: rest)).map (fun p => (JVal.num p.1, p.2))
      else parseWord (c :: rest)
/-- Reads the rest of an array after one of its elements: the closing bracket, or a
comma and a further element. -/
def parseElements : Nat → JStr → Option (List JVal × JStr)
  | 0, _ => none
  | fuel + 1, s =>
    match s with
    | [] => none
    | c :: rest =>
      if c = 93 then some ([], rest)
      else if c = 44 then
        match parseValue fuel (skipWs rest) with
        | none => none
        | some (v, r1) => (parseElements fuel (skipWs r1)).map (fun p => (v :: p.1, p.2))
      else none
/-- Reads the members of an object from the head of a member on, adding them to the
fields read so far. -/
def parseMembers : Nat → JStr → List (JStr × JVal) → Option (List (JStr × JVal) × JStr)
  | 0, _, _ => none
  | fuel + 1, s, acc =>
    match s with
    | [] => none
    | q :: rest =>
      if q = 34 then
        match parseStringBody rest with
        | none => none
        | some (k, r1) =>
          match skipWs r1 with
          | [] => none
          | colon :: r2 =>
            if colon = 58 then
              match parseValue fuel (skipWs r2) with
              | none => none
              | some (v, r3) =>
                match skipWs r3 with
                | [] => none
                | d :: r4 =>
                  if d = 125 then some (setProp acc k v, r4)
                  else if d = 44 then parseMembers fuel (skipWs r4) (setProp acc k v)
                  else none
            else none
      else none
end

/-- The function `JSON.parse(text)`; `none` is its `SyntaxError`. -/
def jsonParse (text : JStr) : Option JVal :=
  match parseValue (text.length + 1) (skipWs text) with
  | some (v, r) => if (skipWs r).isEmpty then some v else none
  | none => none

/-! ## Property reads -/

/-- The property `Object.prototype[k]`, which every ordinary object inherits. -/
def objectProtoGet (k : JStr) : Option Native :=
  if k = js "constructor" then some .objectCtor
  else if k = js "__proto__" then some .objectProto
  else if k = js "hasOwnProperty" then some .hasOwnProperty
  else if k = js "isPrototypeOf" then some .isPrototypeOf
  else if k = js "propertyIsEnumerable" then some .propertyIsEnumerable
  else if k = js "toLocaleString" then some .toLocaleString
  else if k = js "toString" then some .toString
  else if k = js "valueOf" then some .valueOf
  else if k = js "__defineGetter__" then some .defineGetter
  else if k = js "__defineSetter__" then some .defineSetter
  else if k = js "__lookupGetter__" then some .lookupGetter
  else if k = js "__lookupSetter__" then some .lookupSetter
  else none

/-- The read `o[k]` on an object built by an object literal: its own field, else the
property inherited from `Object.prototype`; `none` is `undefined`. -/
def getField (o : Obj) (k : JStr) : Option Val :=
  match lookup k o with
  | some v => some v
  | none => (objectProtoGet k).map Val.native

/-- The read `v[k]` on a value returned by `JSON.parse`.  Reading from `null` throws.
An object gives its own field or what `Object.prototype` provides; an array or a
string gives its element at an index and its `length`.  The methods that arrays,
strings, numbers and booleans inherit are left out: the program reads none of
their names from such a value. -/
def getProp (v : JVal) (k : JStr) : Except JSError (Option Val) :=
  match v with
  | .null => .error .typeError
  | .obj fs =>
    match lookup k fs with
    | some x => .ok (some (.json x))
    | none => .ok ((objectProtoGet k).map Val.native)
  | .arr xs =>
    if k = js "length" then .ok (some (.json (.num (JNum.ofNat xs.length))))
    else
      match arrayIndex? k with
      | some i => .ok ((xs.get? i).map Val.json)
      | none => .ok none
  | .str s =>
    if k = js "length" then .ok (some (.json (.num (JNum.ofNat s.length))))
    else
      match arrayIndex? k with
      | some i => .ok ((s.get? i).map (fun c => Val.json (.str [c])))
      | none => .ok none
  | .bool _ => .ok none
  | .num _ => .ok none

/-- The number of declared parameters of a built-in function (its `length`). -/
def Native.arity : Native → Option Nat
  | .objectCtor => some 1
  | .objectProto => none
  | .hasOwnProperty => some 1
  | .isPrototypeOf => some 1
  | .propertyIsEnumerable => some 1
  | .toLocaleString => some 0
  | .toString => some 0
  | .valueOf => some 0
  | .defineGetter => some 2
  | .defineSetter => some 2
  | .lookupGetter => some 1
  | .lookupSetter => some 1

/-- The read `v.length` on a truthy value. -/
def readLength (v : Val) : Option Val :=
  match v with
  | .json (.arr xs) => some (.json (.num (JNum.ofNat xs.length)))
  | .json (.str s) => some (.json (.num (JNum.ofNat s.length)))
  | .json (.obj fs) => (lookup (js "length") fs).map Val.json
  | .json _ => none
  | .native f => f.arity.map (fun n => Val.json (.num (JNum.ofNat n)))

/-- The test `v === 0` on the result of a property read. -/
def isStrictlyZero (v : Option Val) : Bool :=
  match v with
  | some (.json (.num n)) => n.isZero
  | _ => false

/-- The own enumerable properties an object spread copies from a value:
the fields of an object, the elements of an array under their indices, the code
units of a string under their indices, nothing from `null`, a number or a boolean. -/
def spread (v : JVal) : Obj :=
  match v with
  | .obj fs => fs.map (fun p => (p.1, Val.json p.2))
  | .arr xs => xs.enum.map (fun p => (natToJStr p.1, Val.json p.2))
  | .str s => s.enum.map (fun p => (natToJStr p.1, Val.json (.str [p.2])))
  | _ => []

/-! ## Conversion of a value to a property name

`o[v]` converts `v` with `ToPropertyKey`.  The text of a number or of a function is
not computed: it contains a digit, or is `Infinity`, `-Infinity`, `NaN`, or starts
with `function`, so it is none of the names the tables of this program define or
inherit, and neither is a text joined from it.  Such a name is `PropKey.other`. -/

/-- A property name: a known text, or the text of a number or of a function. -/
inductive PropKey where
  | name (s : JStr)
  | other
  deriving DecidableEq, Repr

/-- The method `Array.prototype.join(",")` on converted elements. -/
def joinKeys : List PropKey → PropKey
  | [] => .name []
  | [k] => k
  | k :: rest =>
    match k, joinKeys rest with
    | .name a, .name b => .name (a ++ 44 :: b)
    | _, _ => .other

mutual
/-- The operation `ToString` on a JSON value, as `ToPropertyKey` applies it.  An array
is joined with commas (`Array.prototype.toString`); an object gives
`[object Object]` unless it has an own field `toString`, which as a JSON value is
not callable and leaves `valueOf` (own and not callable, or inherited and
returning the object): a `TypeError`. -/
def jsonToKey : JVal → Except JSError PropKey
  | .null => .ok (.name (js "null"))
  | .bool true => .ok (.name (js "true"))
  | .bool false => .ok (.name (js "false"))
  | .num _ => .ok .other
  | .str s => .ok (.name s)
  | .arr xs => (elementKeys xs).map joinKeys
  | .obj fs =>
    match lookup (js "toString") fs with
    | some _ => .error .typeError
    | none => .ok (.name (js "[object Object]"))
/-- Conversion of the elements of an array for `join`: `null` gives the empty text. -/
def elementKeys : List JVal → Except JSError (List PropKey)
  | [] => .ok []
  | x :: rest =>
    match (match x with
           | .null => Except.ok (PropKey.name [])
           | y => jsonToKey y) with
    | .error e => .error e
    | .ok k =>
      match elementKeys rest with
      | .error e => .error e
      | .ok ks => .ok (k :: ks)
end

/-- The operation `ToPropertyKey` on a value of the program. -/
def toPropertyKey : Val → Except JSError PropKey
  | .json v => jsonToKey v
  | .native .objectProto => .ok (.name (js "[object Object]"))
  | .native _ => .ok .other

/-- The read `o[key]` on an object built by an object literal. -/
def getByKey (o : Obj) (key : PropKey) : Option Val :=
  match key with
  | .name k => getField o k
  | .other => none

/-! ## `BaseAIService` -/

/-- The state of a service object: `this.model`. -/
structure BaseAIService where
  model : JStr

/-- A number literal of the program as a value. -/
def numVal (n : Nat) : Val := .json (.num (JNum.ofNat n))

/-- A string as a value. -/
def strVal (s : JStr) : Val := .json (.str s)

/-- The decimal rendering of an integer, as a template literal interpolates a number
that is an integer below `2^53` in absolute value.  The digits a template literal
writes for a larger number (rounded digits, exponent notation from `10^21` on) are
not modelled: the count of a prompt is taken to be such a small integer. -/
def intToJStr (n : Int) : JStr :=
  if n < 0 then 45 :: natToJStr n.natAbs else natToJStr n.natAbs

/-- Text of the `functional` template between the count and the user story. -/
def functionalHead : JStr :=
  js " comprehensive functional test cases for the following user story. \n" ++
  js "      Consider different scenarios, inputs, and expected outcomes. Format the response as a JSON array of test cases.\n" ++
  js "\n" ++
  js "      User Story: \""

/-- Text of the `functional` template between the user story and the complexity. -/
def functionalMiddle : JStr :=
  js "\"\n" ++
  js "      \n" ++
  js "      Each test case should include:\n" ++
  js "      - title: Descriptive title\n" ++
  js "      - description: Detailed description of what is being tested\n" ++
  js "      - steps: Array of step objects with stepNumber, action, and expectedResult\n" ++
  js "      - preconditions: Array of prerequisites\n" ++
  js "      - expectedOutput: Expected result\n" ++
  js "      - priority: high/medium/low\n" ++
  js "      - testData: Required test data\n" ++
  js "      \n" ++
  js "      Complexity level: "

/-- Text of the `functional` template after the complexity. -/
def functionalTail : JStr :=
  js "\n" ++
  js "      \n" ++
  js "      Return only valid JSON, no additional text."

/-- Text of the `edge` template between the count and the user story. -/
def edgeHead : JStr :=
  js " edge case test scenarios for the following user story. \n" ++
  js "      Focus on boundary conditions, extreme values, and unusual scenarios. Format as JSON array.\n" ++
  js "\n" ++
  js "      User Story: \""

/-- Text of the `edge` template between the user story and the complexity. -/
def edgeMiddle : JStr :=
  js "\"\n" ++
  js "      \n" ++
  js "      Each edge case should include:\n" ++
  js "      - title: Descriptive title indicating it\x27s an edge case\n" ++
  js "      - description: Explanation of the edge condition\n" ++
  js "      - steps: Test steps\n" ++
  js "      - expectedOutput: What should happen in this edge case\n" ++
  js "      - priority: Typically high for edge cases\n" ++
  js "      \n" ++
  js "      Complexity: "

/-- Text of the `edge` template after the complexity. -/
def edgeTail : JStr :=
  js "\n" ++
  js "      \n" ++
  js "      Return only valid JSON."

/-- Text of the `negative` template between the count and the user story. -/
def negativeHead : JStr :=
  js " negative test cases for the following user story. \n" ++
  js "      Focus on invalid inputs, error conditions, and failure scenarios. Format as JSON array.\n" ++
  js "\n" ++
  js "      User Story: \""

/-- Text of the `negative` template between the user story and the complexity. -/
def negativeMiddle : JStr :=
  js "\"\n" ++
  js "      \n" ++
  js "      Each negative test case should include:\n" ++
  js "      - title: Descriptive title indicating negative scenario\n" ++
  js "      - description: What invalid condition is being tested\n" ++
  js "      - steps: Steps to reproduce the negative scenario\n" ++
  js "      - expectedOutput: Expected error message or behavior\n" ++
  js "      - priority: Usually medium to high\n" ++
  js "      \n" ++
  js "      Complexity: "

/-- Text of the `negative` template after the complexity. -/
def negativeTail : JStr :=
  js "\n" ++
  js "      \n" ++
  js "      Return only valid JSON."

/-- The template literal `promptTemplates.functional`. -/
def functionalTemplate (userStory complexity : JStr) (count : Int) : JStr :=
  js "Generate " ++ intToJStr count ++ functionalHead ++ userStory ++
    functionalMiddle ++ complexity ++ functionalTail

/-- The template literal `promptTemplates.edge`. -/
def edgeTemplate (userStory complexity : JStr) (count : Int) : JStr :=
  js "Generate " ++ intToJStr count ++ edgeHead ++ userStory ++
    edgeMiddle ++ complexity ++ edgeTail

/-- The template literal `promptTemplates.negative`. -/
def negativeTemplate (userStory complexity : JStr) (count : Int) : JStr :=
  js "Generate " ++ intToJStr count ++ negativeHead ++ userStory ++
    negativeMiddle ++ complexity ++ negativeTail

/-- The object literal `promptTemplates` of `buildPrompt`. -/
def promptTemplates (userStory complexity : JStr) (count : Int) : Obj :=
  [ (js "functional", strVal (functionalTemplate userStory complexity count)),
    (js "edge", strVal (edgeTemplate userStory complexity count)),
    (js "negative", strVal (negativeTemplate userStory complexity count)) ]

/-- The method `buildPrompt(userStory, testType, complexity, count)` on strings and an
integer count: `promptTemplates[testType] || promptTemplates.functional`. -/
def buildPrompt (userStory testType complexity : JStr) (count : Int) : Val :=
  orDefault (getField (promptTemplates userStory complexity count) testType)
    (strVal (functionalTemplate userStory complexity count))

/-- The object literal `timeEstimates` of `estimateTime`. -/
def timeEstimates : Obj :=
  [ (js "simple", numVal 15), (js "medium", numVal 30), (js "complex", numVal 60) ]

/-- The method `estimateTime(complexity)`: `timeEstimates[complexity] || 30`. -/
def estimateTime (complexity : Val) : Except JSError Val :=
  match toPropertyKey complexity with
  | .error e => .error e
  | .ok key => .ok (orDefault (getByKey timeEstimates key) (numVal 30))

/-- The callback of `testCases.map` in `parseResponse`: the object literal that
spreads `testCase` and then defines eleven fields, in source order. -/
def enrich (self : BaseAIService) (userStory testType : JStr) (testCase : JVal) :
    Except JSError Obj := do
  let o := spread testCase
  let o := setProp o (js "userStory") (strVal userStory)
  let o := setProp o (js "testType") (strVal testType)
  let o := setProp o (js "aiGenerated") (.json (.bool true))
  let o := setProp o (js "aiModel") (strVal self.model)
  let o := setProp o (js "status") (strVal (js "not_started"))
  let steps ← getProp testCase (js "steps")
  let o := setProp o (js "steps") (orDefault steps (.json (.arr [])))
  let preconditions ← getProp testCase (js "preconditions")
  let o := setProp o (js "preconditions") (orDefault preconditions (.json (.arr [])))
  let postconditions ← getProp testCase (js "postconditions")
  let o := setProp o (js "postconditions") (orDefault postconditions (.json (.arr [])))
  let tags ← getProp testCase (js "tags")
  let o := setProp o (js "tags")
    (orDefault tags (.json (.arr [.str (js "ai-generated"), .str testType])))
  let priority ← getProp testCase (js "priority")
  let o := setProp o (js "priority") (orDefault priority (strVal (js "medium")))
  let complexity ← getProp testCase (js "complexity")
  let estimatedTime ← estimateTime (orDefault complexity (strVal (js "medium")))
  pure (setProp o (js "estimatedTime") estimatedTime)

/-- The method `Array.prototype.map` with a callback that may throw: the first
exception ends the loop. -/
def mapThrow {α β ε : Type} (f : α → Except ε β) : List α → Except ε (List β)
  | [] => .ok []
  | x :: rest =>
    match f x with
    | .error e => .error e
    | .ok y =>
      match mapThrow f rest with
      | .error e => .error e
      | .ok ys => .ok (y :: ys)

/-- The `try` block of `parseResponse`. -/
def parseResponseTry (self : BaseAIService) (response userStory testType : JStr) :
    Except JSError (List Obj) :=
  match jsonParse (cleanResponse response) with
  | none => .error .jsonError
  | some (.arr testCases) => mapThrow (enrich self userStory testType) testCases
  | some _ => .error (.error (js "Expected array of test cases"))

/-- The method `parseResponse(response, userStory, testType)`: whatever the `try`
block throws is replaced by one error. -/
def parseResponse (self : BaseAIService) (response userStory testType : JStr) :
    Except JSError (List Obj) :=
  match parseResponseTry self response userStory testType with
  | .ok testCases => .ok testCases
  | .error _ => .error (.error (js "Invalid response format from AI service"))

/-- The messages the callback of `testCases.forEach` in `validateTestCases` pushes for
the element at a zero-based index. -/
def caseErrors (index : Nat) (testCase : Obj) : List JStr :=
  (if isFalsy (getField testCase (js "title")) then
    [js "Test case " ++ natToJStr (index + 1) ++ js ": Title is required"] else []) ++
  (if isFalsy (getField testCase (js "expectedOutput")) then
    [js "Test case " ++ natToJStr (index + 1) ++ js ": Expected output is required"] else []) ++
  (if isFalsy (getField testCase (js "steps")) ||
      isStrictlyZero ((getField testCase (js "steps")).bind readLength) then
    [js "Test case " ++ natToJStr (index + 1) ++ js ": At least one test step is required"]
   else [])

/-- The method `Array.prototype.join(sep)` on strings. -/
def joinWith (sep : JStr) : List JStr → JStr
  | [] => []
  | [x] => x
  | x :: rest => x ++ sep ++ joinWith sep rest

/-- The array `errors` of `validateTestCases` after the loop. -/
def validationErrors (testCases : List Obj) : List JStr :=
  testCases.enum.flatMap (fun p => caseErrors p.1 p.2)

/-- The method `validateTestCases(testCases)` on an array of objects. -/
def validateTestCases (testCases : List Obj) : Except JSError Bool :=
  if (validationErrors testCases).length > 0 then
    .error (.error (js "Validation failed: " ++ joinWith (js "; ") (validationErrors testCases)))
  else .ok true




/-! ## Predicates of the specification -/

/-- A field that holds a non-empty string. -/
def nonEmptyString (v : Option JVal) : Bool :=
  match v with
  | some (.str (_ :: _)) => true
  | _ => false

/-- A field that holds a non-empty array. -/
def nonEmptyArray (v : Option JVal) : Bool :=
  match v with
  | some (.arr (_ :: _)) => true
  | _ => false

/-- A `complexity` field that is absent or holds a string, a number, a boolean or
`null`. -/
def plainComplexity (v : Option JVal) : Bool :=
  match v with
  | some (.arr _) => false
  | some (.obj _) => false
  | _ => true

/-- An element of the parsed array that is not `null` and, when it is an object, has a
plain `complexity`. -/
def plainElement (x : JVal) : Bool :=
  match x with
  | .null => false
  | .obj fs => plainComplexity (lookup (js "complexity") fs)
  | _ => true

/-- The own field `k` of an element of the parsed array (`none` when the element is
not an object or has no such field). -/
def ownField (x : JVal) (k : JStr) : Option JVal :=
  match x with
  | .obj fs => lookup k fs
  | _ => none

/-- Whether the conversion of a value to a property name returns: it throws for an
object that has an own field `toString` and for an array that holds such an
object. -/
def convertsToKey (v : Val) : Bool :=
  match toPropertyKey v with
  | .ok _ => true
  | .error _ => false

/-- An element of the parsed array on which the callback of `parseResponse` does not
throw: it is not `null`, and the complexity the callback passes to
`estimateTime`, the element's own when truthy and `medium` otherwise, converts to
a property name. -/
def enrichable (x : JVal) : Bool :=
  match x with
  | .null => false
  | _ => convertsToKey (orDefault ((ownField x (js "complexity")).map Val.json)
      (strVal (js "medium")))

/-- A valid test-case-shaped object: a non-empty `title`, a non-empty `expectedOutput`
and at least one step. -/
def validTestCaseShape (x : JVal) : Bool :=
  match x with
  | .obj fs =>
    nonEmptyString (lookup (js "title") fs) &&
    nonEmptyString (lookup (js "expectedOutput") fs) &&
    nonEmptyArray (lookup (js "steps") fs)
  | _ => false

/-- The fields `parseResponse` overwrites or defaults. -/
def enrichedKeys : List JStr :=
  [ js "userStory", js "testType", js "aiGenerated", js "aiModel", js "status",
    js "steps", js "preconditions", js "postconditions", js "tags", js "priority",
    js "estimatedTime" ]

/-- The service object of `openaiService.js` as constructed: `super('gpt-4')`. -/
def openaiInitial : BaseAIService := ⟨js "gpt-4"⟩

/-- The result of a call, or the empty list when it throws. -/
def resultOf (r : Except JSError (List Obj)) : List Obj :=
  match r with
  | .ok xs => xs
  | .error _ => []

/-- A field that is defaulted: a supplied truthy value is kept, an absent or falsy one
is replaced by the default `d`. -/
def defaultsTo (source : Option JVal) (d : Val) (result : Option Val) : Prop :=
  (∀ v, source = some v → truthy (.json v) = true → result = some (.json v)) ∧
  ((source = none ∨ ∃ v, source = some v ∧ truthy (.json v) = false) → result = some d)

/-! ## The bound of the JSON readers -/

/-- The property of a bound `n` on nested calls: on every text shorter than `n`, each
of the three readers gives what it gives for any other bound above the length of
the text, and what it leaves unread is shorter than the text. -/
def FuelOK (n : Nat) : Prop :=
  (∀ s, s.length < n →
    (∀ m, s.length < m → parseValue n s = parseValue m s) ∧
    (∀ v r, parseValue n s = some (v, r) → r.length < s.length)) ∧
  (∀ s, s.length < n →
    (∀ m, s.length < m → parseElements n s = parseElements m s) ∧
    (∀ vs r, parseElements n s = some (vs, r) → r.length < s.length)) ∧
  (∀ s acc, s.length < n →
    (∀ m, s.length < m → parseMembers n s acc = parseMembers m s acc) ∧
    (∀ fs r, parseMembers n s acc = some (fs, r) → r.length < s.length))


/-! ## Sample responses -/

/-- The response used as witness of C6: one element that supplies its own values for
the five overwritten fields. -/
def overwriteSample : JStr :=
  js ("[\x7b\"title\":\"T\",\"userStory\":\"other\",\"testType\":\"x\"," ++
    "\"aiGenerated\":false,\"aiModel\":\"m\",\"status\":\"done\"\x7d]")

/-- The response `[null]`. -/
def nullSample : JStr :=
  js "[null]"

/-- A response whose array holds an object, a number and a string. -/
def mixedSample : JStr :=
  js "[\x7b\"title\":\"A\"\x7d,5,\"xy\"]"

/-- A response whose element supplies the empty string as priority. -/
def falsyPrioritySample : JStr :=
  js "[\x7b\"priority\":\"\"\x7d]"

/-- A response whose element supplies steps and priority and no tags. -/
def defaultsSample : JStr :=
  js ("[\x7b\"steps\":[\x7b\"action\":\"a\"\x7d],\"priority\":\"high\",\"prec" ++
    "onditions\":null\x7d]")

/-- A response whose first element carries a complexity and whose second does not. -/
def complexitySample : JStr :=
  js ("[\x7b\"title\":\"T\",\"complexity\":\"simple\"\x7d,\x7b\"title\":\"U\"" ++
    "\x7d]")

/-- The text `JSON.stringify` gives for one object whose description holds three backticks. -/
def backtickFieldSample : JStr :=
  js "[\x7b\"description\":\"a```b\"\x7d]"

/-- A response whose element carries fields the enrichment does not touch. -/
def copySample : JStr :=
  js "[\x7b\"title\":\"T\",\"testData\":\"d\",\"extra\":[1,true]\x7d]"

/-- The response of the unit test `should parse valid JSON response`. -/
def validSample : JStr :=
  js ("[\x7b\"title\":\"Test Case\",\"description\":\"Test description\",\"st" ++
    "eps\":[\x7b\"stepNumber\":1,\"action\":\"test\",\"expectedResult\":\"r" ++
    "esult\"\x7d],\"expectedOutput\":\"expected output\"\x7d]")

/-- The text `JSON.stringify` gives for one valid test case whose title is three backticks. -/
def backtickTitleSample : JStr :=
  js ("[\x7b\"title\":\"```\",\"expectedOutput\":\"x\",\"steps\":[\x7b\"actio" ++
    "n\":\"a\"\x7d]\x7d]")

/-- The text `JSON.stringify` gives for one valid test case whose complexity is an object
with a field `toString`. -/
def objectComplexitySample : JStr :=
  js ("[\x7b\"title\":\"T\",\"expectedOutput\":\"E\",\"steps\":[\x7b\"action" ++
    "\":\"a\"\x7d],\"complexity\":\x7b\"toString\":1\x7d\x7d]")

/-! ## The generating services (`openaiService.js`, `huggingfaceService.js`)

One invocation of `generateTestCases` is followed in isolation: the awaited steps
run one after the other and nothing else touches the service object meanwhile.
The external call (`openai.chat.completions.create`, `hf.textGeneration`) is a
parameter of the model. -/

/-- The text of the property `message` of a thrown value.  For the two kinds the
engine raises the text is engine-specific and is not modelled, the empty text
stands for it; no such value reaches `generateTestCases`, where the message is
read: `parseResponse` replaces every one of them. -/
def JSError.message : JSError → JStr
  | .error m => m
  | .typeError => []
  | .jsonError => []

/-- The state of a service object of `OpenAIService` or `HuggingFaceService`:
`this.model` and `this.supportedModels`. -/
structure AIService extends BaseAIService where
  supportedModels : List JStr

/-- The two subclasses of `BaseAIService`. -/
inductive Backend where
  | openai
  | huggingface
  deriving DecidableEq, Repr

/-- The index of the alternate model in `supportedModels`: `supportedModels[1]` in
`openaiService.js`, `supportedModels[0]` in `huggingfaceService.js`. -/
def Backend.fallbackIndex : Backend → Nat
  | .openai => 1
  | .huggingface => 0

/-- The object `new OpenAIService()`. -/
def openaiService : AIService :=
  { model := js "gpt-4",
    supportedModels := [js "gpt-4", js "gpt-4-turbo", js "gpt-3.5-turbo"] }

/-- The object `new HuggingFaceService()`. -/
def huggingfaceService : AIService :=
  { model := js "microsoft/DialoGPT-small",
    supportedModels := [js "microsoft/DialoGPT-small", js "distilgpt2", js "gpt2",
      js "microsoft/DialoGPT-medium"] }

/-- What one external call does: it returns a completion whose content
(`completion.choices[0].message.content`, `response.generated_text`) is a string or
is not one (`none`), or the call, or the reading of the content from what it
returned, throws an error object with a message. -/
inductive ApiOutcome where
  | returns (content : Option JStr)
  | throws (message : JStr)

/-- The behaviour of the external call: the outcome of a call, given the number of
calls this invocation has made before it, the model and the prompt it passes. -/
abbrev ExternalCall := Nat → JStr → Val → ApiOutcome

/-- The call `parseResponse(response, userStory, testType)` on the content of a
completion: on a value that is not a string `response.replace` throws inside the
`try` block, and the `catch` throws the format error. -/
def parseContent (self : BaseAIService) (content : Option JStr) (userStory testType : JStr) :
    Except JSError (List Obj) :=
  match content with
  | some response => parseResponse self response userStory testType
  | none => .error (.error (js "Invalid response format from AI service"))

/-- The `try` block of `generateTestCases` after the prompt is built, for a given
outcome of the external call: parse, validate, return the test cases. -/
def attempt (self : AIService) (userStory testType : JStr) (outcome : ApiOutcome) :
    Except JSError (List Obj) :=
  match outcome with
  | .throws message => .error (.error message)
  | .returns content =>
    match parseContent self.toBaseAIService content userStory testType with
    | .error e => .error e
    | .ok testCases =>
      match validateTestCases testCases with
      | .error e => .error e
      | .ok _ => .ok testCases

/-- The result of one invocation: what it returns or throws, the state of the service
object afterwards, and the external calls it made, in order, each with the model
and the prompt it passed. -/
structure Generation where
  outcome : Except JSError (List Obj)
  service : AIService
  calls : List (JStr × Val)

/-- The method `generateTestCases(userStory, testType, complexity, count)` of both
services.  The first argument bounds the depth of the recursive call in the
`catch` block (`none` when the bound is reached); the last one lists the external
calls made so far. -/
def generateTestCasesAux (backend : Backend) (api : ExternalCall)
    (userStory testType complexity : JStr) (count : Int) :
    Nat → AIService → List (JStr × Val) → Option Generation
  | 0, _, _ => none
  | fuel + 1, self, calls =>
    match attempt self userStory testType
        (api calls.length self.model (buildPrompt userStory testType complexity count)) with
    | .ok testCases =>
      some ⟨.ok testCases, self,
        calls ++ [(self.model, buildPrompt userStory testType complexity count)]⟩
    | .error error =>
      match self.supportedModels[backend.fallbackIndex]? with
      | some alternate =>
        if self.supportedModels.length > 1 ∧ self.model ≠ alternate then
          generateTestCasesAux backend api userStory testType complexity count fuel
            { self with model := alternate }
            (calls ++ [(self.model, buildPrompt userStory testType complexity count)])
        else
          some ⟨.error (.error (js "Failed to generate test cases: " ++ error.message)), self,
            calls ++ [(self.model, buildPrompt userStory testType complexity count)]⟩
      | none =>
        some ⟨.error (.error (js "Failed to generate test cases: " ++ error.message)), self,
          calls ++ [(self.model, buildPrompt userStory testType complexity count)]⟩

/-- One invocation of `generateTestCases` on a service object: the recursion is given
the depth two, which it never exceeds. -/
def generateTestCases (backend : Backend) (api : ExternalCall) (self : AIService)
    (userStory testType complexity : JStr) (count : Int) : Option Generation :=
  generateTestCasesAux backend api userStory testType complexity count 2 self []

/-! ## Predicates of the specification on validation and generation -/

/-- The messages for the test case at a 1-based position, in the order title, expected
output, steps. -/
def violationsOf (position : Nat) (testCase : Obj) : List JStr :=
  (if isFalsy (getField testCase (js "title")) then
    [js "Test case " ++ natToJStr position ++ js ": " ++ js "Title is required"] else []) ++
  (if isFalsy (getField testCase (js "expectedOutput")) then
    [js "Test case " ++ natToJStr position ++ js ": " ++ js "Expected output is required"]
   else []) ++
  (if isFalsy (getField testCase (js "steps")) ||
      isStrictlyZero ((getField testCase (js "steps")).bind readLength) then
    [js "Test case " ++ natToJStr position ++ js ": " ++
      js "At least one test step is required"]
   else [])

/-- The violations of a sequence of test cases, element after element, the first one
having the given position. -/
def violationsFrom (position : Nat) : List Obj → List JStr
  | [] => []
  | testCase :: rest => violationsOf position testCase ++ violationsFrom (position + 1) rest

/-- A test case that passes the three checks of the validator: a truthy title, a truthy
expected output, and a truthy `steps` whose `length` is not zero. -/
def passesChecks (testCase : Obj) : Bool :=
  !isFalsy (getField testCase (js "title")) &&
  !isFalsy (getField testCase (js "expectedOutput")) &&
  !isFalsy (getField testCase (js "steps")) &&
  !isStrictlyZero ((getField testCase (js "steps")).bind readLength)

/-- A field that holds a non-empty sequence: an array with at least one element. -/
def nonEmptySequence (v : Option Val) : Bool :=
  match v with
  | some (.json (.arr (_ :: _))) => true
  | _ => false

/-- A field that holds a non-empty text. -/
def nonEmptyText (v : Option Val) : Bool :=
  match v with
  | some (.json (.str (_ :: _))) => true
  | _ => false

/-- A test case as the data model types it: `title` and `expectedOutput` are absent or
strings, `steps` is absent or an array. -/
def typedTestCase (testCase : Obj) : Prop :=
  (getField testCase (js "title") = none ∨
    ∃ s, getField testCase (js "title") = some (.json (.str s))) ∧
  (getField testCase (js "expectedOutput") = none ∨
    ∃ s, getField testCase (js "expectedOutput") = some (.json (.str s))) ∧
  (getField testCase (js "steps") = none ∨
    ∃ xs, getField testCase (js "steps") = some (.json (.arr xs)))

/-- The model the `catch` block of `generateTestCases` switches to, if it retries:
the alternate, when there is more than one supported model and the current model
is not the alternate. -/
def fallbackModel (backend : Backend) (self : AIService) : Option JStr :=
  match self.supportedModels[backend.fallbackIndex]? with
  | some alternate =>
    if self.supportedModels.length > 1 ∧ self.model ≠ alternate then some alternate else none
  | none => none

/-- The error `generateTestCases` throws for the error of its last attempt. -/
def generationFailure (error : JSError) : JSError :=
  .error (js "Failed to generate test cases: " ++ error.message)

/-! ## Sample behaviours of the external call -/

/-- An external call that always throws an error with the message `timeout`. -/
def alwaysThrows : ExternalCall := fun _ _ _ => .throws (js "timeout")

/-- An external call that always returns the text `not json`. -/
def alwaysNotJson : ExternalCall := fun _ _ _ => .returns (some (js "not json"))

/-- An external call that always returns the response of the unit test. -/
def alwaysValid : ExternalCall := fun _ _ _ => .returns (some validSample)

/-- An external call that throws on the first call and returns the response of the unit
test afterwards. -/
def failsOnce : ExternalCall := fun n _ _ =>
  if n = 0 then .throws (js "timeout") else .returns (some validSample)

/-- A response whose one element has a title, an expected output and the number five as
steps. -/
def numberStepsSample : JStr :=
  js "[\x7b\"title\":\"T\",\"expectedOutput\":\"E\",\"steps\":5\x7d]"

/-- An external call that always returns `numberStepsSample`. -/
def alwaysNumberSteps : ExternalCall := fun _ _ _ => .returns (some numberStepsSample)

/-- The test case with the title `T`, the expected output `E` and the number five as
steps. -/
def numberStepsCase : Obj :=
  [(js "title", strVal (js "T")), (js "expectedOutput", strVal (js "E")),
    (js "steps", numVal 5)]

/-- The test case that has the title `T` and no other field. -/
def titleOnlyCase : Obj := [(js "title", strVal (js "T"))]

/-- One invocation as the specification describes it: one attempt and, when it fails
and the service can fall back, a single further attempt on the alternate model. -/
def twoAttempts (backend : Backend) (api : ExternalCall) (self : AIService)
    (userStory testType complexity : JStr) (count : Int) : Generation :=
  match attempt self userStory testType
      (api 0 self.model (buildPrompt userStory testType complexity count)) with
  | .ok testCases =>
    ⟨.ok testCases, self, [(self.model, buildPrompt userStory testType complexity count)]⟩
  | .error first =>
    match fallbackModel backend self with
    | none =>
      ⟨.error (generationFailure first), self,
        [(self.model, buildPrompt userStory testType complexity count)]⟩
    | some alternate =>
      match attempt { self with model := alternate } userStory testType
          (api 1 alternate (buildPrompt userStory testType complexity count)) with
      | .ok testCases =>
        ⟨.ok testCases, { self with model := alternate },
          [(self.model, buildPrompt userStory testType complexity count),
            (alternate, buildPrompt userStory testType complexity count)]⟩
      | .error second =>
        ⟨.error (generationFailure second), { self with model := alternate },
          [(self.model, buildPrompt userStory testType complexity count),
            (alternate, buildPrompt userStory testType complexity count)]⟩


/-! ## Sample behaviours for the estimated time -/

/-- The one element of the array `validSample` parses to. -/
def validSampleElement : JVal :=
  .obj [(js "title", .str (js "Test Case")), (js "description", .str (js "Test description")),
    (js "steps", .arr [.obj [(js "stepNumber", .num ⟨false, 1, 0⟩),
      (js "action", .str (js "test")), (js "expectedResult", .str (js "result"))]]),
    (js "expectedOutput", .str (js "expected output"))]

/-! ## The offline service (`mockAIService.js`)

The user story is a string and the count an integer; the artificial delay has no
effect on what is returned.  With such arguments nothing in the `try` block of
`generateTestCases` throws, so the method is a total function. -/

/-- The state of an object of the class `MockAIService`: `this.model`. -/
structure MockAIService where
  model : JStr

/-- The exported object `new MockAIService()`. -/
def mockAIService : MockAIService := ⟨js "mock-ai-service"⟩

/-- An object literal of a step: `stepNumber`, `action`, `expectedResult`. -/
def stepLiteral (stepNumber : Nat) (action expectedResult : String) : JVal :=
  .obj [(js "stepNumber", .num (JNum.ofNat stepNumber)), (js "action", .str (js action)),
    (js "expectedResult", .str (js expectedResult))]

/-- The object literal pushed by the loop of `generateFunctionalTestCases` for the
loop variable `i`; `substring(0, 30)` keeps the first thirty code units. -/
def MockAIService.functionalTestCase (self : MockAIService) (userStory : JStr) (i : Nat) :
    Obj :=
  [ (js "title",
      strVal (js "Functional Test " ++ natToJStr i ++ js " - " ++ userStory.take 30 ++ js "...")),
    (js "description", strVal (js "Test the main functionality described in: " ++ userStory)),
    (js "steps", .json (.arr [
      stepLiteral 1 "Navigate to the application" "Application loads successfully",
      stepLiteral 2 "Perform the main action" "Action completes as expected",
      stepLiteral 3 "Verify the results" "Results match expected outcome"])),
    (js "preconditions", .json (.arr [.str (js "System is available"),
      .str (js "User has necessary permissions")])),
    (js "expectedOutput", strVal (js "Successful completion of the user story functionality")),
    (js "priority", strVal (js "high")),
    (js "testData", strVal (js "Sample test data for validation")),
    (js "userStory", strVal userStory),
    (js "testType", strVal (js "functional")),
    (js "aiGenerated", .json (.bool true)),
    (js "aiModel", strVal self.model),
    (js "status", strVal (js "not_started")),
    (js "tags", .json (.arr [.str (js "ai-generated"), .str (js "functional"),
      .str (js "automated")])),
    (js "estimatedTime", numVal 30) ]

/-- The object literal pushed by the loop of `generateEdgeTestCases`. -/
def MockAIService.edgeTestCase (self : MockAIService) (userStory : JStr) (i : Nat) : Obj :=
  [ (js "title", strVal (js "Edge Case " ++ natToJStr i ++ js " - Boundary condition testing")),
    (js "description", strVal (js "Test boundary conditions for: " ++ userStory)),
    (js "steps", .json (.arr [
      stepLiteral 1 "Set up extreme input values" "System handles boundary values correctly",
      stepLiteral 2 "Execute with limit conditions" "System behaves as expected at limits"])),
    (js "preconditions", .json (.arr [.str (js "System is in normal state")])),
    (js "expectedOutput", strVal (js "Proper handling of edge cases")),
    (js "priority", strVal (js "high")),
    (js "testData", strVal (js "Boundary value data sets")),
    (js "userStory", strVal userStory),
    (js "testType", strVal (js "edge")),
    (js "aiGenerated", .json (.bool true)),
    (js "aiModel", strVal self.model),
    (js "status", strVal (js "not_started")),
    (js "tags", .json (.arr [.str (js "ai-generated"), .str (js "edge"),
      .str (js "boundary")])),
    (js "estimatedTime", numVal 45) ]

/-- The object literal pushed by the loop of `generateNegativeTestCases`. -/
def MockAIService.negativeTestCase (self : MockAIService) (userStory : JStr) (i : Nat) :
    Obj :=
  [ (js "title",
      strVal (js "Negative Test " ++ natToJStr i ++ js " - Error condition testing")),
    (js "description", strVal (js "Test error handling for: " ++ userStory)),
    (js "steps", .json (.arr [
      stepLiteral 1 "Provide invalid input data" "System detects and handles invalid input",
      stepLiteral 2 "Attempt invalid operations"
        "System prevents invalid operations gracefully"])),
    (js "preconditions", .json (.arr [.str (js "System is operational")])),
    (js "expectedOutput", strVal (js "Proper error messages and handling")),
    (js "priority", strVal (js "medium")),
    (js "testData", strVal (js "Invalid input data samples")),
    (js "userStory", strVal userStory),
    (js "testType", strVal (js "negative")),
    (js "aiGenerated", .json (.bool true)),
    (js "aiModel", strVal self.model),
    (js "status", strVal (js "not_started")),
    (js "tags", .json (.arr [.str (js "ai-generated"), .str (js "negative"),
      .str (js "error-handling")])),
    (js "estimatedTime", numVal 35) ]

/-- The loop `for (let i = 1; i <= count; i++) testCases.push(literal)`: the literals
for `i = 1, ..., count`, none when `count` is below one. -/
def pushLoop (literal : Nat → Obj) (count : Int) : List Obj :=
  (List.range count.toNat).map (fun k => literal (k + 1))

/-- The method `generateFunctionalTestCases(userStory, count)`. -/
def MockAIService.generateFunctionalTestCases (self : MockAIService) (userStory : JStr)
    (count : Int) : List Obj :=
  pushLoop (self.functionalTestCase userStory) count

/-- The method `generateEdgeTestCases(userStory, count)`. -/
def MockAIService.generateEdgeTestCases (self : MockAIService) (userStory : JStr)
    (count : Int) : List Obj :=
  pushLoop (self.edgeTestCase userStory) count

/-- The method `generateNegativeTestCases(userStory, count)`. -/
def MockAIService.generateNegativeTestCases (self : MockAIService) (userStory : JStr)
    (count : Int) : List Obj :=
  pushLoop (self.negativeTestCase userStory) count

/-- What `generateTestCases` of the offline service returns: an array of test cases, or
a built-in that the object literal `mockResponses` inherits. -/
inductive MockResult where
  | testCases (cases : List Obj)
  | native (f : Native)

/-- The object literal `mockResponses`. -/
def MockAIService.mockResponses (self : MockAIService) (userStory : JStr) (count : Int) :
    List (JStr × List Obj) :=
  [ (js "functional", self.generateFunctionalTestCases userStory count),
    (js "edge", self.generateEdgeTestCases userStory count),
    (js "negative", self.generateNegativeTestCases userStory count) ]

/-- The method `generateTestCases(userStory, testType, complexity, count)` of the offline
service: `mockResponses[testType] || mockResponses.functional`.  An array is truthy
even when it is empty, and so is every built-in of `Object.prototype`.  The
complexity is not read. -/
def MockAIService.generateTestCases (self : MockAIService)
    (userStory testType _complexity : JStr) (count : Int) : MockResult :=
  match lookup testType (self.mockResponses userStory count) with
  | some cases => .testCases cases
  | none =>
    match objectProtoGet testType with
    | some f => .native f
    | none => .testCases (self.generateFunctionalTestCases userStory count)

/-- The method `validateTestCases(testCases)` of the offline service, whose body is that
of the method of `BaseAIService`. -/
def MockAIService.validateTestCases (testCases : List Obj) : Except JSError Bool :=
  if (validationErrors testCases).length > 0 then
    .error (.error (js "Validation failed: " ++ joinWith (js "; ") (validationErrors testCases)))
  else .ok true

/-- The body of a request to `POST /generate`; a field the body lacks is `none`. -/
structure GenerateRequest where
  userStory : JStr
  testType : Option JStr
  complexity : Option JStr
  count : Option Int

/-- The handler of `POST /generate`: the status and the value it sends.  A parameter
the body lacks takes the default of `generateTestCases` (`functional`, `medium`,
five). -/
def postGenerate (req : GenerateRequest) : Nat × MockResult :=
  (200, mockAIService.generateTestCases req.userStory (req.testType.getD (js "functional"))
    (req.complexity.getD (js "medium")) (req.count.getD 5))

/-! ## Predicates of the specification on the offline service -/

/-- The test types the offline service has a generator for. -/
def mockTypes : List JStr := [js "functional", js "edge", js "negative"]

/-- The steps of a test case are numbered 1, 2, ... in order, and there is at least
one. -/
def stepsNumbered (testCase : Obj) : Prop :=
  ∃ steps, getField testCase (js "steps") = some (.json (.arr steps)) ∧ steps ≠ [] ∧
    ∀ j (h : j < steps.length),
      ownField (steps.get ⟨j, h⟩) (js "stepNumber") = some (.num (JNum.ofNat (j + 1)))

/-- The texts before and after the number in the titles of the three generators, for a
user story. -/
def mockTitleParts (userStory : JStr) : List (JStr × JStr) :=
  [ (js "Functional Test ", js " - " ++ userStory.take 30 ++ js "..."),
    (js "Edge Case ", js " - Boundary condition testing"),
    (js "Negative Test ", js " - Error condition testing") ]

/-! ## `setModel` -/

/-- The method `setModel(modelName)` of both services: the model changes only when the
name is in `supportedModels`; otherwise a warning is logged and nothing changes. -/
def setModel (self : AIService) (modelName : JStr) : AIService :=
  if modelName ∈ self.supportedModels then { self with model := modelName } else self

/-! ## The step editor (`TestCaseDetail.js`)

The steps of the edited test case are objects; `handleInputChange('steps', value)`
replaces them by `value`. -/

/-- The steps after `addStep()`: the old ones followed by a blank step numbered
`steps.length + 1`. -/
def addStep (steps : List Obj) : List Obj :=
  steps ++ [[(js "stepNumber", numVal (steps.length + 1)), (js "action", strVal []),
    (js "expectedResult", strVal [])]]

/-- The steps after `removeStep(index)`: `filter` drops the step at `index`, and `map`
gives every remaining step the number one above its new position; the spread keeps
the other fields. -/
def removeStep (steps : List Obj) (index : Nat) : List Obj :=
  let updatedSteps := (steps.enum.filter (fun p => p.1 != index)).map Prod.snd
  updatedSteps.enum.map (fun p => setProp p.2 (js "stepNumber") (numVal (p.1 + 1)))

/-- An operation of the editor on the steps. -/
inductive StepEdit where
  | add
  | remove (index : Nat)

/-- The steps after a sequence of operations, each applied to the steps the one before
it left. -/
def applyEdits (steps : List Obj) : List StepEdit → List Obj
  | [] => steps
  | .add :: rest => applyEdits (addStep steps) rest
  | .remove index :: rest => applyEdits (removeStep steps index) rest

/-- The steps are numbered 1, 2, ..., n in order. -/
def numbered (steps : List Obj) : Prop :=
  ∀ i (h : i < steps.length),
    lookup (js "stepNumber") (steps.get ⟨i, h⟩) = some (numVal (i + 1))

/-- Three steps as the server sends them, numbered 1, 2, 3, each with an identifier. -/
def threeSteps : List Obj :=
  [ [(js "stepNumber", numVal 1), (js "action", strVal (js "open")),
      (js "expectedResult", strVal (js "opened")), (js "_id", strVal (js "a1"))],
    [(js "stepNumber", numVal 2), (js "action", strVal (js "type")),
      (js "expectedResult", strVal (js "typed")), (js "_id", strVal (js "a2"))],
    [(js "stepNumber", numVal 3), (js "action", strVal (js "send")),
      (js "expectedResult", strVal (js "sent")), (js "_id", strVal (js "a3"))] ]

/-! ## The routes on stored test cases (`routes/testCases.js`, `routes/export.js`)

A handler runs after `authenticateToken` has set `req.user`; the identifier
`req.user._id` is its first argument.  The store answers every operation: the
responses with status 500, sent when an operation of the store fails, are not
modelled.  A document carries the fields the handlers read, typed as the schema of
`models/TestCase.js` types them. -/

/-- An identifier of the store (`ObjectId`): a number of twelve bytes. -/
abbrev ObjectId := Nat

/-- The code unit of a hexadecimal digit, in lower case. -/
def hexDigit (d : Nat) : Nat := if d < 10 then 48 + d else 87 + d

/-- The text `_id.toString()`: the twenty-four hexadecimal digits of the identifier. -/
def objectIdText (id : ObjectId) : JStr :=
  (List.range 24).map (fun k => hexDigit (id / 16 ^ (23 - k) % 16))

/-- The method `toUpperCase()` on a text of hexadecimal digits, its only receiver in the
program: the letters `a` to `z` become `A` to `Z`. -/
def toUpperCase (s : JStr) : JStr :=
  s.map (fun c => if 97 ≤ c ∧ c ≤ 122 then c - 32 else c)

/-- The user a populated `assignedTo` holds: `firstName` and `lastName`, strings. -/
structure Assignee where
  firstName : JStr
  lastName : JStr
  deriving DecidableEq, Repr

/-- A stored test case, with `assignedTo` as `populate` leaves it (`none` when no user
is assigned) and `createdAt` as the text `toLocaleDateString()` gives for it. -/
structure TestCaseDoc where
  _id : ObjectId
  title : JStr
  description : JStr
  testType : JStr
  priority : JStr
  status : JStr
  assignedTo : Option Assignee
  expectedOutput : JStr
  createdBy : ObjectId
  createdAt : JStr
  deriving DecidableEq, Repr

/-- The collection of test cases, in the order in which the store returns them. -/
abbrev Store := List TestCaseDoc

/-- The query `TestCase.find` with the filter `createdBy: user`. -/
def find (store : Store) (user : ObjectId) : List TestCaseDoc :=
  store.filter (fun d => d.createdBy = user)

/-- The query `TestCase.findById(id)`; `none` is `null`. -/
def findById (store : Store) (id : ObjectId) : Option TestCaseDoc :=
  store.find? (fun d => d._id = id)

/-- The body of a request to `PUT /:id`, as far as it names fields of `TestCaseDoc`
other than `_id` and `assignedTo`; a field the body lacks is `none`. -/
structure UpdateBody where
  title : Option JStr
  description : Option JStr
  testType : Option JStr
  priority : Option JStr
  status : Option JStr
  expectedOutput : Option JStr
  createdBy : Option ObjectId

/-- The document after an update: every field the body names is set to the value the
body gives. -/
def applyUpdate (d : TestCaseDoc) (body : UpdateBody) : TestCaseDoc :=
  { d with
    title := body.title.getD d.title
    description := body.description.getD d.description
    testType := body.testType.getD d.testType
    priority := body.priority.getD d.priority
    status := body.status.getD d.status
    expectedOutput := body.expectedOutput.getD d.expectedOutput
    createdBy := body.createdBy.getD d.createdBy }

/-- The store after the first document with the identifier is replaced. -/
def replaceDoc (id : ObjectId) (new : TestCaseDoc) : Store → Store
  | [] => []
  | d :: rest => if d._id = id then new :: rest else d :: replaceDoc id new rest

/-- The store after the first document with the identifier is removed. -/
def removeDoc (id : ObjectId) : Store → Store
  | [] => []
  | d :: rest => if d._id = id then rest else d :: removeDoc id rest

/-- The operation `TestCase.findByIdAndUpdate(id, body)` with the option `new`: the updated
document (`none` when there is none with the identifier) and the store afterwards. -/
def findByIdAndUpdate (store : Store) (id : ObjectId) (body : UpdateBody) :
    Option TestCaseDoc × Store :=
  match findById store id with
  | none => (none, store)
  | some d => (some (applyUpdate d body), replaceDoc id (applyUpdate d body) store)

/-- The operation `TestCase.findByIdAndDelete(id)`: the removed document and the store
afterwards. -/
def findByIdAndDelete (store : Store) (id : ObjectId) : Option TestCaseDoc × Store :=
  match findById store id with
  | none => (none, store)
  | some d => (some d, removeDoc id store)

/-- What a handler sends. -/
inductive Body where
  | message (text : JStr)
  | testCases (docs : List TestCaseDoc)
  | testCase (doc : TestCaseDoc)
  | csv (content : JStr)
  | workbook (header : List JStr) (rows : List (List JStr))
  | empty
  deriving DecidableEq, Repr

/-- The response of a handler: status and body. -/
structure Response where
  status : Nat
  body : Body
  deriving DecidableEq, Repr

/-- The handler of `GET /`. -/
def getTestCases (user : ObjectId) (store : Store) : Response :=
  ⟨200, .testCases (find store user)⟩

/-- The handler of `GET /:id`; the user is not read. -/
def getTestCase (_user : ObjectId) (store : Store) (id : ObjectId) : Response :=
  match findById store id with
  | none => ⟨404, .message (js "Test case not found")⟩
  | some testCase => ⟨200, .testCase testCase⟩

/-- The handler of `PUT /:id`: the response and the store afterwards; the user is not
read. -/
def putTestCase (_user : ObjectId) (store : Store) (id : ObjectId) (body : UpdateBody) :
    Response × Store :=
  match findByIdAndUpdate store id body with
  | (none, store1) => (⟨404, .message (js "Test case not found")⟩, store1)
  | (some updatedTestCase, store1) => (⟨200, .testCase updatedTestCase⟩, store1)

/-- The handler of `DELETE /:id`: the response and the store afterwards; the user is
not read. -/
def deleteTestCase (_user : ObjectId) (store : Store) (id : ObjectId) : Response × Store :=
  match findByIdAndDelete store id with
  | (none, store1) => (⟨404, .message (js "Test case not found")⟩, store1)
  | (some _, store1) => (⟨204, .empty⟩, store1)

/-- The function `escapeCSV(value)` on a string: `value.replace(/"/g, '""')`.  Titles,
descriptions and expected outputs are strings, for which the other branch is not
taken. -/
def escapeCSV : JStr → JStr
  | [] => []
  | c :: rest => if c = 34 then 34 :: 34 :: escapeCSV rest else c :: escapeCSV rest

/-- The text `assignedTo` of the export handlers: first and last name with a space
between them, or `Unassigned`. -/
def assignedToText (testCase : TestCaseDoc) : JStr :=
  match testCase.assignedTo with
  | some user => user.firstName ++ js " " ++ user.lastName
  | none => js "Unassigned"

/-- The text `testCaseId` of the export handlers: `TC-` and the first eight digits of
the identifier in upper case. -/
def testCaseId (testCase : TestCaseDoc) : JStr :=
  js "TC-" ++ toUpperCase ((objectIdText testCase._id).take 8)

/-- The first line of the CSV content, with its line feed. -/
def csvHeader : JStr :=
  js ("Test Case ID,Title,Description,Test Type,Priority,Status,Assigned To," ++
    "Expected Output\n")

/-- The text the callback of `testCases.forEach` appends to `csvContent` in the handler
of `GET /csv`. -/
def csvRow (testCase : TestCaseDoc) : JStr :=
  (js "\"" ++ testCaseId testCase ++ js "\",\"" ++ escapeCSV testCase.title ++ js "\",\"" ++
    escapeCSV testCase.description ++ js "\",") ++
  (js "\"" ++ testCase.testType ++ js "\",\"" ++ testCase.priority ++ js "\",\"" ++
    testCase.status ++ js "\",") ++
  (js "\"" ++ assignedToText testCase ++ js "\",\"" ++ escapeCSV testCase.expectedOutput ++
    js "\"\n")

/-- The handler of `GET /csv`. -/
def exportCsv (user : ObjectId) (store : Store) : Response :=
  let testCases := find store user
  if testCases.length = 0 then ⟨404, .message (js "No test cases found to export")⟩
  else ⟨200, .csv (testCases.foldl (fun csvContent testCase => csvContent ++ csvRow testCase)
    csvHeader)⟩

/-- The headers of the columns of the worksheet. -/
def excelHeader : List JStr :=
  [js "Test Case ID", js "Title", js "Description", js "Test Type", js "Priority",
    js "Status", js "Assigned To", js "Expected Output", js "Created At"]

/-- The values of the row the handler of `GET /excel` adds for a test case. -/
def excelRow (testCase : TestCaseDoc) : List JStr :=
  [testCaseId testCase, testCase.title, testCase.description, testCase.testType,
    testCase.priority, testCase.status, assignedToText testCase, testCase.expectedOutput,
    testCase.createdAt]

/-- The handler of `GET /excel`: the workbook it writes, as the header and the rows of
its one worksheet. -/
def exportExcel (user : ObjectId) (store : Store) : Response :=
  let testCases := find store user
  if testCases.length = 0 then ⟨404, .message (js "No test cases found to export")⟩
  else ⟨200, .workbook excelHeader (testCases.map excelRow)⟩

/-! ## Predicates of the specification on the routes and the CSV content -/

/-- Un-doubling the double quotes of a text: every pair `""` becomes `"`. -/
def undouble : JStr → JStr
  | [] => []
  | [c] => [c]
  | c :: d :: rest =>
    if c = 34 ∧ d = 34 then 34 :: undouble rest else c :: undouble (d :: rest)

/-- The states of a reader of CSV records: at the start of a field, inside a field
without quotes, inside a quoted field, and after a double quote inside a quoted
field. -/
inductive CsvState where
  | fieldStart
  | unquoted
  | quoted
  | afterQuote
  deriving DecidableEq, Repr

/-- Reading one record under the standard quoting rules of CSV (RFC 4180), from a
state, with the field being read and the fields read so far: a field that starts
with a double quote ends at the next double quote that is not doubled, a doubled
double quote inside it stands for one, and a comma or a line feed must follow it;
a field without quotes ends at the next comma or line feed and holds no double
quote; a line feed outside quotes ends the record.  The result is the fields of
the record and the text after it, `none` when the text breaks the rules. -/
def readCsvFrom : CsvState → JStr → List JStr → JStr → Option (List JStr × JStr)
  | .quoted, _, _, [] => none
  | _, field, fields, [] => some (fields ++ [field], [])
  | .fieldStart, field, fields, c :: rest =>
    if c = 34 then readCsvFrom .quoted [] fields rest
    else if c = 44 then readCsvFrom .fieldStart [] (fields ++ [field]) rest
    else if c = 10 then some (fields ++ [field], rest)
    else readCsvFrom .unquoted [c] fields rest
  | .unquoted, field, fields, c :: rest =>
    if c = 34 then none
    else if c = 44 then readCsvFrom .fieldStart [] (fields ++ [field]) rest
    else if c = 10 then some (fields ++ [field], rest)
    else readCsvFrom .unquoted (field ++ [c]) fields rest
  | .quoted, field, fields, c :: rest =>
    if c = 34 then readCsvFrom .afterQuote field fields rest
    else readCsvFrom .quoted (field ++ [c]) fields rest
  | .afterQuote, field, fields, c :: rest =>
    if c = 34 then readCsvFrom .quoted (field ++ [34]) fields rest
    else if c = 44 then readCsvFrom .fieldStart [] (fields ++ [field]) rest
    else if c = 10 then some (fields ++ [field], rest)
    else none

/-- The first record of a text under the standard quoting rules, and the text after
it. -/
def readCsvRecord (text : JStr) : Option (List JStr × JStr) :=
  readCsvFrom .fieldStart [] [] text

/-- Writing one record under the standard quoting rules: every field between double
quotes with its double quotes doubled, a comma between two fields, a line feed at
the end. -/
def writeCsvRecord : List JStr → JStr
  | [] => [10]
  | [f] => 34 :: (escapeCSV f ++ [34, 10])
  | f :: g :: rest => 34 :: (escapeCSV f ++ 34 :: 44 :: writeCsvRecord (g :: rest))

/-- The eight values the CSV export writes for a test case. -/
def csvValues (testCase : TestCaseDoc) : List JStr :=
  [testCaseId testCase, testCase.title, testCase.description, testCase.testType,
    testCase.priority, testCase.status, assignedToText testCase, testCase.expectedOutput]

/-- A text that holds no double quote. -/
def quoteFree (s : JStr) : Prop := 34 ∉ s

/-! ## Sample documents -/

/-- The identifier of the user Alice. -/
def alice : ObjectId := 1

/-- The identifier of the user Bob. -/
def bob : ObjectId := 2

/-- A test case of Alice, assigned to nobody. -/
def aliceCase : TestCaseDoc :=
  { _id := 0xab12cd34ef56ab12cd34ef56, title := js "Login", description := js "Say \"hi\"",
    testType := js "functional", priority := js "high", status := js "passed",
    assignedTo := none, expectedOutput := js "Dashboard, then menu", createdBy := alice,
    createdAt := js "11/4/2026" }

/-- A test case of Bob. -/
def bobCase : TestCaseDoc :=
  { _id := 0x0000000100000000000000aa, title := js "Logout", description := js "Leave",
    testType := js "edge", priority := js "low", status := js "not_started",
    assignedTo := some ⟨js "Bob", js "Roe"⟩, expectedOutput := js "Login page",
    createdBy := bob, createdAt := js "11/4/2026" }

/-- A body that names a new title and Bob as the creator. -/
def takeOver : UpdateBody :=
  { title := some (js "Taken"), description := none, testType := none, priority := none,
    status := none, expectedOutput := none, createdBy := some bob }

/-- A test case assigned to a user whose first name holds a nickname in double
quotes. -/
def nicknameCase : TestCaseDoc :=
  { aliceCase with assignedTo := some ⟨js "Ann \"AJ\"", js "Lee"⟩ }

/-- A test case assigned to a user whose first name holds a double quote, a comma and
a double quote. -/
def splitNameCase : TestCaseDoc :=
  { aliceCase with assignedTo := some ⟨js "x\",\"y", js "Lee"⟩ }

/-! ## Predicates of the specification on the count of a prompt -/

/-- An integer that a number holds exactly and that `String(count)` writes digit by
digit: its absolute value is below `2^53`.  From `2^53` on not every integer is a
number, the digits of those that are get rounded (`2^60` is written
`1152921504606847000`), and from `10^21` on the number is written in exponent
notation (`1e+21`). -/
def safeInteger (n : Int) : Prop := n.natAbs < 2 ^ 53

/-- The decimal rendering of an integer: a minus sign when it is negative, then the
decimal digits of its absolute value, most significant first, without a leading
zero (the one digit `0` for zero). -/
def decimalRendering (n : Int) (text : JStr) : Prop :=
  ∃ digits, text = (if n < 0 then 45 :: digits else digits) ∧ digits ≠ [] ∧
    (∀ d ∈ digits, isDigit d = true) ∧ (digits.head? = some 48 → digits = [48]) ∧
    digitsVal digits = n.natAbs

/-! ## Lemmas on `JSON.parse`: the bound on nested calls is never reached -/

theorem skipWs_length_le (s : JStr) : (skipWs s).length ≤ s.length := by
  unfold skipWs
  exact (List.dropWhile_suffix _).length_le

theorem parseStringBody_lt : ∀ (n : Nat) (s : JStr), s.length ≤ n → ∀ x r,
    parseStringBody s = some (x, r) → r.length < s.length := by
  intro n
  induction n with
  | zero =>
    intro s hs x r h
    have : s = [] := List.length_eq_zero.mp (Nat.le_zero.mp hs)
    subst this
    simp [parseStringBody] at h
  | succ n ih =>
    intro s hs x r h
    rcases s with _ | ⟨c, rest⟩
    · simp [parseStringBody] at h
    · have hrest : rest.length ≤ n := by simpa using hs
      rw [parseStringBody.eq_def] at h
      simp only at h
      split at h
      · simp only [Option.some.injEq, Prod.mk.injEq] at h
        rw [← h.2]; simp
      · split at h
        · split at h
          · simp at h
          · rename_i e rest1
            split at h
            · split at h
              · rename_i a b c1 d rest2
                split at h
                · simp only [Option.map_eq_some'] at h
                  obtain ⟨p, hp, hpe⟩ := h
                  have := ih rest2 (by simp at hrest; omega) p.1 p.2 hp
                  simp only [Prod.mk.injEq] at hpe
                  rw [← hpe.2]
                  simp; omega
                · simp at h
              · simp at h
            · split at h
              · simp only [Option.map_eq_some'] at h
                obtain ⟨p, hp, hpe⟩ := h
                have := ih rest1 (by simp at hrest; omega) p.1 p.2 hp
                simp only [Prod.mk.injEq] at hpe
                rw [← hpe.2]
                simp; omega
              · simp at h
        · split at h
          · simp at h
          · simp only [Option.map_eq_some'] at h
            obtain ⟨p, hp, hpe⟩ := h
            have := ih rest hrest p.1 p.2 hp
            simp only [Prod.mk.injEq] at hpe
            rw [← hpe.2]
            simp; omega


theorem dropWhile_length_le (p : Nat → Bool) (s : JStr) : (s.dropWhile p).length ≤ s.length :=
  (List.dropWhile_suffix _).length_le

theorem parseIntPart_lt (s ip r : JStr) (h : parseIntPart s = some (ip, r)) :
    r.length < s.length := by
  unfold parseIntPart at h
  split at h
  · simp at h
  · rename_i c rest
    split at h
    · simp only [Option.some.injEq, Prod.mk.injEq] at h
      rw [← h.2]; simp
    · split at h
      · simp only [Option.some.injEq, Prod.mk.injEq] at h
        rw [← h.2]
        have := dropWhile_length_le isDigit rest
        simp; omega
      · simp at h

theorem parseFracPart_le (s fp r : JStr) (h : parseFracPart s = some (fp, r)) :
    r.length ≤ s.length := by
  unfold parseFracPart at h
  split at h
  · rename_i rest
    split at h
    · simp at h
    · simp only [Option.some.injEq, Prod.mk.injEq] at h
      rw [← h.2]
      have := dropWhile_length_le isDigit rest
      simp; omega
  · simp only [Option.some.injEq, Prod.mk.injEq] at h
    rw [← h.2]

theorem parseExpPart_le (s r : JStr) (e : Int) (h : parseExpPart s = some (e, r)) :
    r.length ≤ s.length := by
  unfold parseExpPart at h
  split at h
  · simp only [Option.some.injEq, Prod.mk.injEq] at h
    rw [← h.2]
  · rename_i c rest
    split at h
    · split at h
      · simp at h
      · rename_i g rest1
        have h1 := dropWhile_length_le isDigit rest1
        have h2 := dropWhile_length_le isDigit (g :: rest1)
        split at h
        · split at h
          · simp at h
          · simp only [Option.some.injEq, Prod.mk.injEq] at h
            rw [← h.2]; simp; omega
        · split at h
          · split at h
            · simp at h
            · simp only [Option.some.injEq, Prod.mk.injEq] at h
              rw [← h.2]; simp; omega
          · split at h
            · simp at h
            · simp only [Option.some.injEq, Prod.mk.injEq] at h
              rw [← h.2]; simp at h2 ⊢; omega
    · simp only [Option.some.injEq, Prod.mk.injEq] at h
      rw [← h.2]

theorem parseUnsigned_lt (neg : Bool) (s r : JStr) (n : JNum)
    (h : parseUnsigned neg s = some (n, r)) : r.length < s.length := by
  unfold parseUnsigned at h
  split at h
  · simp at h
  · rename_i ip s1 h1
    split at h
    · simp at h
    · rename_i fp s2 h2
      split at h
      · simp at h
      · rename_i e s3 h3
        simp only [Option.some.injEq, Prod.mk.injEq] at h
        rw [← h.2]
        have a := parseIntPart_lt _ _ _ h1
        have b := parseFracPart_le _ _ _ h2
        have c := parseExpPart_le _ _ _ h3
        omega

theorem parseNumber_lt (s r : JStr) (n : JNum) (h : parseNumber s = some (n, r)) :
    r.length < s.length := by
  unfold parseNumber at h
  split at h
  · simp at h
  · rename_i c rest
    split at h
    · have := parseUnsigned_lt _ _ _ _ h
      simp; omega
    · exact parseUnsigned_lt _ _ _ _ h

theorem parseWord_lt (s r : JStr) (v : JVal) (h : parseWord s = some (v, r)) :
    r.length < s.length := by
  unfold parseWord at h
  have hne : ∀ p : JStr, p ≠ [] → p.isPrefixOf s = true → 0 < s.length := by
    intro p hp hpre
    rcases s with _ | ⟨c, rest⟩
    · rcases p with _ | ⟨a, q⟩
      · exact absurd rfl hp
      · simp [List.isPrefixOf] at hpre
    · simp
  split at h
  · rename_i hp
    have := hne _ (by decide) hp
    simp only [Option.some.injEq, Prod.mk.injEq] at h
    rw [← h.2]; simp; omega
  · split at h
    · rename_i hp
      have := hne _ (by decide) hp
      simp only [Option.some.injEq, Prod.mk.injEq] at h
      rw [← h.2]; simp; omega
    · split at h
      · rename_i hp
        have := hne _ (by decide) hp
        simp only [Option.some.injEq, Prod.mk.injEq] at h
        rw [← h.2]; simp; omega
      · simp at h


theorem fuel_value_step (n : Nat) (ih : FuelOK n) (s : JStr) (hs : s.length < n + 1) :
    (∀ m, s.length < m → parseValue (n + 1) s = parseValue m s) ∧
    (∀ v r, parseValue (n + 1) s = some (v, r) → r.length < s.length) := by
  obtain ⟨ihV, ihE, ihM⟩ := ih
  rcases s with _ | ⟨c, rest⟩
  · constructor
    · intro m hm
      cases m with
      | zero => simp at hm
      | succ m => simp [parseValue]
    · intro v r h
      simp [parseValue] at h
  · have hrest : rest.length < n := by simpa using hs
    have hsk := skipWs_length_le rest
    constructor
    · intro m hm
      cases m with
      | zero => simp at hm
      | succ m =>
        have hrm : rest.length < m := by simpa using hm
        simp only [parseValue]
        by_cases h34 : c = 34
        · simp only [h34, if_true]
        · simp only [h34, if_false]
          by_cases h91 : c = 91
          · simp only [h91, if_true]
            cases hsr : skipWs rest with
            | nil => rfl
            | cons d r =>
              simp only
              rw [hsr] at hsk
              by_cases h93 : d = 93
              · simp only [h93, if_true]
              · simp only [h93, if_false]
                have hl : (d :: r).length < n := by omega
                have hlm : (d :: r).length < m := by omega
                rw [← (ihV (d :: r) hl).1 m hlm]
                cases hpv : parseValue n (d :: r) with
                | none => rfl
                | some p =>
                  obtain ⟨v, r1⟩ := p
                  simp only
                  have hp := (ihV (d :: r) hl).2 v r1 hpv
                  have hs1 := skipWs_length_le r1
                  rw [← (ihE (skipWs r1) (by omega)).1 m (by omega)]
          · simp only [h91, if_false]
            by_cases h123 : c = 123
            · simp only [h123, if_true]
              cases hsr : skipWs rest with
              | nil => rfl
              | cons d r =>
                simp only
                rw [hsr] at hsk
                by_cases h125 : d = 125
                · simp only [h125, if_true]
                · simp only [h125, if_false]
                  have hl : (d :: r).length < n := by omega
                  have hlm : (d :: r).length < m := by omega
                  rw [← (ihM (d :: r) [] hl).1 m hlm]
            · simp only [h123, if_false]
    · intro v r h
      simp only [parseValue] at h
      by_cases h34 : c = 34
      · simp only [h34, if_true, Option.map_eq_some'] at h
        obtain ⟨p, hp, hpe⟩ := h
        have := parseStringBody_lt rest.length rest (Nat.le_refl _) p.1 p.2 hp
        simp only [Prod.mk.injEq] at hpe
        rw [← hpe.2]; simp; omega
      · simp only [h34, if_false] at h
        by_cases h91 : c = 91
        · simp only [h91, if_true] at h
          cases hsr : skipWs rest with
          | nil => simp [hsr] at h
          | cons d r1 =>
            simp only [hsr] at h
            rw [hsr] at hsk
            by_cases h93 : d = 93
            · simp only [h93, if_true, Option.some.injEq, Prod.mk.injEq] at h
              rw [← h.2]; simp at hsk ⊢; omega
            · simp only [h93, if_false] at h
              have hl : (d :: r1).length < n := by omega
              cases hpv : parseValue n (d :: r1) with
              | none => simp [hpv] at h
              | some p =>
                obtain ⟨v1, r2⟩ := p
                simp only [hpv, Option.map_eq_some'] at h
                obtain ⟨q, hq, hqe⟩ := h
                have hp := (ihV (d :: r1) hl).2 v1 r2 hpv
                have hs1 := skipWs_length_le r2
                have := (ihE (skipWs r2) (by omega)).2 q.1 q.2 hq
                simp only [Prod.mk.injEq] at hqe
                rw [← hqe.2]; simp at hsk hp ⊢; omega
        · simp only [h91, if_false] at h
          by_cases h123 : c = 123
          · simp only [h123, if_true] at h
            cases hsr : skipWs rest with
            | nil => simp [hsr] at h
            | cons d r1 =>
              simp only [hsr] at h
              rw [hsr] at hsk
              by_cases h125 : d = 125
              · simp only [h125, if_true, Option.some.injEq, Prod.mk.injEq] at h
                rw [← h.2]; simp at hsk ⊢; omega
              · simp only [h125, if_false, Option.map_eq_some'] at h
                obtain ⟨q, hq, hqe⟩ := h
                have hl : (d :: r1).length < n := by omega
                have := (ihM (d :: r1) [] hl).2 q.1 q.2 hq
                simp only [Prod.mk.injEq] at hqe
                rw [← hqe.2]; simp at hsk this ⊢; omega
          · simp only [h123, if_false] at h
            split at h
            · simp only [Option.map_eq_some'] at h
              obtain ⟨q, hq, hqe⟩ := h
              have := parseNumber_lt _ _ _ hq
              simp only [Prod.mk.injEq] at hqe
              rw [← hqe.2]; exact this
            · exact parseWord_lt _ _ _ h


theorem fuel_elements_step (n : Nat) (ih : FuelOK n) (s : JStr) (hs : s.length < n + 1) :
    (∀ m, s.length < m → parseElements (n + 1) s = parseElements m s) ∧
    (∀ vs r, parseElements (n + 1) s = some (vs, r) → r.length < s.length) := by
  obtain ⟨ihV, ihE, ihM⟩ := ih
  rcases s with _ | ⟨c, rest⟩
  · constructor
    · intro m hm
      cases m with
      | zero => simp at hm
      | succ m => simp [parseElements]
    · intro v r h
      simp [parseElements] at h
  · have hrest : rest.length < n := by simpa using hs
    have hsk := skipWs_length_le rest
    constructor
    · intro m hm
      cases m with
      | zero => simp at hm
      | succ m =>
        have hrm : rest.length < m := by simpa using hm
        simp only [parseElements]
        by_cases h93 : c = 93
        · simp only [h93, if_true]
        · simp only [h93, if_false]
          by_cases h44 : c = 44
          · simp only [h44, if_true]
            rw [← (ihV (skipWs rest) (by omega)).1 m (by omega)]
            cases hpv : parseValue n (skipWs rest) with
            | none => rfl
            | some p =>
              obtain ⟨v, r1⟩ := p
              simp only
              have hp := (ihV (skipWs rest) (by omega)).2 v r1 hpv
              have hs1 := skipWs_length_le r1
              rw [← (ihE (skipWs r1) (by omega)).1 m (by omega)]
          · simp only [h44, if_false]
    · intro vs r h
      simp only [parseElements] at h
      by_cases h93 : c = 93
      · simp only [h93, if_true, Option.some.injEq, Prod.mk.injEq] at h
        rw [← h.2]; simp
      · simp only [h93, if_false] at h
        by_cases h44 : c = 44
        · simp only [h44, if_true] at h
          cases hpv : parseValue n (skipWs rest) with
          | none => simp [hpv] at h
          | some p =>
            obtain ⟨v1, r2⟩ := p
            simp only [hpv, Option.map_eq_some'] at h
            obtain ⟨q, hq, hqe⟩ := h
            have hp := (ihV (skipWs rest) (by omega)).2 v1 r2 hpv
            have hs1 := skipWs_length_le r2
            have := (ihE (skipWs r2) (by omega)).2 q.1 q.2 hq
            simp only [Prod.mk.injEq] at hqe
            rw [← hqe.2]; simp; omega
        · simp [h44] at h

theorem fuel_members_step (n : Nat) (ih : FuelOK n) (s : JStr) (acc : List (JStr × JVal))
    (hs : s.length < n + 1) :
    (∀ m, s.length < m → parseMembers (n + 1) s acc = parseMembers m s acc) ∧
    (∀ fs r, parseMembers (n + 1) s acc = some (fs, r) → r.length < s.length) := by
  obtain ⟨ihV, ihE, ihM⟩ := ih
  rcases s with _ | ⟨c, rest⟩
  · constructor
    · intro m hm
      cases m with
      | zero => simp at hm
      | succ m => simp [parseMembers]
    · intro v r h
      simp [parseMembers] at h
  · have hrest : rest.length < n := by simpa using hs
    constructor
    · intro m hm
      cases m with
      | zero => simp at hm
      | succ m =>
        have hrm : rest.length < m := by simpa using hm
        simp only [parseMembers]
        by_cases h34 : c = 34
        · simp only [h34, if_true]
          cases hps : parseStringBody rest with
          | none => rfl
          | some p =>
            obtain ⟨k, r1⟩ := p
            simp only
            have h1 := parseStringBody_lt rest.length rest (Nat.le_refl _) k r1 hps
            have hsk1 := skipWs_length_le r1
            cases hsr : skipWs r1 with
            | nil => rfl
            | cons colon r2 =>
              simp only
              rw [hsr] at hsk1
              by_cases h58 : colon = 58
              · simp only [h58, if_true]
                have hsk2 := skipWs_length_le r2
                have hl2 : r2.length < rest.length := by simp at hsk1; omega
                rw [← (ihV (skipWs r2) (by omega)).1 m (by omega)]
                cases hpv : parseValue n (skipWs r2) with
                | none => rfl
                | some q =>
                  obtain ⟨v, r3⟩ := q
                  simp only
                  have hp := (ihV (skipWs r2) (by omega)).2 v r3 hpv
                  have hsk3 := skipWs_length_le r3
                  cases hsr3 : skipWs r3 with
                  | nil => rfl
                  | cons d r4 =>
                    simp only
                    rw [hsr3] at hsk3
                    by_cases h125 : d = 125
                    · simp only [h125, if_true]
                    · simp only [h125, if_false]
                      by_cases h44 : d = 44
                      · simp only [h44, if_true]
                        have hsk4 := skipWs_length_le r4
                        have hl4 : r4.length < r3.length := by simp at hsk3; omega
                        rw [← (ihM (skipWs r4) (setProp acc k v) (by omega)).1 m (by omega)]
                      · simp only [h44, if_false]
              · simp only [h58, if_false]
        · simp only [h34, if_false]
    · intro fs r h
      simp only [parseMembers] at h
      by_cases h34 : c = 34
      · simp only [h34, if_true] at h
        cases hps : parseStringBody rest with
        | none => simp [hps] at h
        | some p =>
          obtain ⟨k, r1⟩ := p
          simp only [hps] at h
          have h1 := parseStringBody_lt rest.length rest (Nat.le_refl _) k r1 hps
          have hsk1 := skipWs_length_le r1
          cases hsr : skipWs r1 with
          | nil => simp [hsr] at h
          | cons colon r2 =>
            simp only [hsr] at h
            rw [hsr] at hsk1
            by_cases h58 : colon = 58
            · simp only [h58, if_true] at h
              have hsk2 := skipWs_length_le r2
              have hl2 : r2.length < rest.length := by simp at hsk1; omega
              cases hpv : parseValue n (skipWs r2) with
              | none => simp [hpv] at h
              | some q =>
                obtain ⟨v, r3⟩ := q
                simp only [hpv] at h
                have hp := (ihV (skipWs r2) (by omega)).2 v r3 hpv
                have hsk3 := skipWs_length_le r3
                cases hsr3 : skipWs r3 with
                | nil => simp [hsr3] at h
                | cons d r4 =>
                  simp only [hsr3] at h
                  rw [hsr3] at hsk3
                  have hl4 : r4.length < r3.length := by simp at hsk3; omega
                  by_cases h125 : d = 125
                  · simp only [h125, if_true, Option.some.injEq, Prod.mk.injEq] at h
                    rw [← h.2]; simp; omega
                  · simp only [h125, if_false] at h
                    by_cases h44 : d = 44
                    · simp only [h44, if_true] at h
                      have hsk4 := skipWs_length_le r4
                      have := (ihM (skipWs r4) (setProp acc k v) (by omega)).2 fs r h
                      simp; omega
                    · simp [h44] at h
            · simp [h58] at h
      · simp [h34] at h

/-- The readers do not depend on their first argument once it exceeds the length of
the text, and they consume at least one code unit. -/
theorem fuel_ok : ∀ n, FuelOK n := by
  intro n
  induction n with
  | zero =>
    refine ⟨fun s hs => ?_, fun s hs => ?_, fun s acc hs => ?_⟩ <;> simp at hs
  | succ n ih =>
    exact ⟨fun s hs => fuel_value_step n ih s hs, fun s hs => fuel_elements_step n ih s hs,
      fun s acc hs => fuel_members_step n ih s acc hs⟩

/-- Reading a value with any bound above the length of the text gives what the bound
of `jsonParse` gives: `JSON.parse` is not cut short. -/
theorem parseValue_fuel (n : Nat) (s : JStr) (h : s.length < n) :
    parseValue n s = parseValue (s.length + 1) s :=
  ((fuel_ok n).1 s h).1 (s.length + 1) (Nat.lt_succ_self _)

/-- The result of `jsonParse` is the result for every larger bound. -/
theorem jsonParse_fuel (n : Nat) (text : JStr) (h : text.length < n) :
    jsonParse text =
      match parseValue n (skipWs text) with
      | some (v, r) => if (skipWs r).isEmpty then some v else none
      | none => none := by
  have h1 := skipWs_length_le text
  unfold jsonParse
  rw [((fuel_ok n).1 (skipWs text) (by omega)).1 (text.length + 1) (by omega)]

/-! ## Lemmas on objects -/

theorem lookup_replaceVal {α : Type} (k k1 : JStr) (v : α) (o : List (JStr × α))
    (h : (lookup k1 o).isSome) :
    lookup k (replaceVal k1 v o) = if k1 = k then some v else lookup k o := by
  induction o with
  | nil => simp [lookup] at h
  | cons p rest ih =>
    obtain ⟨k2, v2⟩ := p
    by_cases h2 : k2 = k1
    · subst h2
      by_cases h3 : k2 = k <;> simp [replaceVal, lookup, h3]
    · have h4 : (lookup k1 rest).isSome := by simpa [lookup, h2] using h
      by_cases h3 : k2 = k
      · subst h3
        simp [replaceVal, lookup, h2, Ne.symm h2]
      · simp [replaceVal, lookup, h2, h3, ih h4]

theorem lookup_insertIndexed {α : Type} (k k1 : JStr) (i : Nat) (v : α) (o : List (JStr × α))
    (h : lookup k1 o = none) :
    lookup k (insertIndexed i k1 v o) = if k1 = k then some v else lookup k o := by
  induction o with
  | nil => simp [insertIndexed, lookup]
  | cons p rest ih =>
    obtain ⟨k2, v2⟩ := p
    have h2 : k2 ≠ k1 := by
      intro h3; simp [lookup, h3] at h
    have h4 : lookup k1 rest = none := by simpa [lookup, h2] using h
    unfold insertIndexed
    split
    · split
      · by_cases h3 : k2 = k
        · subst h3; simp [lookup, Ne.symm h2]
        · simp [lookup, h3, ih h4]
      · simp [lookup]
    · simp [lookup]

theorem lookup_append_single {α : Type} (k k1 : JStr) (v : α) (o : List (JStr × α))
    (h : lookup k1 o = none) :
    lookup k (o ++ [(k1, v)]) = if k1 = k then some v else lookup k o := by
  induction o with
  | nil => simp [lookup]
  | cons p rest ih =>
    obtain ⟨k2, v2⟩ := p
    have h2 : k2 ≠ k1 := by
      intro h3; simp [lookup, h3] at h
    have h4 : lookup k1 rest = none := by simpa [lookup, h2] using h
    by_cases h3 : k2 = k
    · subst h3; simp [lookup, Ne.symm h2]
    · simp [lookup, h3, ih h4]

/-- Reading a field after `setProp`: the field just set has the new value, every other
field is unchanged. -/
theorem lookup_setProp {α : Type} (k k1 : JStr) (v : α) (o : List (JStr × α)) :
    lookup k (setProp o k1 v) = if k1 = k then some v else lookup k o := by
  unfold setProp
  split
  · rename_i h; exact lookup_replaceVal k k1 v o h
  · rename_i h
    have h1 : lookup k1 o = none := by
      cases h2 : lookup k1 o with
      | none => rfl
      | some x => simp [h2] at h
    split
    · exact lookup_insertIndexed k k1 _ v o h1
    · exact lookup_append_single k k1 v o h1

theorem lookup_map_json (k : JStr) (fs : List (JStr × JVal)) :
    lookup k (fs.map (fun p => (p.1, Val.json p.2))) = (lookup k fs).map Val.json := by
  induction fs with
  | nil => rfl
  | cons p rest ih =>
    obtain ⟨k2, v2⟩ := p
    by_cases h : k2 = k <;> simp [lookup, h, ih]



/-! ## Lemmas on `enrich` -/

/-- Reading from a value other than `null` does not throw. -/
theorem getProp_ok (x : JVal) (k : JStr) (h : x ≠ .null) : ∃ v, getProp x k = .ok v := by
  cases x with
  | null => exact absurd rfl h
  | bool b => exact ⟨_, rfl⟩
  | num n => exact ⟨_, rfl⟩
  | str s =>
    simp only [getProp]
    repeat' split
    all_goals exact ⟨_, rfl⟩
  | arr xs =>
    simp only [getProp]
    repeat' split
    all_goals exact ⟨_, rfl⟩
  | obj fs =>
    simp only [getProp]
    repeat' split
    all_goals exact ⟨_, rfl⟩

/-- What a successful call of the callback of `parseResponse` has read and built. -/
theorem enrich_ok {self : BaseAIService} {userStory testType : JStr} {x : JVal} {o : Obj}
    (h : enrich self userStory testType x = .ok o) :
    ∃ st pre post tg pr cx t,
      getProp x (js "steps") = .ok st ∧
      getProp x (js "preconditions") = .ok pre ∧
      getProp x (js "postconditions") = .ok post ∧
      getProp x (js "tags") = .ok tg ∧
      getProp x (js "priority") = .ok pr ∧
      getProp x (js "complexity") = .ok cx ∧
      estimateTime (orDefault cx (strVal (js "medium"))) = .ok t ∧
      ∀ k, lookup k o =
        if js "estimatedTime" = k then some t
        else if js "priority" = k then some (orDefault pr (strVal (js "medium")))
        else if js "tags" = k then
          some (orDefault tg (.json (.arr [.str (js "ai-generated"), .str testType])))
        else if js "postconditions" = k then some (orDefault post (.json (.arr [])))
        else if js "preconditions" = k then some (orDefault pre (.json (.arr [])))
        else if js "steps" = k then some (orDefault st (.json (.arr [])))
        else if js "status" = k then some (strVal (js "not_started"))
        else if js "aiModel" = k then some (strVal self.model)
        else if js "aiGenerated" = k then some (.json (.bool true))
        else if js "testType" = k then some (strVal testType)
        else if js "userStory" = k then some (strVal userStory)
        else lookup k (spread x) := by
  have hx : x ≠ .null := by
    intro h1; subst h1; simp [enrich, getProp, bind, Except.bind] at h
  obtain ⟨st, hst⟩ := getProp_ok x (js "steps") hx
  obtain ⟨pre, hpre⟩ := getProp_ok x (js "preconditions") hx
  obtain ⟨post, hpost⟩ := getProp_ok x (js "postconditions") hx
  obtain ⟨tg, htg⟩ := getProp_ok x (js "tags") hx
  obtain ⟨pr, hpr⟩ := getProp_ok x (js "priority") hx
  obtain ⟨cx, hcx⟩ := getProp_ok x (js "complexity") hx
  refine ⟨st, pre, post, tg, pr, cx, ?_⟩
  simp only [enrich, hst, hpre, hpost, htg, hpr, hcx, bind, Except.bind, pure, Except.pure] at h
  cases ht : estimateTime (orDefault cx (strVal (js "medium"))) with
  | error e => simp [ht] at h
  | ok t =>
    simp only [ht, Except.ok.injEq] at h
    refine ⟨t, hst, hpre, hpost, htg, hpr, hcx, rfl, ?_⟩
    intro k
    subst h
    simp only [lookup_setProp]


/-! ## Lemmas on `map` and `parseResponse` -/

/-- A successful `map` pairs every element with the result of the callback, in order. -/
theorem mapThrow_ok {α β ε : Type} {f : α → Except ε β} {xs : List α} {ys : List β}
    (h : mapThrow f xs = .ok ys) : List.Forall₂ (fun x y => f x = .ok y) xs ys := by
  induction xs generalizing ys with
  | nil =>
    simp only [mapThrow, Except.ok.injEq] at h
    subst h
    exact List.Forall₂.nil
  | cons x rest ih =>
    simp only [mapThrow] at h
    cases hx : f x with
    | error e => simp [hx] at h
    | ok y =>
      cases hr : mapThrow f rest with
      | error e => simp [hx, hr] at h
      | ok ys1 =>
        simp only [hx, hr, Except.ok.injEq] at h
        subst h
        exact List.Forall₂.cons hx (ih hr)

/-- The loop of `map` succeeds when the callback succeeds on every element. -/
theorem mapThrow_succeeds {α β ε : Type} {f : α → Except ε β} {xs : List α}
    (h : ∀ x ∈ xs, ∃ y, f x = .ok y) : ∃ ys, mapThrow f xs = .ok ys := by
  induction xs with
  | nil => exact ⟨[], rfl⟩
  | cons x rest ih =>
    obtain ⟨y, hy⟩ := h x (List.mem_cons_self x rest)
    obtain ⟨ys, hys⟩ := ih (fun z hz => h z (List.mem_cons_of_mem x hz))
    exact ⟨y :: ys, by simp [mapThrow, hy, hys]⟩

/-- In a pairing, every element on the left has a partner on the right. -/
theorem forall₂_left {α β : Type} {R : α → β → Prop} {xs : List α} {ys : List β}
    (h : List.Forall₂ R xs ys) : ∀ x ∈ xs, ∃ y ∈ ys, R x y := by
  induction h with
  | nil => intro x hx; cases hx
  | cons hr _ ih =>
    intro x hx
    rcases List.mem_cons.mp hx with h1 | h1
    · subst h1; exact ⟨_, List.mem_cons_self _ _, hr⟩
    · obtain ⟨y, hy, hxy⟩ := ih x h1
      exact ⟨y, List.mem_cons_of_mem _ hy, hxy⟩

/-- In a pairing, every element on the right has a partner on the left. -/
theorem forall₂_right {α β : Type} {R : α → β → Prop} {xs : List α} {ys : List β}
    (h : List.Forall₂ R xs ys) : ∀ y ∈ ys, ∃ x ∈ xs, R x y := by
  induction h with
  | nil => intro y hy; cases hy
  | cons hr _ ih =>
    intro y hy
    rcases List.mem_cons.mp hy with h1 | h1
    · subst h1; exact ⟨_, List.mem_cons_self _ _, hr⟩
    · obtain ⟨x, hx, hxy⟩ := ih y h1
      exact ⟨x, List.mem_cons_of_mem _ hx, hxy⟩

/-- The loop of `map` throws when the callback throws on some element. -/
theorem mapThrow_fails {α β ε : Type} {f : α → Except ε β} {xs : List α} {x : α}
    (hx : x ∈ xs) (h : ∀ y, f x ≠ .ok y) : ∀ ys, mapThrow f xs ≠ .ok ys := by
  intro ys hys
  obtain ⟨y, _, hy⟩ := forall₂_left (mapThrow_ok hys) x hx
  exact h y hy

/-- The outcome of `parseResponse` once the cleaned text has parsed to an array. -/
theorem parseResponse_of_array {self : BaseAIService} {raw userStory testType : JStr}
    {A : List JVal} (hparse : jsonParse (cleanResponse raw) = some (.arr A)) :
    parseResponse self raw userStory testType =
      match mapThrow (enrich self userStory testType) A with
      | .ok r => .ok r
      | .error _ => .error (.error (js "Invalid response format from AI service")) := by
  simp only [parseResponse, parseResponseTry, hparse]

/-- A result of `parseResponse` comes from an array the cleaned text parsed to. -/
theorem parseResponse_ok {self : BaseAIService} {raw userStory testType : JStr}
    {r : List Obj} (h : parseResponse self raw userStory testType = .ok r) :
    ∃ A, jsonParse (cleanResponse raw) = some (.arr A) ∧
      mapThrow (enrich self userStory testType) A = .ok r := by
  simp only [parseResponse, parseResponseTry] at h
  cases hp : jsonParse (cleanResponse raw) with
  | none => simp [hp] at h
  | some v =>
    cases v with
    | arr A =>
      refine ⟨A, rfl, ?_⟩
      simp only [hp] at h
      cases hm : mapThrow (enrich self userStory testType) A with
      | error e => simp [hm] at h
      | ok r1 =>
        simp only [hm, Except.ok.injEq] at h
        subst h; rfl
    | null => simp [hp] at h
    | bool b => simp [hp] at h
    | num n => simp [hp] at h
    | str s => simp [hp] at h
    | obj fs => simp [hp] at h

/-- Every element `parseResponse` returns is the enrichment of some parsed element. -/
theorem parseResponse_mem {self : BaseAIService} {raw userStory testType : JStr}
    {r : List Obj} (h : parseResponse self raw userStory testType = .ok r) :
    ∀ o ∈ r, ∃ x, enrich self userStory testType x = .ok o := by
  obtain ⟨A, _, hm⟩ := parseResponse_ok h
  intro o ho
  obtain ⟨x, _, hx⟩ := forall₂_right (mapThrow_ok hm) o ho
  exact ⟨x, hx⟩


/-- The six names `parseResponse` reads from an element are plain own-field reads. -/
theorem getProp_eq_ownField (x : JVal) (k : JStr) (hx : x ≠ .null)
    (hp : objectProtoGet k = none) (hl : k ≠ js "length") (hi : arrayIndex? k = none) :
    getProp x k = .ok ((ownField x k).map Val.json) := by
  cases x with
  | null => exact absurd rfl hx
  | bool b => rfl
  | num n => rfl
  | str s => simp [getProp, ownField, hl, hi]
  | arr xs => simp [getProp, ownField, hl, hi]
  | obj fs =>
    simp only [getProp, ownField, hp]
    cases lookup k fs <;> rfl

/-- Converting a falsy value, `medium`, or nothing at all to a table entry of
`estimateTime` gives thirty minutes. -/
theorem estimateTime_falsy (c : JVal) (h : truthy (.json c) = false) :
    estimateTime (.json c) = .ok (numVal 30) := by
  cases c with
  | null => rfl
  | bool b =>
    cases b with
    | false => rfl
    | true => simp [truthy] at h
  | num n => rfl
  | str s =>
    cases s with
    | nil => rfl
    | cons a t => simp [truthy] at h
  | arr xs => simp [truthy] at h
  | obj fs => simp [truthy] at h

/-- A successful enrichment in terms of the own fields of the element. -/
theorem enrich_ok_own {self : BaseAIService} {userStory testType : JStr} {x : JVal} {o : Obj}
    (h : enrich self userStory testType x = .ok o) :
    x ≠ .null ∧ ∃ t,
      estimateTime (orDefault ((ownField x (js "complexity")).map Val.json)
        (strVal (js "medium"))) = .ok t ∧
      ∀ k, lookup k o =
        if js "estimatedTime" = k then some t
        else if js "priority" = k then
          some (orDefault ((ownField x (js "priority")).map Val.json) (strVal (js "medium")))
        else if js "tags" = k then
          some (orDefault ((ownField x (js "tags")).map Val.json)
            (.json (.arr [.str (js "ai-generated"), .str testType])))
        else if js "postconditions" = k then
          some (orDefault ((ownField x (js "postconditions")).map Val.json) (.json (.arr [])))
        else if js "preconditions" = k then
          some (orDefault ((ownField x (js "preconditions")).map Val.json) (.json (.arr [])))
        else if js "steps" = k then
          some (orDefault ((ownField x (js "steps")).map Val.json) (.json (.arr [])))
        else if js "status" = k then some (strVal (js "not_started"))
        else if js "aiModel" = k then some (strVal self.model)
        else if js "aiGenerated" = k then some (.json (.bool true))
        else if js "testType" = k then some (strVal testType)
        else if js "userStory" = k then some (strVal userStory)
        else lookup k (spread x) := by
  have hx : x ≠ .null := by
    intro h1; subst h1; simp [enrich, getProp, bind, Except.bind] at h
  obtain ⟨st, pre, post, tg, pr, cx, t, h1, h2, h3, h4, h5, h6, h7, hl⟩ := enrich_ok h
  rw [getProp_eq_ownField x (js "steps") hx (by decide) (by decide) (by decide)] at h1
  rw [getProp_eq_ownField x (js "preconditions") hx (by decide) (by decide) (by decide)] at h2
  rw [getProp_eq_ownField x (js "postconditions") hx (by decide) (by decide) (by decide)] at h3
  rw [getProp_eq_ownField x (js "tags") hx (by decide) (by decide) (by decide)] at h4
  rw [getProp_eq_ownField x (js "priority") hx (by decide) (by decide) (by decide)] at h5
  rw [getProp_eq_ownField x (js "complexity") hx (by decide) (by decide) (by decide)] at h6
  simp only [Except.ok.injEq] at h1 h2 h3 h4 h5 h6
  subst h1 h2 h3 h4 h5 h6
  exact ⟨hx, t, h7, hl⟩

/-- The callback succeeds on an element that is not `null` once `estimateTime` accepts
its complexity. -/
theorem enrich_succeeds_of {self : BaseAIService} {userStory testType : JStr} {x : JVal}
    (hx : x ≠ .null) {t : Val}
    (ht : estimateTime (orDefault ((ownField x (js "complexity")).map Val.json)
        (strVal (js "medium"))) = .ok t) :
    ∃ o, enrich self userStory testType x = .ok o := by
  have e1 := getProp_eq_ownField x (js "steps") hx (by decide) (by decide) (by decide)
  have e2 := getProp_eq_ownField x (js "preconditions") hx (by decide) (by decide) (by decide)
  have e3 := getProp_eq_ownField x (js "postconditions") hx (by decide) (by decide) (by decide)
  have e4 := getProp_eq_ownField x (js "tags") hx (by decide) (by decide) (by decide)
  have e5 := getProp_eq_ownField x (js "priority") hx (by decide) (by decide) (by decide)
  have e6 := getProp_eq_ownField x (js "complexity") hx (by decide) (by decide) (by decide)
  simp only [enrich, e1, e2, e3, e4, e5, e6, ht, bind, Except.bind, pure, Except.pure]
  exact ⟨_, rfl⟩

/-- The callback succeeds on an enrichable element. -/
theorem enrich_succeeds {self : BaseAIService} {userStory testType : JStr} {x : JVal}
    (h : enrichable x = true) : ∃ o, enrich self userStory testType x = .ok o := by
  have hx : x ≠ .null := by
    intro h1; subst h1; simp [enrichable] at h
  have hc : convertsToKey (orDefault ((ownField x (js "complexity")).map Val.json)
      (strVal (js "medium"))) = true := by
    cases x with
    | null => exact absurd rfl hx
    | bool b => exact h
    | num n => exact h
    | str s => exact h
    | arr xs => exact h
    | obj fs => exact h
  unfold convertsToKey at hc
  split at hc
  · rename_i k hk
    exact enrich_succeeds_of hx (t := orDefault (getByKey timeEstimates k) (numVal 30))
      (by simp only [estimateTime, hk])
  · exact absurd hc (by simp)

/-- The callback throws on an element that is not enrichable. -/
theorem enrich_fails {self : BaseAIService} {userStory testType : JStr} {x : JVal}
    (h : enrichable x = false) : ∀ o, enrich self userStory testType x ≠ .ok o := by
  intro o ho
  obtain ⟨hx, t, ht, _⟩ := enrich_ok_own ho
  have hc : convertsToKey (orDefault ((ownField x (js "complexity")).map Val.json)
      (strVal (js "medium"))) = false := by
    cases x with
    | null => exact absurd rfl hx
    | bool b => exact h
    | num n => exact h
    | str s => exact h
    | arr xs => exact h
    | obj fs => exact h
  unfold convertsToKey at hc
  split at hc
  · exact absurd hc (by simp)
  · rename_i e he
    simp only [estimateTime, he] at ht
    cases ht

/-- An element that is not `null` and whose complexity is absent or a string, a number,
a boolean or `null` is enrichable. -/
theorem enrichable_of_plainElement (x : JVal) (h : plainElement x = true) :
    enrichable x = true := by
  cases x with
  | null => simp [plainElement] at h
  | bool b => rfl
  | num n => rfl
  | str s => rfl
  | arr xs => rfl
  | obj fs =>
    simp only [plainElement] at h
    simp only [enrichable, ownField]
    cases hc : lookup (js "complexity") fs with
    | none => rfl
    | some c =>
      rw [hc] at h
      cases c with
      | null => rfl
      | bool b => cases b <;> rfl
      | num n =>
        simp only [Option.map, orDefault]
        split <;> rfl
      | str s =>
        simp only [Option.map, orDefault]
        split <;> rfl
      | arr xs => simp [plainComplexity] at h
      | obj gs => simp [plainComplexity] at h

/-- Calling the callback on `null` throws. -/
theorem enrich_null (self : BaseAIService) (userStory testType : JStr) :
    ∀ o, enrich self userStory testType .null ≠ .ok o := by
  intro o h
  simp [enrich, getProp, bind, Except.bind] at h

/-- A result of `parseResponse` pairs with the parsed array, element by element. -/
theorem parseResponse_pairs {self : BaseAIService} {raw userStory testType : JStr}
    {A : List JVal} {r : List Obj}
    (hparse : jsonParse (cleanResponse raw) = some (.arr A))
    (h : parseResponse self raw userStory testType = .ok r) :
    r.length = A.length ∧
    ∀ i (h1 : i < A.length) (h2 : i < r.length),
      enrich self userStory testType (A.get ⟨i, h1⟩) = .ok (r.get ⟨i, h2⟩) := by
  obtain ⟨B, hB, hm⟩ := parseResponse_ok h
  rw [hparse] at hB
  simp only [Option.some.injEq, JVal.arr.injEq] at hB
  subst hB
  have h2 := mapThrow_ok hm
  exact ⟨h2.length_eq.symm, fun i h1 h3 => h2.get h1 h3⟩

/-- The call succeeds when the callback succeeds on every parsed element. -/
theorem parseResponse_succeeds {self : BaseAIService} {raw userStory testType : JStr}
    {A : List JVal}
    (hparse : jsonParse (cleanResponse raw) = some (.arr A))
    (h : ∀ x ∈ A, ∃ o, enrich self userStory testType x = .ok o) :
    ∃ r, parseResponse self raw userStory testType = .ok r := by
  obtain ⟨r, hr⟩ := mapThrow_succeeds h
  exact ⟨r, by rw [parseResponse_of_array hparse, hr]⟩


/-- The five fields the enrichment overwrites, in an element `parseResponse` returns. -/
theorem enriched_overwritten {self : BaseAIService} {raw userStory testType : JStr}
    {r : List Obj} (h : parseResponse self raw userStory testType = .ok r) :
    ∀ o ∈ r,
      getField o (js "userStory") = some (strVal userStory) ∧
      getField o (js "testType") = some (strVal testType) ∧
      getField o (js "aiGenerated") = some (.json (.bool true)) ∧
      getField o (js "aiModel") = some (strVal self.model) ∧
      getField o (js "status") = some (strVal (js "not_started")) := by
  intro o ho
  obtain ⟨x, hx⟩ := parseResponse_mem h o ho
  obtain ⟨st, pre, post, tg, pr, cx, t, -, -, -, -, -, -, -, hl⟩ := enrich_ok hx
  refine ⟨?_, ?_, ?_, ?_, ?_⟩ <;>
  · simp only [getField, hl]
    rfl

/-! ## Claims on `parseResponse` -/

/-- C2. If the text left after removing the code fences and trimming does not parse as
JSON, or parses to a value that is not an array, `parseResponse` throws the error
whose message is exactly `Invalid response format from AI service`. -/
theorem C2_malformed_response_rejected (self : BaseAIService)
    (raw userStory testType : JStr)
    (h : jsonParse (cleanResponse raw) = none ∨
      ∃ v, jsonParse (cleanResponse raw) = some v ∧ ∀ A, v ≠ .arr A) :
    parseResponse self raw userStory testType =
      .error (.error (js "Invalid response format from AI service")) := by
  rcases h with h | ⟨v, hv, hna⟩
  · simp only [parseResponse, parseResponseTry, h]
  · cases v with
    | arr A => exact absurd rfl (hna A)
    | null => simp only [parseResponse, parseResponseTry, hv]
    | bool b => simp only [parseResponse, parseResponseTry, hv]
    | num n => simp only [parseResponse, parseResponseTry, hv]
    | str s => simp only [parseResponse, parseResponseTry, hv]
    | obj fs => simp only [parseResponse, parseResponseTry, hv]

/-- Witness of C2: the text `not json` does not parse, a fenced JSON object is not an
array; both calls throw the format error. -/
theorem C2_malformed_response_rejected_witness :
    parseResponse openaiInitial (js "not json") (js "story") (js "functional") =
        .error (.error (js "Invalid response format from AI service")) ∧
    parseResponse openaiInitial (js "```json\n\x7b\"title\":\"T\"\x7d\n```") (js "story")
        (js "functional") =
        .error (.error (js "Invalid response format from AI service")) :=
  ⟨C2_malformed_response_rejected openaiInitial (js "not json") (js "story")
      (js "functional") (Or.inl rfl),
   C2_malformed_response_rejected openaiInitial
      (js "```json\n\x7b\"title\":\"T\"\x7d\n```") (js "story") (js "functional")
      (Or.inr ⟨.obj [(js "title", .str (js "T"))], rfl, fun A h => by cases h⟩)⟩

/-- C6. Every element `parseResponse` returns has `userStory` and `testType` equal to
the arguments, `aiGenerated` true, `aiModel` equal to the model of the service and
`status` equal to `not_started`, whatever the model supplied for these fields. -/
theorem C6_overwritten_fields (self : BaseAIService) (raw userStory testType : JStr)
    (r : List Obj) (h : parseResponse self raw userStory testType = .ok r) :
    ∀ o ∈ r,
      getField o (js "userStory") = some (strVal userStory) ∧
      getField o (js "testType") = some (strVal testType) ∧
      getField o (js "aiGenerated") = some (.json (.bool true)) ∧
      getField o (js "aiModel") = some (strVal self.model) ∧
      getField o (js "status") = some (strVal (js "not_started")) := by
  exact enriched_overwritten h

set_option maxRecDepth 100000 in
/-- Witness of C6: the one element returned for `overwriteSample` carries the request's
values, not the supplied ones. -/
theorem C6_overwritten_fields_witness :
    (resultOf (parseResponse openaiInitial overwriteSample (js "story") (js "edge"))).length = 1 ∧
    ∀ o ∈ resultOf (parseResponse openaiInitial overwriteSample (js "story") (js "edge")),
      getField o (js "userStory") = some (strVal (js "story")) ∧
      getField o (js "testType") = some (strVal (js "edge")) ∧
      getField o (js "aiGenerated") = some (.json (.bool true)) ∧
      getField o (js "aiModel") = some (strVal openaiInitial.model) ∧
      getField o (js "status") = some (strVal (js "not_started")) :=
  ⟨rfl, C6_overwritten_fields openaiInitial overwriteSample (js "story") (js "edge") _ rfl⟩


/-- Counterexample to C3: the cleaned text `[null]` parses to a JSON array, and
`parseResponse` does not succeed on it: reading `steps` from `null` throws, which
the `catch` turns into the format error. -/
theorem C3_null_element_counterexample :
    jsonParse (cleanResponse nullSample) = some (.arr [.null]) ∧
    parseResponse openaiInitial nullSample (js "story") (js "functional") =
      .error (.error (js "Invalid response format from AI service")) :=
  ⟨rfl, rfl⟩

/-- C3 (amended). When the cleaned text parses to a JSON array `A`, `parseResponse`
succeeds exactly when no element of `A` is `null` or carries a complexity whose
conversion to a property name throws.  It then returns a sequence of the same
length whose i-th element is the enrichment of the i-th element of `A`; otherwise
it throws the format error. -/
theorem C3_elements_enriched_in_order (self : BaseAIService)
    (raw userStory testType : JStr) (A : List JVal)
    (hparse : jsonParse (cleanResponse raw) = some (.arr A)) :
    ((∀ x ∈ A, enrichable x = true) →
      ∃ r, parseResponse self raw userStory testType = .ok r ∧ r.length = A.length ∧
        ∀ i (h1 : i < A.length) (h2 : i < r.length),
          enrich self userStory testType (A.get ⟨i, h1⟩) = .ok (r.get ⟨i, h2⟩)) ∧
    ((∃ x ∈ A, enrichable x = false) →
      parseResponse self raw userStory testType =
        .error (.error (js "Invalid response format from AI service"))) := by
  constructor
  · intro hplain
    obtain ⟨r, hr⟩ := @parseResponse_succeeds self raw userStory testType A hparse
      (fun x hx => enrich_succeeds (hplain x hx))
    obtain ⟨hlen, hget⟩ := parseResponse_pairs hparse hr
    exact ⟨r, hr, hlen, hget⟩
  · rintro ⟨x, hx, hbad⟩
    rw [parseResponse_of_array hparse]
    cases hm : mapThrow (enrich self userStory testType) A with
    | error e => rfl
    | ok r => exact absurd hm (mapThrow_fails hx (enrich_fails hbad) r)

/-- Witness of C3: an array of an object, a number and a string is enriched element by
element, and an array that holds `null` is rejected. -/
theorem C3_elements_enriched_in_order_witness :
    (∃ r, parseResponse openaiInitial mixedSample (js "story") (js "edge") = .ok r ∧
      r.length = 3 ∧
      ∀ i (h1 : i < 3) (h2 : i < r.length),
        enrich openaiInitial (js "story") (js "edge")
          ([.obj [(js "title", .str (js "A"))], .num ⟨false, 5, 0⟩, .str (js "xy")].get ⟨i, h1⟩)
          = .ok (r.get ⟨i, h2⟩)) ∧
    parseResponse openaiInitial nullSample (js "story") (js "edge") =
      .error (.error (js "Invalid response format from AI service")) :=
  ⟨(C3_elements_enriched_in_order openaiInitial mixedSample (js "story") (js "edge")
      [.obj [(js "title", .str (js "A"))], .num ⟨false, 5, 0⟩, .str (js "xy")] rfl).1
      (by decide),
   (C3_elements_enriched_in_order openaiInitial nullSample (js "story") (js "edge")
      [.null] rfl).2 ⟨.null, List.mem_singleton.mpr rfl, rfl⟩⟩

/-- What `v || d` gives for the own field of an element. -/
theorem defaultsTo_orDefault (source : Option JVal) (d : Val) (result : Option Val)
    (h : result = some (orDefault (source.map Val.json) d)) : defaultsTo source d result := by
  subst h
  constructor
  · intro v hv ht
    subst hv
    simp [orDefault, ht]
  · rintro (hn | ⟨v, hv, hf⟩)
    · subst hn; rfl
    · subst hv
      simp [orDefault, hf]

/-- Counterexample to C7: the element supplies a priority, the empty string, and the
enriched element has priority `medium`: the supplied value is not kept, and the
default appears although the field is present. -/
theorem C7_falsy_priority_counterexample :
    jsonParse (cleanResponse falsyPrioritySample) =
      some (.arr [.obj [(js "priority", .str [])]]) ∧
    (resultOf (parseResponse openaiInitial falsyPrioritySample (js "story")
      (js "functional"))).map (fun o => getField o (js "priority")) =
      [some (strVal (js "medium"))] :=
  ⟨rfl, rfl⟩

/-- C7 (amended). In every element `parseResponse` returns, `steps`, `preconditions`
and `postconditions` are the empty sequence, `tags` is `['ai-generated', testType]`
and `priority` is `medium` when the source element has no such field or a falsy
one (`null`, `false`, zero, the empty string); a truthy value the source element
supplies is kept unchanged. -/
theorem C7_defaults_for_absent_or_falsy (self : BaseAIService)
    (raw userStory testType : JStr) (A : List JVal) (r : List Obj)
    (hparse : jsonParse (cleanResponse raw) = some (.arr A))
    (h : parseResponse self raw userStory testType = .ok r) :
    List.Forall₂ (fun x o =>
      defaultsTo (ownField x (js "steps")) (.json (.arr [])) (getField o (js "steps")) ∧
      defaultsTo (ownField x (js "preconditions")) (.json (.arr []))
        (getField o (js "preconditions")) ∧
      defaultsTo (ownField x (js "postconditions")) (.json (.arr []))
        (getField o (js "postconditions")) ∧
      defaultsTo (ownField x (js "tags"))
        (.json (.arr [.str (js "ai-generated"), .str testType])) (getField o (js "tags")) ∧
      defaultsTo (ownField x (js "priority")) (strVal (js "medium"))
        (getField o (js "priority"))) A r := by
  obtain ⟨hlen, hget⟩ := parseResponse_pairs hparse h
  rw [List.forall₂_iff_get]
  refine ⟨hlen.symm, fun i h1 h2 => ?_⟩
  obtain ⟨_, t, _, hl⟩ := enrich_ok_own (hget i h1 h2)
  refine ⟨?_, ?_, ?_, ?_, ?_⟩ <;>
  · apply defaultsTo_orDefault
    simp only [getField, hl]
    rfl

/-- Witness of C7: supplied steps and priority are kept, the `null` preconditions and
the absent postconditions and tags are defaulted. -/
theorem C7_defaults_for_absent_or_falsy_witness :
    List.Forall₂ (fun x o =>
      defaultsTo (ownField x (js "steps")) (.json (.arr [])) (getField o (js "steps")) ∧
      defaultsTo (ownField x (js "preconditions")) (.json (.arr []))
        (getField o (js "preconditions")) ∧
      defaultsTo (ownField x (js "postconditions")) (.json (.arr []))
        (getField o (js "postconditions")) ∧
      defaultsTo (ownField x (js "tags"))
        (.json (.arr [.str (js "ai-generated"), .str (js "edge")])) (getField o (js "tags")) ∧
      defaultsTo (ownField x (js "priority")) (strVal (js "medium"))
        (getField o (js "priority")))
      [.obj [(js "steps", .arr [.obj [(js "action", .str (js "a"))]]),
        (js "priority", .str (js "high")), (js "preconditions", .null)]]
      (resultOf (parseResponse openaiInitial defaultsSample (js "story") (js "edge"))) :=
  C7_defaults_for_absent_or_falsy openaiInitial defaultsSample (js "story") (js "edge") _ _
    rfl rfl

/-- C8. In every element `parseResponse` returns, `estimatedTime` is `estimateTime(c)`
when the source element has the own complexity field `c`, and thirty, the value of
`estimateTime('medium')`, when it has none. -/
theorem C8_estimated_time (self : BaseAIService)
    (raw userStory testType : JStr) (A : List JVal) (r : List Obj)
    (hparse : jsonParse (cleanResponse raw) = some (.arr A))
    (h : parseResponse self raw userStory testType = .ok r) :
    List.Forall₂ (fun x o =>
      (∀ c, ownField x (js "complexity") = some c →
        ∃ t, estimateTime (.json c) = .ok t ∧ getField o (js "estimatedTime") = some t) ∧
      (ownField x (js "complexity") = none →
        getField o (js "estimatedTime") = some (numVal 30))) A r ∧
    estimateTime (strVal (js "medium")) = .ok (numVal 30) := by
  refine ⟨?_, rfl⟩
  obtain ⟨hlen, hget⟩ := parseResponse_pairs hparse h
  rw [List.forall₂_iff_get]
  refine ⟨hlen.symm, fun i h1 h2 => ?_⟩
  obtain ⟨_, t, ht, hl⟩ := enrich_ok_own (hget i h1 h2)
  have hf : getField (r.get ⟨i, h2⟩) (js "estimatedTime") = some t := by
    simp only [getField, hl]
    rfl
  constructor
  · intro c hc
    rw [hc] at ht
    by_cases htr : truthy (.json c) = true
    · refine ⟨t, ?_, hf⟩
      simpa [orDefault, htr] using ht
    · have hfalse : truthy (.json c) = false := by simpa using htr
      refine ⟨numVal 30, estimateTime_falsy c hfalse, ?_⟩
      have h30 : t = numVal 30 := by
        have h5 : estimateTime (strVal (js "medium")) = .ok t := by
          simpa [orDefault, hfalse] using ht
        have h6 : estimateTime (strVal (js "medium")) = .ok (numVal 30) := rfl
        rw [h6] at h5
        exact (Except.ok.inj h5).symm
      rw [hf, h30]
  · intro hc
    rw [hc] at ht
    have h6 : estimateTime (strVal (js "medium")) = .ok (numVal 30) := rfl
    have h5 : estimateTime (strVal (js "medium")) = .ok t := by
      simpa [orDefault] using ht
    rw [h6] at h5
    rw [hf, ← Except.ok.inj h5]

/-- Witness of C8: the element with complexity `simple` gets fifteen minutes, the one
without a complexity gets thirty. -/
theorem C8_estimated_time_witness :
    List.Forall₂ (fun x o =>
      (∀ c, ownField x (js "complexity") = some c →
        ∃ t, estimateTime (.json c) = .ok t ∧ getField o (js "estimatedTime") = some t) ∧
      (ownField x (js "complexity") = none →
        getField o (js "estimatedTime") = some (numVal 30)))
      [.obj [(js "title", .str (js "T")), (js "complexity", .str (js "simple"))],
        .obj [(js "title", .str (js "U"))]]
      (resultOf (parseResponse openaiInitial complexitySample (js "story") (js "edge"))) ∧
    estimateTime (strVal (js "medium")) = .ok (numVal 30) :=
  C8_estimated_time openaiInitial complexitySample (js "story") (js "edge") _ _ rfl rfl


/-- Reading a field the enrichment does not touch gives what the spread copied. -/
theorem lookup_enriched_other {self : BaseAIService} {userStory testType : JStr} {x : JVal}
    {o : Obj} (h : enrich self userStory testType x = .ok o) (k : JStr)
    (hk : k ∉ enrichedKeys) : lookup k o = lookup k (spread x) := by
  obtain ⟨_, t, _, hl⟩ := enrich_ok_own h
  simp only [enrichedKeys, List.mem_cons, List.mem_singleton, List.not_mem_nil, or_false,
    not_or] at hk
  obtain ⟨k1, k2, k3, k4, k5, k6, k7, k8, k9, k10, k11⟩ := hk
  rw [hl k, if_neg (Ne.symm k11), if_neg (Ne.symm k10), if_neg (Ne.symm k9),
    if_neg (Ne.symm k8), if_neg (Ne.symm k7), if_neg (Ne.symm k6), if_neg (Ne.symm k5),
    if_neg (Ne.symm k4), if_neg (Ne.symm k3), if_neg (Ne.symm k2), if_neg (Ne.symm k1)]

/-- C5 (the code at the failing input). The text is what `JSON.stringify` gives for the
array of one object whose `description` is `a`, three backticks, `b`, and it parses
to that array; the element `parseResponse` returns for it has the description
`ab`: the field is not copied verbatim. -/
theorem C5_backticks_not_copied :
    jsonParse backtickFieldSample =
      some (.arr [.obj [(js "description", .str (js "a```b"))]]) ∧
    (resultOf (parseResponse openaiInitial backtickFieldSample (js "story")
      (js "functional"))).map (fun o => getField o (js "description")) =
      [some (strVal (js "ab"))] :=
  ⟨rfl, rfl⟩

/-- When the text left after removing the code fences and trimming parses to a JSON
array, every field of its i-th element other than the eleven fields
`parseResponse` overwrites or defaults is, with the same value, a field of the
i-th element returned; and elements are returned whenever every element of the
array is enrichable. -/
theorem other_fields_copied (self : BaseAIService)
    (raw userStory testType : JStr) (A : List JVal)
    (hparse : jsonParse (cleanResponse raw) = some (.arr A)) :
    (∀ r, parseResponse self raw userStory testType = .ok r →
      List.Forall₂ (fun x o =>
        ∀ k v, k ∉ enrichedKeys → ownField x k = some v →
          getField o k = some (.json v)) A r) ∧
    ((∀ x ∈ A, enrichable x = true) →
      ∃ r, parseResponse self raw userStory testType = .ok r) := by
  constructor
  · intro r h
    obtain ⟨hlen, hget⟩ := parseResponse_pairs hparse h
    rw [List.forall₂_iff_get]
    refine ⟨hlen.symm, fun i h1 h2 k v hk hv => ?_⟩
    have hl := lookup_enriched_other (hget i h1 h2) k hk
    cases hx : A.get ⟨i, h1⟩ with
    | obj fs =>
      rw [hx] at hv hl
      simp only [ownField] at hv
      simp only [spread, lookup_map_json, hv, Option.map] at hl
      simp only [getField, hl]
    | null => rw [hx] at hv; simp [ownField] at hv
    | bool b => rw [hx] at hv; simp [ownField] at hv
    | num n => rw [hx] at hv; simp [ownField] at hv
    | str s => rw [hx] at hv; simp [ownField] at hv
    | arr xs => rw [hx] at hv; simp [ownField] at hv
  · intro hplain
    exact parseResponse_succeeds hparse (fun x hx => enrich_succeeds (hplain x hx))

/-- The fields `title`, `testData` and `extra` of the one element of `copySample` are
fields of the element returned. -/
theorem other_fields_copied_example :
    List.Forall₂ (fun x o =>
        ∀ k v, k ∉ enrichedKeys → ownField x k = some v →
          getField o k = some (.json v))
      [.obj [(js "title", .str (js "T")), (js "testData", .str (js "d")),
        (js "extra", .arr [.num ⟨false, 1, 0⟩, .bool true])]]
      (resultOf (parseResponse openaiInitial copySample (js "story") (js "edge"))) :=
  (other_fields_copied openaiInitial copySample (js "story") (js "edge") _ rfl).1 _ rfl

/-- No message is pushed for an element that has a truthy title, a truthy expected
output and a non-empty array of steps. -/
theorem caseErrors_nil (index : Nat) (o : Obj) {t e : Val} {s : JVal} {ss : List JVal}
    (ht : getField o (js "title") = some t) (htt : truthy t = true)
    (he : getField o (js "expectedOutput") = some e) (het : truthy e = true)
    (hs : getField o (js "steps") = some (.json (.arr (s :: ss)))) :
    caseErrors index o = [] := by
  have h3 : truthy (.json (.arr (s :: ss))) = true := rfl
  have h4 : isStrictlyZero (readLength (.json (.arr (s :: ss)))) = false := by
    simp [readLength, isStrictlyZero, JNum.isZero, JNum.ofNat, -Nat.reducePow]
  simp [caseErrors, ht, he, hs, isFalsy, htt, het, h3, h4]

/-- The validation passes when no element gets a message. -/
theorem validateTestCases_ok (testCases : List Obj)
    (h : ∀ o ∈ testCases, ∀ i, caseErrors i o = []) :
    validateTestCases testCases = .ok true := by
  have hnil : validationErrors testCases = [] := by
    simp only [validationErrors]
    rw [List.flatMap_eq_nil_iff]
    intro p hp
    exact h p.2 (List.snd_mem_of_mem_enum hp) p.1
  simp [validateTestCases, hnil]

set_option maxRecDepth 100000 in
/-- Counterexample to C1, in two texts that `JSON.stringify` gives for an array of one
valid test-case-shaped object and that parse to that array.  For the element whose
complexity is an object with a field `toString`, the lookup in `estimateTime`
cannot convert the object to a property name, and `parseResponse` throws the format
error.  For the element whose title is three backticks, `parseResponse` returns one
element, with the empty title, and `validateTestCases` rejects it. -/
theorem C1_valid_shape_counterexample :
    (jsonParse objectComplexitySample =
      some (.arr [.obj [(js "title", .str (js "T")), (js "expectedOutput", .str (js "E")),
        (js "steps", .arr [.obj [(js "action", .str (js "a"))]]),
        (js "complexity", .obj [(js "toString", .num ⟨false, 1, 0⟩)])]]) ∧
    validTestCaseShape (.obj [(js "title", .str (js "T")),
      (js "expectedOutput", .str (js "E")),
      (js "steps", .arr [.obj [(js "action", .str (js "a"))]]),
      (js "complexity", .obj [(js "toString", .num ⟨false, 1, 0⟩)])]) = true ∧
    parseResponse openaiInitial objectComplexitySample (js "story") (js "functional") =
      .error (.error (js "Invalid response format from AI service"))) ∧
    (jsonParse backtickTitleSample =
      some (.arr [.obj [(js "title", .str (js "```")), (js "expectedOutput", .str (js "x")),
        (js "steps", .arr [.obj [(js "action", .str (js "a"))]])]]) ∧
    validTestCaseShape (.obj [(js "title", .str (js "```")),
      (js "expectedOutput", .str (js "x")),
      (js "steps", .arr [.obj [(js "action", .str (js "a"))]])]) = true ∧
    (resultOf (parseResponse openaiInitial backtickTitleSample (js "story")
      (js "functional"))).length = 1 ∧
    validateTestCases (resultOf (parseResponse openaiInitial backtickTitleSample (js "story")
      (js "functional"))) =
      .error (.error (js "Validation failed: Test case 1: Title is required"))) :=
  ⟨⟨rfl, rfl, rfl⟩, ⟨rfl, rfl, rfl, rfl⟩⟩

/-- C1 (amended). When the text left after removing the code fences and trimming
parses to a JSON array `A` of valid test-case-shaped objects (each with a non-empty
title, a non-empty expected output and at least one step) whose complexity, if
any, converts to a property name (as every string, number, boolean and `null`
does), `parseResponse` returns exactly `len(A)` elements, each with `aiGenerated`
true, and `validateTestCases` accepts them. -/
theorem C1_valid_array_accepted (self : BaseAIService)
    (raw userStory testType : JStr) (A : List JVal)
    (hparse : jsonParse (cleanResponse raw) = some (.arr A))
    (hvalid : ∀ x ∈ A, validTestCaseShape x = true ∧ enrichable x = true) :
    ∃ r, parseResponse self raw userStory testType = .ok r ∧
      r.length = A.length ∧
      (∀ o ∈ r, getField o (js "aiGenerated") = some (.json (.bool true))) ∧
      validateTestCases r = .ok true := by
  obtain ⟨r, hr⟩ := @parseResponse_succeeds self raw userStory testType A hparse
    (fun x hx => enrich_succeeds (hvalid x hx).2)
  obtain ⟨hlen, hget⟩ := parseResponse_pairs hparse hr
  refine ⟨r, hr, hlen, ?_, ?_⟩
  · intro o ho
    exact (enriched_overwritten hr o ho).2.2.1
  · apply validateTestCases_ok
    intro o ho idx
    obtain ⟨n, hn⟩ := List.mem_iff_get.mp ho
    have h1 : n.1 < A.length := hlen ▸ n.2
    have hen := hget n.1 h1 n.2
    rw [hn] at hen
    have hsh := (hvalid _ (List.get_mem A n.1 h1)).1
    obtain ⟨_, t, _, hl⟩ := enrich_ok_own hen
    cases hx : A.get ⟨n.1, h1⟩ with
    | obj fs =>
      rw [hx] at hsh hl
      simp only [validTestCaseShape, Bool.and_eq_true] at hsh
      obtain ⟨⟨htitle, hexp⟩, hsteps⟩ := hsh
      cases h1t : lookup (js "title") fs with
      | none => simp [h1t, nonEmptyString] at htitle
      | some tv =>
        cases h1e : lookup (js "expectedOutput") fs with
        | none => simp [h1e, nonEmptyString] at hexp
        | some ev =>
          cases h1s : lookup (js "steps") fs with
          | none => simp [h1s, nonEmptyArray] at hsteps
          | some sv =>
            have htt : truthy (.json tv) = true := by
              rw [h1t] at htitle
              cases tv with
              | str s => cases s with
                | nil => simp [nonEmptyString] at htitle
                | cons a b => rfl
              | null => simp [nonEmptyString] at htitle
              | bool b => simp [nonEmptyString] at htitle
              | num n => simp [nonEmptyString] at htitle
              | arr xs => simp [nonEmptyString] at htitle
              | obj gs => simp [nonEmptyString] at htitle
            have het : truthy (.json ev) = true := by
              rw [h1e] at hexp
              cases ev with
              | str s => cases s with
                | nil => simp [nonEmptyString] at hexp
                | cons a b => rfl
              | null => simp [nonEmptyString] at hexp
              | bool b => simp [nonEmptyString] at hexp
              | num n => simp [nonEmptyString] at hexp
              | arr xs => simp [nonEmptyString] at hexp
              | obj gs => simp [nonEmptyString] at hexp
            have hsv : ∃ s ss, sv = .arr (s :: ss) := by
              rw [h1s] at hsteps
              cases sv with
              | arr xs => cases xs with
                | nil => simp [nonEmptyArray] at hsteps
                | cons a b => exact ⟨a, b, rfl⟩
              | null => simp [nonEmptyArray] at hsteps
              | bool b => simp [nonEmptyArray] at hsteps
              | num n => simp [nonEmptyArray] at hsteps
              | str s => simp [nonEmptyArray] at hsteps
              | obj gs => simp [nonEmptyArray] at hsteps
            obtain ⟨s, ss, hss⟩ := hsv
            subst hss
            have g1 : getField o (js "title") = some (.json tv) := by
              have := hl (js "title")
              simp only [spread, lookup_map_json, h1t] at this
              simp only [getField, this]
              rfl
            have g2 : getField o (js "expectedOutput") = some (.json ev) := by
              have := hl (js "expectedOutput")
              simp only [spread, lookup_map_json, h1e] at this
              simp only [getField, this]
              rfl
            have g3 : getField o (js "steps") = some (.json (.arr (s :: ss))) := by
              have := hl (js "steps")
              simp only [ownField, h1s] at this
              simp only [getField, this]
              rfl
            exact caseErrors_nil idx o g1 htt g2 het g3
    | null => rw [hx] at hsh; simp [validTestCaseShape] at hsh
    | bool b => rw [hx] at hsh; simp [validTestCaseShape] at hsh
    | num n => rw [hx] at hsh; simp [validTestCaseShape] at hsh
    | str s => rw [hx] at hsh; simp [validTestCaseShape] at hsh
    | arr xs => rw [hx] at hsh; simp [validTestCaseShape] at hsh


set_option maxRecDepth 100000 in
/-- Witness of C1: the response of the unit test is accepted. -/
theorem C1_valid_array_accepted_witness :
    ∃ r, parseResponse openaiInitial validSample (js "user story") (js "functional") = .ok r ∧
      r.length = 1 ∧
      (∀ o ∈ r, getField o (js "aiGenerated") = some (.json (.bool true))) ∧
      validateTestCases r = .ok true :=
  C1_valid_array_accepted openaiInitial validSample (js "user story") (js "functional")
    [.obj [(js "title", .str (js "Test Case")), (js "description", .str (js "Test description")),
      (js "steps", .arr [.obj [(js "stepNumber", .num ⟨false, 1, 0⟩),
        (js "action", .str (js "test")), (js "expectedResult", .str (js "result"))]]),
      (js "expectedOutput", .str (js "expected output"))]]
    rfl (by decide)

/-! ## Lemmas on the removal of code fences -/

theorem fence_eq : fence = [96, 96, 96] := by decide

theorem fenceJson_eq : fenceJson = [96, 96, 96, 106, 115, 111, 110] := by decide

theorem removeAll_nil (ml : JStr → Nat) (k : Nat) : removeAll ml k [] = [] := by
  cases k <;> rfl

theorem removeAll_succ (ml : JStr → Nat) (k c : Nat) (cs : JStr) :
    removeAll ml (k + 1) (c :: cs) = removeAll ml k cs := rfl

theorem removeAll_keep (ml : JStr → Nat) (c : Nat) (cs : JStr) (h : ml (c :: cs) = 0) :
    removeAll ml 0 (c :: cs) = c :: removeAll ml 0 cs := by
  rw [removeAll, h]

theorem removeAll_drop (ml : JStr → Nat) (c m : Nat) (cs : JStr) (h : ml (c :: cs) = m + 1) :
    removeAll ml 0 (c :: cs) = removeAll ml m cs := by
  rw [removeAll, h]

theorem matchFence_le (x : JStr) : matchFence x ≤ x.length := by
  rcases x with _ | ⟨a, _ | ⟨b, _ | ⟨c, rest⟩⟩⟩
  · simp [matchFence, fence_eq, List.isPrefixOf]
  · simp [matchFence, fence_eq, List.isPrefixOf]
  · simp [matchFence, fence_eq, List.isPrefixOf]
  · simp only [matchFence, List.length_cons]
    split <;> omega

theorem matchFence_values (x : JStr) : matchFence x = 0 ∨ matchFence x = 3 := by
  unfold matchFence
  split <;> simp

theorem matchFence_append_lf (x y : JStr) :
    matchFence (x ++ 10 :: y) = matchFence x := by
  rcases x with _ | ⟨a, _ | ⟨b, _ | ⟨c, rest⟩⟩⟩ <;>
    simp [matchFence, fence_eq, List.isPrefixOf]

/-- A line feed separates the matches of three backticks. -/
theorem removeAll_fence_append_lf (k : Nat) (x y : JStr) (hk : k ≤ x.length) :
    removeAll matchFence k (x ++ 10 :: y) =
      removeAll matchFence k x ++ 10 :: removeAll matchFence 0 y := by
  induction x generalizing k with
  | nil =>
    have hk0 : k = 0 := by simpa using hk
    subst hk0
    have h0 : matchFence (10 :: y) = 0 := by simp [matchFence, fence_eq, List.isPrefixOf]
    rw [List.nil_append, removeAll_keep _ _ _ h0, removeAll_nil, List.nil_append]
  | cons c cs ih =>
    cases k with
    | succ k =>
      rw [List.cons_append, removeAll_succ, removeAll_succ]
      exact ih k (by simpa using hk)
    | zero =>
      have hm := matchFence_append_lf (c :: cs) y
      have hle := matchFence_le (c :: cs)
      rw [List.cons_append] at hm
      rw [List.cons_append]
      rcases matchFence_values (c :: cs) with h0 | h3
      · rw [removeAll_keep _ _ _ (hm.trans h0), removeAll_keep _ _ _ h0,
          ih 0 (Nat.zero_le _), List.cons_append]
      · rw [removeAll_drop _ _ 2 _ (hm.trans h3), removeAll_drop _ _ 2 _ h3]
        rw [h3] at hle
        exact ih 2 (by simpa using hle)

/-- Three backticks appended to a text leave, after the removal, what the text leaves. -/
theorem removeAll_fence_append_fence (k : Nat) (x : JStr) (hk : k ≤ x.length) :
    removeAll matchFence k (x ++ [96, 96, 96]) = removeAll matchFence k x := by
  induction x generalizing k with
  | nil =>
    have hk0 : k = 0 := by simpa using hk
    subst hk0
    decide
  | cons c cs ih =>
    cases k with
    | succ k =>
      rw [List.cons_append, removeAll_succ, removeAll_succ]
      exact ih k (by simpa using hk)
    | zero =>
      have hle := matchFence_le (c :: cs)
      rw [List.cons_append]
      rcases matchFence_values (c :: cs) with h0 | h3
      · rcases matchFence_values (c :: (cs ++ [96, 96, 96])) with g0 | g3
        · rw [removeAll_keep _ _ _ g0, removeAll_keep _ _ _ h0, ih 0 (Nat.zero_le _)]
        · -- the appended backticks complete a run at the end of the text
          rcases cs with _ | ⟨b, _ | ⟨d, rest⟩⟩
          · have hc : c = 96 := by
              simp [matchFence, fence_eq, List.isPrefixOf] at g3
              exact g3.symm
            subst hc
            decide
          · have hc : c = 96 ∧ b = 96 := by
              simp [matchFence, fence_eq, List.isPrefixOf] at g3
              exact ⟨g3.1.symm, g3.2.symm⟩
            obtain ⟨hc1, hc2⟩ := hc
            subst hc1 hc2
            decide
          · exfalso
            simp [matchFence, fence_eq, List.isPrefixOf] at h0 g3
            exact h0 g3.1 g3.2.1 g3.2.2
      · have g3 : matchFence (c :: (cs ++ [96, 96, 96])) = 3 := by
          rcases cs with _ | ⟨b, _ | ⟨d, rest⟩⟩
          · simp [matchFence, fence_eq, List.isPrefixOf] at h3
          · simp [matchFence, fence_eq, List.isPrefixOf] at h3
          · simpa [matchFence, fence_eq, List.isPrefixOf] using h3
        rw [removeAll_drop _ _ 2 _ g3, removeAll_drop _ _ 2 _ h3]
        rw [h3] at hle
        exact ih 2 (by simpa using hle)

theorem matchFenceJson_values (x : JStr) :
    matchFenceJson x = 0 ∨ matchFenceJson x = 7 ∨ matchFenceJson x = 8 := by
  unfold matchFenceJson
  split
  · split <;> simp
  · simp

theorem matchFenceJson_le (x : JStr) : matchFenceJson x ≤ x.length := by
  rcases x with _ | ⟨a, _ | ⟨b, _ | ⟨c, _ | ⟨d, _ | ⟨e, _ | ⟨f, _ | ⟨g, _ | ⟨h, rest⟩⟩⟩⟩⟩⟩⟩⟩ <;>
    simp [matchFenceJson, fenceJson_eq, List.isPrefixOf] <;>
    (try split) <;> (try split) <;> simp

theorem matchFenceJson_append (x : JStr) :
    matchFenceJson (x ++ [10, 96, 96, 96]) = matchFenceJson x ∨
    x = [96, 96, 96, 106, 115, 111, 110] := by
  rcases x with _ | ⟨a, _ | ⟨b, _ | ⟨c, _ | ⟨d, _ | ⟨e, _ | ⟨f, _ | ⟨g, _ | ⟨h, rest⟩⟩⟩⟩⟩⟩⟩⟩ <;>
    simp [matchFenceJson, fenceJson_eq, List.isPrefixOf]
  by_cases hp : 96 = a ∧ 96 = b ∧ 96 = c ∧ 106 = d ∧ 115 = e ∧ 111 = f ∧ 110 = g
  · right
    obtain ⟨h1, h2, h3, h4, h5, h6, h7⟩ := hp
    exact ⟨h1.symm, h2.symm, h3.symm, h4.symm, h5.symm, h6.symm, h7.symm⟩
  · left
    simp [hp]

/-- The closing fence appended to a text survives the first removal whole, or without
its line feed when the text ends in an opening fence. -/
theorem removeAll_fenceJson_append (k : Nat) (s : JStr) (hk : k ≤ s.length) :
    removeAll matchFenceJson k (s ++ [10, 96, 96, 96]) =
        removeAll matchFenceJson k s ++ [10, 96, 96, 96] ∨
    removeAll matchFenceJson k (s ++ [10, 96, 96, 96]) =
        removeAll matchFenceJson k s ++ [96, 96, 96] := by
  induction s generalizing k with
  | nil =>
    have hk0 : k = 0 := by simpa using hk
    subst hk0
    left
    decide
  | cons c cs ih =>
    cases k with
    | succ k =>
      rw [List.cons_append, removeAll_succ, removeAll_succ]
      exact ih k (by simpa using hk)
    | zero =>
      have hle := matchFenceJson_le (c :: cs)
      rcases matchFenceJson_append (c :: cs) with hm | hs
      · rw [List.cons_append] at hm ⊢
        rcases matchFenceJson_values (c :: cs) with h0 | h7 | h8
        · rw [removeAll_keep _ _ _ (hm.trans h0), removeAll_keep _ _ _ h0]
          rcases ih 0 (Nat.zero_le _) with h | h
          · left; rw [h, List.cons_append]
          · right; rw [h, List.cons_append]
        · rw [removeAll_drop _ _ 6 _ (hm.trans h7), removeAll_drop _ _ 6 _ h7]
          rw [h7] at hle
          exact ih 6 (by simpa using hle)
        · rw [removeAll_drop _ _ 7 _ (hm.trans h8), removeAll_drop _ _ 7 _ h8]
          rw [h8] at hle
          exact ih 7 (by simpa using hle)
      · rw [hs]
        right
        decide

/-- The first statement of `parseResponse` gives the same text for a response and for
the response wrapped in a fenced block tagged `json`. -/
theorem cleanResponse_wrapped (s : JStr) :
    cleanResponse (js "```json\n" ++ s ++ js "\n```") = cleanResponse s := by
  have e1 : js "```json\n" = [96, 96, 96, 106, 115, 111, 110, 10] := by decide
  have e2 : js "\n```" = [10, 96, 96, 96] := by decide
  have hopen : ∀ t : JStr, removeAll matchFenceJson 0 ([96, 96, 96, 106, 115, 111, 110, 10] ++ t)
      = removeAll matchFenceJson 0 t := by
    intro t
    have hm : matchFenceJson (96 :: ([96, 96, 106, 115, 111, 110, 10] ++ t)) = 7 + 1 := by
      simp [matchFenceJson, fenceJson_eq, List.isPrefixOf]
    have : [96, 96, 96, 106, 115, 111, 110, 10] ++ t
        = 96 :: ([96, 96, 106, 115, 111, 110, 10] ++ t) := rfl
    rw [this, removeAll_drop _ _ 7 _ hm]
    rfl
  have htrim : ∀ t : JStr, trim (t ++ [10]) = trim t := by
    intro t
    simp [trim, isJSWhitespace]
  unfold cleanResponse
  rw [e1, e2, List.append_assoc, hopen]
  rcases removeAll_fenceJson_append 0 s (Nat.zero_le _) with h | h
  · rw [h]
    have : removeAll matchFenceJson 0 s ++ [10, 96, 96, 96]
        = removeAll matchFenceJson 0 s ++ 10 :: [96, 96, 96] := rfl
    rw [this, removeAll_fence_append_lf 0 _ _ (Nat.zero_le _)]
    have h3 : removeAll matchFence 0 [96, 96, 96] = [] := by decide
    rw [h3]
    exact htrim _
  · rw [h, removeAll_fence_append_fence 0 _ (Nat.zero_le _)]

/-! ## Claims on the code fence, `estimateTime` and `buildPrompt` -/

/-- C4. For every text `s`, `parseResponse` applied to `s` wrapped in a fenced block
tagged `json` has the same outcome as `parseResponse` applied to `s`: the same
sequence when `s` is accepted, the same error when it is not. -/
theorem C4_fenced_block_same_outcome (self : BaseAIService) (s userStory testType : JStr) :
    parseResponse self (js "```json\n" ++ s ++ js "\n```") userStory testType =
      parseResponse self s userStory testType := by
  simp only [parseResponse, parseResponseTry, cleanResponse_wrapped]


/-- A complexity label that is neither in the table of `estimateTime` nor a property
name of `Object.prototype` gives thirty minutes. -/
theorem estimateTime_unlisted (c : JStr)
    (h1 : c ≠ js "simple") (h2 : c ≠ js "medium") (h3 : c ≠ js "complex")
    (hp : objectProtoGet c = none) :
    estimateTime (strVal c) = .ok (numVal 30) := by
  have hl : lookup c timeEstimates = none := by
    simp [timeEstimates, lookup, Ne.symm h1, Ne.symm h2, Ne.symm h3]
  simp [estimateTime, strVal, toPropertyKey, jsonToKey, getByKey, getField, hl, hp, orDefault]

/-- C9 (the code at the failing input). The three labels give 15, 30 and 60, and
`unknown` gives 30; the string `constructor`, which is none of the three labels,
does not give 30 nor any number: the lookup in the object literal finds the
function inherited from `Object.prototype`, which is truthy and is returned. -/
theorem C9_estimateTime_inherited_name :
    estimateTime (strVal (js "simple")) = .ok (numVal 15) ∧
    estimateTime (strVal (js "medium")) = .ok (numVal 30) ∧
    estimateTime (strVal (js "complex")) = .ok (numVal 60) ∧
    estimateTime (strVal (js "unknown")) = .ok (numVal 30) ∧
    estimateTime (strVal (js "constructor")) = .ok (.native .objectCtor) :=
  ⟨rfl, rfl, rfl, rfl, rfl⟩

/-- A test type that is neither a template name nor a property name of
`Object.prototype` gives the functional prompt. -/
theorem buildPrompt_unlisted (userStory testType complexity : JStr) (count : Int)
    (h1 : testType ≠ js "functional") (h2 : testType ≠ js "edge")
    (h3 : testType ≠ js "negative") (hp : objectProtoGet testType = none) :
    buildPrompt userStory testType complexity count =
      buildPrompt userStory (js "functional") complexity count := by
  have hl : lookup testType (promptTemplates userStory complexity count) = none := by
    simp [promptTemplates, lookup, Ne.symm h1, Ne.symm h2, Ne.symm h3]
  have hf : buildPrompt userStory (js "functional") complexity count =
      strVal (functionalTemplate userStory complexity count) := by
    simp only [buildPrompt, getField, promptTemplates, lookup, if_true, orDefault]
    split <;> rfl
  rw [hf]
  simp [buildPrompt, getField, hl, hp, orDefault]

/-- C10 (the code at the failing input). For the test type `constructor`, which is none
of `functional`, `edge`, `negative`, `buildPrompt` returns, for every story,
complexity and count, the function inherited from `Object.prototype` and not the
string it returns for `functional`. -/
theorem C10_buildPrompt_inherited_name (userStory complexity : JStr) (count : Int) :
    buildPrompt userStory (js "constructor") complexity count = .native .objectCtor ∧
    buildPrompt userStory (js "functional") complexity count =
      strVal (functionalTemplate userStory complexity count) ∧
    buildPrompt userStory (js "constructor") complexity count ≠
      buildPrompt userStory (js "functional") complexity count := by
  have hc : buildPrompt userStory (js "constructor") complexity count
      = .native .objectCtor := rfl
  have hf : buildPrompt userStory (js "functional") complexity count =
      strVal (functionalTemplate userStory complexity count) := by
    simp only [buildPrompt, getField, promptTemplates, lookup, if_true, orDefault]
    split <;> rfl
  refine ⟨hc, hf, ?_⟩
  rw [hc, hf]
  intro h
  cases h


/-! ## Texts the cleaning leaves unchanged -/

/-- Nothing is removed from a text in which the expression matches nowhere. -/
theorem removeAll_no_match (ml : JStr → Nat) (s : JStr)
    (h : ∀ t, t <:+ s → ml t = 0) : removeAll ml 0 s = s := by
  induction s with
  | nil => rfl
  | cons c cs ih =>
    rw [removeAll_keep _ _ _ (h _ (List.suffix_refl _)),
      ih (fun t ht => h t (ht.trans (List.suffix_cons c cs)))]

/-- A text that holds no run of three backticks and neither starts nor ends with white
space is its own cleaned form. -/
theorem cleanResponse_eq_self (s : JStr) (hf : ¬ fence <:+: s) (ht : trim s = s) :
    cleanResponse s = s := by
  have h2 : ∀ t, t <:+ s → matchFence t = 0 := by
    intro t hts
    unfold matchFence
    split
    · rename_i hp
      exact absurd ((List.isPrefixOf_iff_prefix.mp hp).isInfix.trans hts.isInfix) hf
    · rfl
  have h1 : ∀ t, t <:+ s → matchFenceJson t = 0 := by
    intro t hts
    unfold matchFenceJson
    split
    · rename_i hp
      have hpre : fence <+: fenceJson := ⟨[106, 115, 111, 110], by decide⟩
      exact absurd ((hpre.trans (List.isPrefixOf_iff_prefix.mp hp)).isInfix.trans hts.isInfix) hf
    · rfl
  unfold cleanResponse
  rw [removeAll_no_match _ _ h1, removeAll_no_match _ _ h2, ht]


/-! ## Claims on `buildPrompt` and `validateTestCases` -/

/-- The value of decimal digits appended to decimal digits. -/
theorem digitsVal_append (xs ys : JStr) :
    digitsVal (xs ++ ys) = digitsVal xs * 10 ^ ys.length + digitsVal ys := by
  induction ys using List.reverseRecOn with
  | nil => simp [digitsVal]
  | append_singleton ys y ih =>
    have h1 : digitsVal (xs ++ (ys ++ [y])) = 10 * digitsVal (xs ++ ys) + (y - 48) := by
      simp [digitsVal, List.foldl_append, ← List.append_assoc]
    have h2 : digitsVal (ys ++ [y]) = 10 * digitsVal ys + (y - 48) := by
      simp [digitsVal, List.foldl_append]
    rw [h1, h2, ih, List.length_append, List.length_singleton, pow_succ]
    ring

/-- The digits `natDigitsAux` puts before an accumulator denote the number. -/
theorem natDigitsAux_value (fuel n : Nat) (acc : JStr) (h : n < fuel) :
    digitsVal (natDigitsAux fuel n acc) = n * 10 ^ acc.length + digitsVal acc ∧
    ((∀ d ∈ acc, isDigit d = true) → ∀ d ∈ natDigitsAux fuel n acc, isDigit d = true) := by
  induction fuel generalizing n acc with
  | zero => omega
  | succ fuel ih =>
    unfold natDigitsAux
    split
    · rename_i hlt
      constructor
      · have : digitsVal ((48 + n) :: acc) = digitsVal ([48 + n] ++ acc) := rfl
        rw [this, digitsVal_append]
        simp [digitsVal]
      · intro hacc d hd
        rcases List.mem_cons.mp hd with h1 | h1
        · subst h1
          simp [isDigit]; omega
        · exact hacc d h1
    · rename_i hge
      have hlt : n / 10 < fuel := by omega
      obtain ⟨h1, h2⟩ := ih (n / 10) ((48 + n % 10) :: acc) hlt
      constructor
      · rw [h1]
        have : digitsVal ((48 + n % 10) :: acc) = digitsVal ([48 + n % 10] ++ acc) := rfl
        rw [this, digitsVal_append]
        simp only [List.length_cons, digitsVal, List.foldl_cons, List.foldl_nil, pow_succ]
        have h10 : n / 10 * 10 + n % 10 = n := Nat.div_add_mod' n 10
        have h3 : 48 + n % 10 - 48 = n % 10 := by omega
        rw [h3]
        calc n / 10 * (10 ^ acc.length * 10) + ((10 * 0 + n % 10) * 10 ^ acc.length
              + List.foldl (fun a d => 10 * a + (d - 48)) 0 acc)
            = (n / 10 * 10 + n % 10) * 10 ^ acc.length
              + List.foldl (fun a d => 10 * a + (d - 48)) 0 acc := by ring
          _ = n * 10 ^ acc.length + List.foldl (fun a d => 10 * a + (d - 48)) 0 acc := by
              rw [h10]
      · intro hacc
        apply h2
        intro d hd
        rcases List.mem_cons.mp hd with h4 | h4
        · subst h4
          simp [isDigit]; omega
        · exact hacc d h4

/-- The text `natToJStr n` is made of decimal digits and denotes `n`. -/
theorem natToJStr_value (n : Nat) :
    digitsVal (natToJStr n) = n ∧ ∀ d ∈ natToJStr n, isDigit d = true := by
  obtain ⟨h1, h2⟩ := natDigitsAux_value (n + 1) n [] (Nat.lt_succ_self n)
  constructor
  · simpa [natToJStr, digitsVal] using h1
  · exact h2 (fun d hd => by cases hd)


/-- A prompt assembled from the five parts of a template holds the user story between
the quotes of its segment, the complexity, the count and every text of its head. -/
theorem template_contains (count userStory complexity head middle tail kind : JStr)
    (hs : js "User Story: \"" <:+ head) (hm : js "\"" <+: middle) (hk : kind <:+: head) :
    (js "User Story: \"" ++ userStory ++ js "\"") <:+:
      (js "Generate " ++ count ++ head ++ userStory ++ middle ++ complexity ++ tail) ∧
    complexity <:+:
      (js "Generate " ++ count ++ head ++ userStory ++ middle ++ complexity ++ tail) ∧
    count <:+:
      (js "Generate " ++ count ++ head ++ userStory ++ middle ++ complexity ++ tail) ∧
    kind <:+:
      (js "Generate " ++ count ++ head ++ userStory ++ middle ++ complexity ++ tail) := by
  obtain ⟨h0, hh⟩ := hs
  obtain ⟨m0, hmid⟩ := hm
  obtain ⟨k0, k1, hkind⟩ := hk
  refine ⟨⟨js "Generate " ++ count ++ h0, m0 ++ complexity ++ tail, ?_⟩,
    ⟨js "Generate " ++ count ++ head ++ userStory ++ middle, tail, ?_⟩,
    ⟨js "Generate ", head ++ userStory ++ middle ++ complexity ++ tail, ?_⟩,
    ⟨js "Generate " ++ count ++ k0, k1 ++ userStory ++ middle ++ complexity ++ tail, ?_⟩⟩
  · rw [← hh, ← hmid]
    simp only [List.append_assoc]
  · simp only [List.append_assoc]
  · simp only [List.append_assoc]
  · rw [← hkind]
    simp only [List.append_assoc]

/-- The digits `natDigitsAux` puts before an accumulator start with a digit that is
zero only for the number zero, which gets the one digit. -/
theorem natDigitsAux_head (fuel n : Nat) (acc : JStr) (h : n < fuel) :
    ∃ d rest, natDigitsAux fuel n acc = d :: rest ∧ (0 < n → d ≠ 48) ∧
      (n = 0 → d = 48 ∧ rest = acc) := by
  induction fuel generalizing n acc with
  | zero => omega
  | succ fuel ih =>
    unfold natDigitsAux
    split
    · exact ⟨48 + n, acc, rfl, fun hn => by omega, fun hn => ⟨by omega, rfl⟩⟩
    · rename_i hge
      obtain ⟨d, rest, heq, hpos, _⟩ := ih (n / 10) ((48 + n % 10) :: acc) (by omega)
      exact ⟨d, rest, heq, fun _ => hpos (by omega), fun hn => by omega⟩

/-- The text `intToJStr n` is the decimal rendering of `n`. -/
theorem intToJStr_rendering (n : Int) : decimalRendering n (intToJStr n) := by
  obtain ⟨hval, hdig⟩ := natToJStr_value n.natAbs
  obtain ⟨d, rest, heq, hpos, hzero⟩ :=
    natDigitsAux_head (n.natAbs + 1) n.natAbs [] (Nat.lt_succ_self _)
  have heq2 : natToJStr n.natAbs = d :: rest := heq
  refine ⟨natToJStr n.natAbs, rfl, ?_, hdig, ?_, hval⟩
  · rw [heq2]
    exact List.cons_ne_nil d rest
  · intro hhead
    rw [heq2] at hhead ⊢
    simp only [List.head?_cons, Option.some.injEq] at hhead
    have hn : n.natAbs = 0 := by
      by_contra hne
      exact hpos (Nat.pos_of_ne_zero hne) hhead
    obtain ⟨hd, hrest⟩ := hzero hn
    rw [hd, hrest]

/-- A prompt assembled from the parts of a template starts with `Generate `, the count
and the first words of its head. -/
theorem template_starts (count userStory complexity head middle tail start : JStr)
    (hs : start <+: head) :
    (js "Generate " ++ count ++ start) <+:
      (js "Generate " ++ count ++ head ++ userStory ++ middle ++ complexity ++ tail) := by
  obtain ⟨h1, hh⟩ := hs
  refine ⟨h1 ++ userStory ++ middle ++ complexity ++ tail, ?_⟩
  rw [← hh]
  simp only [List.append_assoc]

set_option maxRecDepth 100000 in
/-- C11. For every user story and complexity, every count that is a safe integer and
each of the three test types, `buildPrompt` returns a string that holds the user
story unmodified between the quotes of the segment `User Story: "..."`, the
complexity unmodified and the name of the requested kind of test, and that starts
with `Generate `, the decimal rendering of the count (a minus sign for a negative
count, then the digits of its absolute value without leading zero) and the words
that follow the count in the template. -/
theorem C11_prompt_contents (userStory complexity : JStr) (count : Int)
    (_hcount : safeInteger count) :
    ∃ rendering, decimalRendering count rendering ∧
      (∃ prompt, buildPrompt userStory (js "functional") complexity count = strVal prompt ∧
        (js "User Story: \"" ++ userStory ++ js "\"") <:+: prompt ∧
        complexity <:+: prompt ∧
        (js "Generate " ++ rendering ++ js " comprehensive functional test cases for") <+:
          prompt ∧
        js "functional test cases" <:+: prompt) ∧
      (∃ prompt, buildPrompt userStory (js "edge") complexity count = strVal prompt ∧
        (js "User Story: \"" ++ userStory ++ js "\"") <:+: prompt ∧
        complexity <:+: prompt ∧
        (js "Generate " ++ rendering ++ js " edge case test scenarios for") <+: prompt ∧
        js "edge case" <:+: prompt) ∧
      (∃ prompt, buildPrompt userStory (js "negative") complexity count = strVal prompt ∧
        (js "User Story: \"" ++ userStory ++ js "\"") <:+: prompt ∧
        complexity <:+: prompt ∧
        (js "Generate " ++ rendering ++ js " negative test cases for") <+: prompt ∧
        js "negative test cases" <:+: prompt) := by
  refine ⟨intToJStr count, intToJStr_rendering count,
    ⟨functionalTemplate userStory complexity count, ?_, ?_⟩,
    ⟨edgeTemplate userStory complexity count, ?_, ?_⟩,
    ⟨negativeTemplate userStory complexity count, ?_, ?_⟩⟩
  · simp only [buildPrompt, getField, promptTemplates, lookup, if_true, orDefault]
    split <;> rfl
  · obtain ⟨h1, h2, _, h4⟩ := template_contains (intToJStr count) userStory complexity
      functionalHead functionalMiddle functionalTail (js "functional test cases")
      (by decide) (by decide) (by decide)
    exact ⟨h1, h2, template_starts (intToJStr count) userStory complexity functionalHead
      functionalMiddle functionalTail _ (by decide), h4⟩
  · have hne : js "functional" ≠ js "edge" := by decide
    simp only [buildPrompt, getField, promptTemplates, lookup, if_true, if_neg hne, orDefault]
    split
    · rfl
    · rename_i h
      exact absurd rfl h
  · obtain ⟨h1, h2, _, h4⟩ := template_contains (intToJStr count) userStory complexity
      edgeHead edgeMiddle edgeTail (js "edge case") (by decide) (by decide) (by decide)
    exact ⟨h1, h2, template_starts (intToJStr count) userStory complexity edgeHead
      edgeMiddle edgeTail _ (by decide), h4⟩
  · have hne1 : js "functional" ≠ js "negative" := by decide
    have hne2 : js "edge" ≠ js "negative" := by decide
    simp only [buildPrompt, getField, promptTemplates, lookup, if_true, if_neg hne1,
      if_neg hne2, orDefault]
    split
    · rfl
    · rename_i h
      exact absurd rfl h
  · obtain ⟨h1, h2, _, h4⟩ := template_contains (intToJStr count) userStory complexity
      negativeHead negativeMiddle negativeTail (js "negative test cases")
      (by decide) (by decide) (by decide)
    exact ⟨h1, h2, template_starts (intToJStr count) userStory complexity negativeHead
      negativeMiddle negativeTail _ (by decide), h4⟩

set_option maxRecDepth 100000 in
/-- Witness of C11: the prompts of the unit tests, for the story `test story`, the
complexity `medium` and the count three.  The count is written as the one digit
`3`: the functional prompt starts with `Generate 3 comprehensive functional test
cases`; the renderings of 0, 120 and -7 are `0`, `120` and `-7`. -/
theorem C11_prompt_contents_witness :
    safeInteger 3 ∧
    (∃ rendering, decimalRendering 3 rendering ∧
      (∃ prompt, buildPrompt (js "test story") (js "functional") (js "medium") 3 =
          strVal prompt ∧
        (js "User Story: \"" ++ js "test story" ++ js "\"") <:+: prompt ∧
        js "medium" <:+: prompt ∧
        (js "Generate " ++ rendering ++ js " comprehensive functional test cases for") <+:
          prompt ∧
        js "functional test cases" <:+: prompt) ∧
      (∃ prompt, buildPrompt (js "test story") (js "edge") (js "medium") 3 = strVal prompt ∧
        (js "User Story: \"" ++ js "test story" ++ js "\"") <:+: prompt ∧
        js "medium" <:+: prompt ∧
        (js "Generate " ++ rendering ++ js " edge case test scenarios for") <+: prompt ∧
        js "edge case" <:+: prompt) ∧
      (∃ prompt, buildPrompt (js "test story") (js "negative") (js "medium") 3 =
          strVal prompt ∧
        (js "User Story: \"" ++ js "test story" ++ js "\"") <:+: prompt ∧
        js "medium" <:+: prompt ∧
        (js "Generate " ++ rendering ++ js " negative test cases for") <+: prompt ∧
        js "negative test cases" <:+: prompt)) ∧
    (∃ prompt, buildPrompt (js "test story") (js "functional") (js "medium") 3 =
        strVal prompt ∧
      js "Generate 3 comprehensive functional test cases for the following user story." <+:
        prompt ∧
      js "User Story: \"test story\"" <:+: prompt ∧
      js "Complexity level: medium" <:+: prompt) ∧
    (∀ text, decimalRendering 3 text → text = js "3") ∧
    intToJStr 3 = js "3" ∧ intToJStr 0 = js "0" ∧ intToJStr 120 = js "120" ∧
    intToJStr (-7) = js "-7" :=
  ⟨by unfold safeInteger; decide,
    C11_prompt_contents (js "test story") (js "medium") 3 (by unfold safeInteger; decide),
    ⟨functionalTemplate (js "test story") (js "medium") 3, rfl, by decide, by decide,
      by decide⟩,
    by
      rintro text ⟨digits, htext, hne, hdig, hhead, hval⟩
      simp only [show ¬ ((3 : Int) < 0) by decide, if_false] at htext
      rw [htext]
      match digits, hne, hdig, hhead, hval with
      | [d], _, hdig, _, hval =>
        have h1 := hdig d (by simp)
        simp only [isDigit, Bool.and_eq_true, decide_eq_true_eq] at h1
        simp only [digitsVal, List.foldl_cons, List.foldl_nil] at hval
        have : d = 51 := by
          have h3 : (3 : Int).natAbs = 3 := rfl
          omega
        subst this
        decide
      | d :: e :: rest, _, hdig, hhead, hval =>
        exfalso
        have h1 := hdig d (by simp)
        have h2 := hdig e (by simp)
        simp only [isDigit, Bool.and_eq_true, decide_eq_true_eq] at h1 h2
        have hd : d ≠ 48 := by
          intro h48
          have := hhead (by simp [h48])
          simp at this
        have h3 : (3 : Int).natAbs = 3 := rfl
        have hv : digitsVal (d :: e :: rest) = digitsVal [d, e] * 10 ^ rest.length +
            digitsVal rest := digitsVal_append [d, e] rest
        rw [hv] at hval
        have h10 : 10 ≤ digitsVal [d, e] := by
          simp only [digitsVal, List.foldl_cons, List.foldl_nil]
          omega
        have hp : 1 ≤ 10 ^ rest.length := Nat.one_le_pow _ _ (by decide)
        have : 10 ≤ digitsVal [d, e] * 10 ^ rest.length := by
          calc 10 ≤ digitsVal [d, e] := h10
            _ = digitsVal [d, e] * 1 := (Nat.mul_one _).symm
            _ ≤ digitsVal [d, e] * 10 ^ rest.length := Nat.mul_le_mul_left _ hp
        omega,
    by decide, by decide, by decide, by decide⟩

/-- The messages `validateTestCases` pushes for the element at a zero-based index are
the violations at the 1-based position. -/
theorem caseErrors_eq_violationsOf (index : Nat) (testCase : Obj) :
    caseErrors index testCase = violationsOf (index + 1) testCase := by
  have h1 : js ": Title is required" = js ": " ++ js "Title is required" := by decide
  have h2 : js ": Expected output is required" = js ": " ++ js "Expected output is required" := by
    decide
  have h3 : js ": At least one test step is required" =
      js ": " ++ js "At least one test step is required" := by decide
  simp only [caseErrors, violationsOf, h1, h2, h3, List.append_assoc]

/-- The loop of `validateTestCases` from a given index on. -/
theorem flatMap_enumFrom_caseErrors (n : Nat) (testCases : List Obj) :
    (testCases.enumFrom n).flatMap (fun p => caseErrors p.1 p.2) =
      violationsFrom (n + 1) testCases := by
  induction testCases generalizing n with
  | nil => rfl
  | cons tc rest ih =>
    rw [List.enumFrom_cons, List.flatMap_cons, ih (n + 1), violationsFrom,
      caseErrors_eq_violationsOf]

/-- The array `errors` of `validateTestCases` lists the violations of every element in
index order, positions counted from one. -/
theorem validationErrors_eq (testCases : List Obj) :
    validationErrors testCases = violationsFrom 1 testCases := by
  simp only [validationErrors, List.enum]
  exact flatMap_enumFrom_caseErrors 0 testCases

/-- The validation throws the joined violations when there is one. -/
theorem validateTestCases_error (testCases : List Obj)
    (h : violationsFrom 1 testCases ≠ []) :
    validateTestCases testCases =
      .error (.error (js "Validation failed: " ++
        joinWith (js "; ") (violationsFrom 1 testCases))) := by
  have hpos : (violationsFrom 1 testCases).length > 0 := by
    cases hv : violationsFrom 1 testCases with
    | nil => exact absurd hv h
    | cons a b => simp
  simp only [validateTestCases, validationErrors_eq, hpos, if_true]

/-- C12. For every sequence of test cases with at least one violation,
`validateTestCases` throws an error whose message is `Validation failed: ` followed
by all violations joined by `; `: those of every element, in index order, and
within an element in the order title, expected output, steps, each one being
`Test case N: ` with the 1-based position `N` followed by its text. -/
theorem C12_validation_message (testCases : List Obj)
    (h : violationsFrom 1 testCases ≠ []) :
    validateTestCases testCases =
      .error (.error (js "Validation failed: " ++
        joinWith (js "; ") (violationsFrom 1 testCases))) :=
  validateTestCases_error testCases h

/-- Witness of C12: the sequence of the one test case that has only a title gets the
message that names test case 1, the missing expected output and the missing
steps. -/
theorem C12_validation_message_witness :
    validateTestCases [titleOnlyCase] =
      .error (.error (js "Validation failed: " ++
        joinWith (js "; ") (violationsFrom 1 [titleOnlyCase]))) ∧
    js "Validation failed: " ++ joinWith (js "; ") (violationsFrom 1 [titleOnlyCase]) =
      js ("Validation failed: Test case 1: Expected output is required; " ++
        "Test case 1: At least one test step is required") :=
  ⟨C12_validation_message [titleOnlyCase] (by decide), by decide⟩

/-- No message is pushed exactly for the elements that pass the three checks. -/
theorem violationsOf_eq_nil (position : Nat) (testCase : Obj) :
    violationsOf position testCase = [] ↔ passesChecks testCase = true := by
  simp only [violationsOf, passesChecks]
  cases isFalsy (getField testCase (js "title")) <;>
  cases isFalsy (getField testCase (js "expectedOutput")) <;>
  cases isFalsy (getField testCase (js "steps")) <;>
  cases isStrictlyZero ((getField testCase (js "steps")).bind readLength) <;>
  simp

/-- There is no violation exactly when every element passes the three checks. -/
theorem violationsFrom_eq_nil (position : Nat) (testCases : List Obj) :
    violationsFrom position testCases = [] ↔ ∀ o ∈ testCases, passesChecks o = true := by
  induction testCases generalizing position with
  | nil => simp [violationsFrom]
  | cons tc rest ih =>
    simp only [violationsFrom, List.append_eq_nil, violationsOf_eq_nil, ih,
      List.mem_cons, forall_eq_or_imp]

/-- The validation returns `true` exactly when every element passes the three checks,
and throws otherwise. -/
theorem validateTestCases_iff (testCases : List Obj) :
    (validateTestCases testCases = .ok true ↔ ∀ o ∈ testCases, passesChecks o = true) ∧
    ((∃ o ∈ testCases, passesChecks o = false) →
      ∃ m, validateTestCases testCases = .error (.error m)) := by
  have hnil := violationsFrom_eq_nil 1 testCases
  constructor
  · constructor
    · intro h
      apply hnil.mp
      cases hv : violationsFrom 1 testCases with
      | nil => rfl
      | cons a b =>
        simp [validateTestCases, validationErrors_eq, hv] at h
    · intro h
      simp [validateTestCases, validationErrors_eq, hnil.mpr h]
  · rintro ⟨o, ho, hbad⟩
    have hne : violationsFrom 1 testCases ≠ [] := by
      intro hv
      have := hnil.mp hv o ho
      rw [this] at hbad
      cases hbad
    exact ⟨_, validateTestCases_error testCases hne⟩

/-- On a test case typed as the data model types it, the three checks are: a non-empty
title, a non-empty expected output, at least one step. -/
theorem passesChecks_typed (testCase : Obj) (h : typedTestCase testCase) :
    passesChecks testCase = true ↔
      (nonEmptyText (getField testCase (js "title")) = true ∧
       nonEmptyText (getField testCase (js "expectedOutput")) = true ∧
       nonEmptySequence (getField testCase (js "steps")) = true) := by
  obtain ⟨ht, he, hs⟩ := h
  have key1 : ∀ v : Option Val, (v = none ∨ ∃ s, v = some (.json (.str s))) →
      ((!isFalsy v) = true ↔ nonEmptyText v = true) := by
    intro v hv
    rcases hv with h1 | ⟨s, h1⟩
    · subst h1; simp [isFalsy, nonEmptyText]
    · subst h1
      cases s <;> simp [isFalsy, nonEmptyText, truthy]
  have key2 : ∀ v : Option Val, (v = none ∨ ∃ xs, v = some (.json (.arr xs))) →
      (((!isFalsy v) = true ∧ (!isStrictlyZero (v.bind readLength)) = true) ↔
        nonEmptySequence v = true) := by
    intro v hv
    rcases hv with h1 | ⟨xs, h1⟩
    · subst h1; simp [isFalsy, nonEmptySequence]
    · subst h1
      cases xs <;>
        simp [isFalsy, nonEmptySequence, truthy, readLength, isStrictlyZero, JNum.isZero,
          JNum.ofNat, -Nat.reducePow]
  simp only [passesChecks, Bool.and_eq_true]
  rw [key1 _ ht, key1 _ he, ← key2 _ hs]
  tauto

/-- Counterexample to C13: the validation returns `true` for the test case whose steps
are the number five, which is not a non-empty sequence of steps. -/
theorem C13_number_steps_counterexample :
    validateTestCases [numberStepsCase] = .ok true ∧
    nonEmptySequence (getField numberStepsCase (js "steps")) = false :=
  ⟨rfl, rfl⟩

/-- C13 (amended). The validation returns `true` if and only if every element of the
sequence passes the three checks (a truthy title, a truthy expected output, a
truthy `steps` whose `length` is not zero), and throws otherwise; for an element
typed as the data model types it the checks say: a non-empty title, a non-empty
expected output and a non-empty sequence of steps. -/
theorem C13_validation_success (testCases : List Obj) :
    (validateTestCases testCases = .ok true ↔ ∀ o ∈ testCases, passesChecks o = true) ∧
    ((∃ o ∈ testCases, passesChecks o = false) →
      ∃ m, validateTestCases testCases = .error (.error m)) ∧
    (∀ o ∈ testCases, typedTestCase o →
      (passesChecks o = true ↔
        (nonEmptyText (getField o (js "title")) = true ∧
         nonEmptyText (getField o (js "expectedOutput")) = true ∧
         nonEmptySequence (getField o (js "steps")) = true))) :=
  ⟨(validateTestCases_iff testCases).1, (validateTestCases_iff testCases).2,
    fun o _ h => passesChecks_typed o h⟩

/-- Counterexample to C14: the empty sequence `parseResponse` returns for `[]` does not
fail the validation, which returns `true` for it. -/
theorem C14_empty_batch_counterexample :
    parseResponse openaiInitial (js "[]") (js "story") (js "functional") = .ok [] ∧
    validateTestCases [] = .ok true :=
  ⟨rfl, rfl⟩

/-- C14 (amended). For every story and type, `parseResponse` throws the format error
for the text `not json` and returns the empty sequence for `[]`, and
`validateTestCases` returns `true` for that empty sequence. -/
theorem C14_not_json_and_empty_array (self : BaseAIService) (userStory testType : JStr) :
    parseResponse self (js "not json") userStory testType =
      .error (.error (js "Invalid response format from AI service")) ∧
    parseResponse self (js "[]") userStory testType = .ok [] ∧
    validateTestCases (resultOf (parseResponse self (js "[]") userStory testType)) =
      .ok true :=
  ⟨rfl, rfl, rfl⟩


/-! ## Lemmas on `generateTestCases` -/

/-- After the switch to the alternate, the service cannot fall back again. -/
theorem fallbackModel_after (backend : Backend) (self : AIService) (alternate : JStr)
    (h : fallbackModel backend self = some alternate) :
    self.supportedModels[backend.fallbackIndex]? = some alternate ∧
    self.supportedModels.length > 1 ∧ self.model ≠ alternate ∧
    fallbackModel backend { self with model := alternate } = none := by
  unfold fallbackModel at h
  cases hg : self.supportedModels[backend.fallbackIndex]? with
  | none => simp [hg] at h
  | some alt =>
    simp only [hg] at h
    split at h
    · rename_i hc
      simp only [Option.some.injEq] at h
      subst h
      refine ⟨rfl, hc.1, hc.2, ?_⟩
      simp [fallbackModel, hg]
    · simp at h

/-- When the service cannot fall back, the `catch` block throws. -/
theorem fallbackModel_none (backend : Backend) (self : AIService)
    (h : fallbackModel backend self = none) :
    self.supportedModels[backend.fallbackIndex]? = none ∨
    ∃ alternate, self.supportedModels[backend.fallbackIndex]? = some alternate ∧
      ¬ (self.supportedModels.length > 1 ∧ self.model ≠ alternate) := by
  unfold fallbackModel at h
  cases hg : self.supportedModels[backend.fallbackIndex]? with
  | none => exact Or.inl rfl
  | some alt =>
    right
    refine ⟨alt, rfl, ?_⟩
    simp only [hg] at h
    split at h
    · simp at h
    · assumption

/-- One level of the recursion when the attempt fails and the service cannot fall
back. -/
theorem aux_no_fallback (backend : Backend) (api : ExternalCall)
    (userStory testType complexity : JStr) (count : Int) (fuel : Nat) (self : AIService)
    (calls : List (JStr × Val)) (e : JSError)
    (ha : attempt self userStory testType
      (api calls.length self.model (buildPrompt userStory testType complexity count)) = .error e)
    (hf : fallbackModel backend self = none) :
    generateTestCasesAux backend api userStory testType complexity count (fuel + 1) self calls =
      some ⟨.error (generationFailure e), self,
        calls ++ [(self.model, buildPrompt userStory testType complexity count)]⟩ := by
  rw [generateTestCasesAux]
  simp only [ha]
  rcases fallbackModel_none backend self hf with hg | ⟨alt, hg, hc⟩
  · simp only [hg, generationFailure]
  · simp only [hg, if_neg hc, generationFailure]

/-- One level of the recursion when the attempt fails and the service falls back. -/
theorem aux_fallback (backend : Backend) (api : ExternalCall)
    (userStory testType complexity : JStr) (count : Int) (fuel : Nat) (self : AIService)
    (calls : List (JStr × Val)) (e : JSError) (alternate : JStr)
    (ha : attempt self userStory testType
      (api calls.length self.model (buildPrompt userStory testType complexity count)) = .error e)
    (hf : fallbackModel backend self = some alternate) :
    generateTestCasesAux backend api userStory testType complexity count (fuel + 1) self calls =
      generateTestCasesAux backend api userStory testType complexity count fuel
        { self with model := alternate }
        (calls ++ [(self.model, buildPrompt userStory testType complexity count)]) := by
  obtain ⟨hg, h1, h2, _⟩ := fallbackModel_after backend self alternate hf
  rw [generateTestCasesAux]
  simp only [ha, hg, if_pos (And.intro h1 h2)]

/-- One level of the recursion when the attempt succeeds. -/
theorem aux_ok (backend : Backend) (api : ExternalCall)
    (userStory testType complexity : JStr) (count : Int) (fuel : Nat) (self : AIService)
    (calls : List (JStr × Val)) (r : List Obj)
    (ha : attempt self userStory testType
      (api calls.length self.model (buildPrompt userStory testType complexity count)) = .ok r) :
    generateTestCasesAux backend api userStory testType complexity count (fuel + 1) self calls =
      some ⟨.ok r, self,
        calls ++ [(self.model, buildPrompt userStory testType complexity count)]⟩ := by
  rw [generateTestCasesAux]
  simp only [ha]

/-- The recursion never reaches a depth of two: with any bound of at least two, one
invocation does what `twoAttempts` describes. -/
theorem generateTestCasesAux_eq (backend : Backend) (api : ExternalCall)
    (userStory testType complexity : JStr) (count : Int) (fuel : Nat) (self : AIService) :
    generateTestCasesAux backend api userStory testType complexity count (fuel + 2) self [] =
      some (twoAttempts backend api self userStory testType complexity count) := by
  cases ha : attempt self userStory testType
      (api 0 self.model (buildPrompt userStory testType complexity count)) with
  | ok r =>
    rw [aux_ok backend api userStory testType complexity count (fuel + 1) self [] r ha]
    simp only [twoAttempts, ha, List.nil_append]
  | error e =>
    cases hf : fallbackModel backend self with
    | none =>
      rw [aux_no_fallback backend api userStory testType complexity count (fuel + 1) self [] e
        ha hf]
      simp only [twoAttempts, ha, hf, List.nil_append]
    | some alt =>
      rw [aux_fallback backend api userStory testType complexity count (fuel + 1) self [] e alt
        ha hf]
      obtain ⟨_, _, _, hnone⟩ := fallbackModel_after backend self alt hf
      cases ha2 : attempt { self with model := alt } userStory testType
          (api 1 alt (buildPrompt userStory testType complexity count)) with
      | ok r =>
        rw [aux_ok backend api userStory testType complexity count fuel _ _ r ha2]
        simp only [twoAttempts, ha, hf, ha2, List.nil_append, List.singleton_append]
      | error e2 =>
        rw [aux_no_fallback backend api userStory testType complexity count fuel _ _ e2 ha2
          hnone]
        simp only [twoAttempts, ha, hf, ha2, List.nil_append, List.singleton_append]

/-- One invocation does what `twoAttempts` describes. -/
theorem generateTestCases_eq (backend : Backend) (api : ExternalCall) (self : AIService)
    (userStory testType complexity : JStr) (count : Int) :
    generateTestCases backend api self userStory testType complexity count =
      some (twoAttempts backend api self userStory testType complexity count) :=
  generateTestCasesAux_eq backend api userStory testType complexity count 0 self


/-- The only error `parseResponse` throws is the format error. -/
theorem parseResponse_error {self : BaseAIService} {raw userStory testType : JStr}
    {e : JSError} (h : parseResponse self raw userStory testType = .error e) :
    e = .error (js "Invalid response format from AI service") := by
  unfold parseResponse at h
  split at h
  · cases h
  · simp only [Except.error.injEq] at h
    exact h.symm

/-- The only error the parsing of a completion throws is the format error. -/
theorem parseContent_error {self : BaseAIService} {content : Option JStr}
    {userStory testType : JStr} {e : JSError}
    (h : parseContent self content userStory testType = .error e) :
    e = .error (js "Invalid response format from AI service") := by
  cases content with
  | none =>
    simp only [parseContent, Except.error.injEq] at h
    exact h.symm
  | some s => exact parseResponse_error h

/-- What the validation returns is `true`, and what it throws has a message. -/
theorem validateTestCases_cases (testCases : List Obj) :
    validateTestCases testCases = .ok true ∨
    ∃ m, validateTestCases testCases = .error (.error m) := by
  unfold validateTestCases
  split
  · exact Or.inr ⟨_, rfl⟩
  · exact Or.inl rfl

/-- An attempt succeeds exactly when the call returns a completion that parses to a
batch the validation accepts; it then returns the whole batch. -/
theorem attempt_ok_iff (self : AIService) (userStory testType : JStr) (outcome : ApiOutcome)
    (r : List Obj) :
    attempt self userStory testType outcome = .ok r ↔
      ∃ content, outcome = .returns content ∧
        parseContent self.toBaseAIService content userStory testType = .ok r ∧
        validateTestCases r = .ok true := by
  constructor
  · intro h
    cases outcome with
    | throws m => simp [attempt] at h
    | returns content =>
      refine ⟨content, rfl, ?_⟩
      simp only [attempt] at h
      cases hp : parseContent self.toBaseAIService content userStory testType with
      | error e => simp [hp] at h
      | ok batch =>
        simp only [hp] at h
        rcases validateTestCases_cases batch with hv | ⟨m, hv⟩
        · simp only [hv, Except.ok.injEq] at h
          subst h
          exact ⟨rfl, hv⟩
        · simp [hv] at h
  · rintro ⟨content, rfl, hp, hv⟩
    simp only [attempt, hp, hv]

/-- An attempt fails for one of three reasons: the external call throws, the completion
does not parse, or the parsed batch fails the validation. -/
theorem attempt_error_iff (self : AIService) (userStory testType : JStr)
    (outcome : ApiOutcome) (e : JSError) :
    attempt self userStory testType outcome = .error e ↔
      (∃ m, outcome = .throws m ∧ e = .error m) ∨
      (∃ content, outcome = .returns content ∧
        parseContent self.toBaseAIService content userStory testType = .error e) ∨
      (∃ content batch, outcome = .returns content ∧
        parseContent self.toBaseAIService content userStory testType = .ok batch ∧
        validateTestCases batch = .error e) := by
  constructor
  · intro h
    cases outcome with
    | throws m =>
      left
      simp only [attempt, Except.error.injEq] at h
      exact ⟨m, rfl, h.symm⟩
    | returns content =>
      right
      simp only [attempt] at h
      cases hp : parseContent self.toBaseAIService content userStory testType with
      | error e1 =>
        left
        simp only [hp, Except.error.injEq] at h
        subst h
        exact ⟨content, rfl, hp⟩
      | ok batch =>
        right
        simp only [hp] at h
        refine ⟨content, batch, rfl, hp, ?_⟩
        rcases validateTestCases_cases batch with hv | ⟨m, hv⟩
        · simp [hv] at h
        · simp only [hv, Except.error.injEq] at h
          subst h
          exact hv
  · rintro (⟨m, rfl, rfl⟩ | ⟨content, rfl, hp⟩ | ⟨content, batch, rfl, hp, hv⟩)
    · rfl
    · simp only [attempt, hp]
    · simp only [attempt, hp, hv]

/-- Every error of an attempt is an error object with a message. -/
theorem attempt_error_message {self : AIService} {userStory testType : JStr}
    {outcome : ApiOutcome} {e : JSError}
    (h : attempt self userStory testType outcome = .error e) : ∃ m, e = .error m := by
  rcases (attempt_error_iff self userStory testType outcome e).mp h with
    ⟨m, _, rfl⟩ | ⟨content, _, hp⟩ | ⟨content, batch, _, _, hv⟩
  · exact ⟨m, rfl⟩
  · exact ⟨_, parseContent_error hp⟩
  · rcases validateTestCases_cases batch with hv2 | ⟨m, hv2⟩
    · rw [hv2] at hv; cases hv
    · rw [hv2] at hv
      simp only [Except.error.injEq] at hv
      exact ⟨m, hv.symm⟩

/-! ## Claims on `generateTestCases` -/

/-- C16. For every starting state of the service and every behaviour of the external
call, one invocation of `generateTestCases` on either service returns or throws
after one or two external calls, whatever bound of at least two is given to the
recursion: the recursion takes at most one fallback hop. -/
theorem C16_at_most_two_calls (backend : Backend) (api : ExternalCall) (self : AIService)
    (userStory testType complexity : JStr) (count : Int) :
    ∃ g, generateTestCases backend api self userStory testType complexity count = some g ∧
      (∀ fuel, generateTestCasesAux backend api userStory testType complexity count
        (fuel + 2) self [] = some g) ∧
      1 ≤ g.calls.length ∧ g.calls.length ≤ 2 := by
  refine ⟨twoAttempts backend api self userStory testType complexity count,
    generateTestCases_eq backend api self userStory testType complexity count,
    fun fuel => generateTestCasesAux_eq backend api userStory testType complexity count fuel self,
    ?_⟩
  unfold twoAttempts
  split
  · simp
  · split
    · simp
    · split <;> simp


/-- The alternate of the OpenAI service is `gpt-4-turbo`: the service falls back
exactly when its current model is another one. -/
theorem fallbackModel_openai (self : AIService)
    (hm : self.supportedModels = openaiService.supportedModels) :
    (self.model ≠ js "gpt-4-turbo" → fallbackModel .openai self = some (js "gpt-4-turbo")) ∧
    (self.model = js "gpt-4-turbo" → fallbackModel .openai self = none) := by
  constructor
  · intro h
    simp [fallbackModel, hm, openaiService, Backend.fallbackIndex, h]
  · intro h
    simp [fallbackModel, hm, openaiService, Backend.fallbackIndex, h]

/-- C17. For the OpenAI service, whose alternate is `gpt-4-turbo`: an attempt fails for
exactly three reasons (the external call throws, the completion does not parse,
the parsed batch fails the validation).  When the first attempt fails and the
current model is not the alternate, the service switches its model to the
alternate and makes one more attempt with the same arguments, whose result it
returns when it succeeds and whose error it reports when it fails; when the
current model is the alternate, no second attempt is made. -/
theorem C17_openai_fallback (api : ExternalCall) (self : AIService)
    (userStory testType complexity : JStr) (count : Int) (e : JSError)
    (hm : self.supportedModels = openaiService.supportedModels)
    (hfail : attempt self userStory testType
      (api 0 self.model (buildPrompt userStory testType complexity count)) = .error e) :
    ((∃ m, api 0 self.model (buildPrompt userStory testType complexity count) = .throws m ∧
        e = .error m) ∨
      (∃ content, api 0 self.model (buildPrompt userStory testType complexity count)
          = .returns content ∧
        parseContent self.toBaseAIService content userStory testType = .error e) ∨
      (∃ content batch, api 0 self.model (buildPrompt userStory testType complexity count)
          = .returns content ∧
        parseContent self.toBaseAIService content userStory testType = .ok batch ∧
        validateTestCases batch = .error e)) ∧
    (self.model ≠ js "gpt-4-turbo" →
      ∃ g, generateTestCases .openai api self userStory testType complexity count = some g ∧
        g.calls = [(self.model, buildPrompt userStory testType complexity count),
          (js "gpt-4-turbo", buildPrompt userStory testType complexity count)] ∧
        g.service = { self with model := js "gpt-4-turbo" } ∧
        (∀ r, attempt { self with model := js "gpt-4-turbo" } userStory testType
            (api 1 (js "gpt-4-turbo") (buildPrompt userStory testType complexity count)) = .ok r →
          g.outcome = .ok r) ∧
        (∀ e2, attempt { self with model := js "gpt-4-turbo" } userStory testType
            (api 1 (js "gpt-4-turbo") (buildPrompt userStory testType complexity count))
              = .error e2 →
          g.outcome = .error (generationFailure e2))) ∧
    (self.model = js "gpt-4-turbo" →
      ∃ g, generateTestCases .openai api self userStory testType complexity count = some g ∧
        g.calls = [(self.model, buildPrompt userStory testType complexity count)] ∧
        g.service = self ∧
        g.outcome = .error (generationFailure e)) := by
  refine ⟨(attempt_error_iff self userStory testType _ e).mp hfail, ?_, ?_⟩
  · intro hne
    have hf := (fallbackModel_openai self hm).1 hne
    refine ⟨_, generateTestCases_eq .openai api self userStory testType complexity count, ?_⟩
    cases ha2 : attempt { self with model := js "gpt-4-turbo" } userStory testType
        (api 1 (js "gpt-4-turbo") (buildPrompt userStory testType complexity count)) with
    | ok r =>
      have heq : twoAttempts .openai api self userStory testType complexity count =
          ⟨.ok r, { self with model := js "gpt-4-turbo" },
            [(self.model, buildPrompt userStory testType complexity count),
              (js "gpt-4-turbo", buildPrompt userStory testType complexity count)]⟩ := by
        simp only [twoAttempts, hfail, hf, ha2]
      rw [heq]
      exact ⟨rfl, rfl, fun r1 h1 => (by rw [Except.ok.inj h1]), fun e2 h2 => (by cases h2)⟩
    | error e3 =>
      have heq : twoAttempts .openai api self userStory testType complexity count =
          ⟨.error (generationFailure e3), { self with model := js "gpt-4-turbo" },
            [(self.model, buildPrompt userStory testType complexity count),
              (js "gpt-4-turbo", buildPrompt userStory testType complexity count)]⟩ := by
        simp only [twoAttempts, hfail, hf, ha2]
      rw [heq]
      exact ⟨rfl, rfl, fun r1 h1 => (by cases h1), fun e2 h2 => (by rw [Except.error.inj h2])⟩
  · intro heq1
    have hf := (fallbackModel_openai self hm).2 heq1
    refine ⟨_, generateTestCases_eq .openai api self userStory testType complexity count, ?_⟩
    have heq : twoAttempts .openai api self userStory testType complexity count =
        ⟨.error (generationFailure e), self,
          [(self.model, buildPrompt userStory testType complexity count)]⟩ := by
      simp only [twoAttempts, hfail, hf]
    rw [heq]
    exact ⟨rfl, rfl, rfl⟩

set_option maxRecDepth 100000 in
/-- Witness of C17: the freshly constructed OpenAI service, whose first call throws and
whose second call returns the response of the unit test, makes two calls, the
second one on `gpt-4-turbo`, and returns the one test case of the second
attempt. -/
theorem C17_openai_fallback_witness :
    ∃ g, generateTestCases .openai failsOnce openaiService (js "story") (js "functional")
        (js "medium") 1 = some g ∧
      g.calls = [(js "gpt-4", buildPrompt (js "story") (js "functional") (js "medium") 1),
        (js "gpt-4-turbo", buildPrompt (js "story") (js "functional") (js "medium") 1)] ∧
      g.service = { openaiService with model := js "gpt-4-turbo" } ∧
      (resultOf g.outcome).length = 1 := by
  obtain ⟨g, hg, hc, hs, hok, _⟩ :=
    (C17_openai_fallback failsOnce openaiService (js "story") (js "functional") (js "medium") 1
      (.error (js "timeout")) rfl rfl).2.1 (by decide)
  refine ⟨g, hg, hc, hs, ?_⟩
  rw [hok _ rfl]
  rfl

/-- What one invocation throws is built from the error of its last attempt. -/
theorem twoAttempts_error (backend : Backend) (api : ExternalCall) (self : AIService)
    (userStory testType complexity : JStr) (count : Int) (err : JSError)
    (herr : (twoAttempts backend api self userStory testType complexity count).outcome
      = .error err) :
    ∃ m,
      attempt (twoAttempts backend api self userStory testType complexity count).service
        userStory testType
        (api ((twoAttempts backend api self userStory testType complexity count).calls.length - 1)
          (twoAttempts backend api self userStory testType complexity count).service.model
          (buildPrompt userStory testType complexity count)) = .error (.error m) ∧
      err = .error (js "Failed to generate test cases: " ++ m) := by
  cases ha : attempt self userStory testType
      (api 0 self.model (buildPrompt userStory testType complexity count)) with
  | ok r =>
    simp only [twoAttempts, ha] at herr
    cases herr
  | error e =>
    obtain ⟨m, hm⟩ := attempt_error_message ha
    subst hm
    cases hf : fallbackModel backend self with
    | none =>
      simp only [twoAttempts, ha, hf, Except.error.injEq] at herr
      refine ⟨m, ?_, herr.symm⟩
      simp only [twoAttempts, ha, hf]
      exact ha
    | some alt =>
      cases ha2 : attempt { self with model := alt } userStory testType
          (api 1 alt (buildPrompt userStory testType complexity count)) with
      | ok r =>
        simp only [twoAttempts, ha, hf, ha2] at herr
        cases herr
      | error e2 =>
        obtain ⟨m2, hm2⟩ := attempt_error_message ha2
        subst hm2
        simp only [twoAttempts, ha, hf, ha2, Except.error.injEq] at herr
        refine ⟨m2, ?_, herr.symm⟩
        simp only [twoAttempts, ha, hf, ha2]
        exact ha2

/-- C18. Whenever `generateTestCases` of either service throws, after one attempt or
after two, the error has the message `Failed to generate test cases: ` followed by
the message of the error of the last attempt made. -/
theorem C18_failure_message (backend : Backend) (api : ExternalCall) (self : AIService)
    (userStory testType complexity : JStr) (count : Int) (g : Generation) (err : JSError)
    (hg : generateTestCases backend api self userStory testType complexity count = some g)
    (herr : g.outcome = .error err) :
    ∃ m,
      attempt g.service userStory testType
        (api (g.calls.length - 1) g.service.model
          (buildPrompt userStory testType complexity count)) = .error (.error m) ∧
      err = .error (js "Failed to generate test cases: " ++ m) := by
  rw [generateTestCases_eq] at hg
  simp only [Option.some.injEq] at hg
  subst hg
  exact twoAttempts_error backend api self userStory testType complexity count err herr

set_option maxRecDepth 100000 in
/-- Witness of C18: when every call returns the text `not json`, the OpenAI service
throws, after two attempts, the error with the message
`Failed to generate test cases: Invalid response format from AI service`. -/
theorem C18_failure_message_witness :
    (twoAttempts .openai alwaysNotJson openaiService (js "story") (js "functional")
      (js "medium") 1).calls.length = 2 ∧
    (twoAttempts .openai alwaysNotJson openaiService (js "story") (js "functional")
      (js "medium") 1).outcome =
      .error (.error
        (js "Failed to generate test cases: Invalid response format from AI service")) ∧
    ∃ m,
      attempt (twoAttempts .openai alwaysNotJson openaiService (js "story") (js "functional")
          (js "medium") 1).service (js "story") (js "functional")
        (alwaysNotJson
          ((twoAttempts .openai alwaysNotJson openaiService (js "story") (js "functional")
            (js "medium") 1).calls.length - 1)
          (twoAttempts .openai alwaysNotJson openaiService (js "story") (js "functional")
            (js "medium") 1).service.model
          (buildPrompt (js "story") (js "functional") (js "medium") 1)) = .error (.error m) ∧
      JSError.error
          (js "Failed to generate test cases: Invalid response format from AI service") =
        .error (js "Failed to generate test cases: " ++ m) :=
  ⟨rfl, rfl,
    C18_failure_message .openai alwaysNotJson openaiService (js "story") (js "functional")
      (js "medium") 1 _ _
      (generateTestCases_eq .openai alwaysNotJson openaiService (js "story") (js "functional")
        (js "medium") 1) rfl⟩


set_option maxRecDepth 100000 in
/-- Counterexample to C19: the freshly constructed OpenAI service has the model
`gpt-4`; after one invocation whose calls all throw, and after one invocation
whose first call throws and whose second succeeds, its model is `gpt-4-turbo`; the
elements a later successful invocation returns from the state left behind carry
`gpt-4-turbo` as `aiModel`, the ones from the fresh state carry `gpt-4`. -/
theorem C19_model_switch_counterexample :
    openaiService.model = js "gpt-4" ∧
    (twoAttempts .openai alwaysThrows openaiService (js "story") (js "functional")
      (js "medium") 1).service.model = js "gpt-4-turbo" ∧
    (twoAttempts .openai failsOnce openaiService (js "story") (js "functional")
      (js "medium") 1).service.model = js "gpt-4-turbo" ∧
    (resultOf (twoAttempts .openai failsOnce openaiService (js "story") (js "functional")
      (js "medium") 1).outcome).length = 1 ∧
    (resultOf (twoAttempts .openai alwaysValid
      (twoAttempts .openai alwaysThrows openaiService (js "story") (js "functional")
        (js "medium") 1).service
      (js "story") (js "functional") (js "medium") 1).outcome).map
        (fun o => getField o (js "aiModel")) = [some (strVal (js "gpt-4-turbo"))] ∧
    (resultOf (twoAttempts .openai alwaysValid openaiService
      (js "story") (js "functional") (js "medium") 1).outcome).map
        (fun o => getField o (js "aiModel")) = [some (strVal (js "gpt-4"))] ∧
    generateTestCases .openai alwaysThrows openaiService (js "story") (js "functional")
      (js "medium") 1 =
      some (twoAttempts .openai alwaysThrows openaiService (js "story") (js "functional")
        (js "medium") 1) :=
  ⟨rfl, rfl, rfl, rfl, rfl, rfl, rfl⟩

/-- C19 (amended). One invocation of `generateTestCases` never changes the list of
supported models, and leaves the current model as it was when the first attempt
succeeds or the service cannot fall back; when the first attempt fails and the
service can fall back, the current model after the invocation is the alternate,
whether the second attempt succeeds or fails. -/
theorem C19_state_after_invocation (backend : Backend) (api : ExternalCall)
    (self : AIService) (userStory testType complexity : JStr) (count : Int) :
    ∃ g, generateTestCases backend api self userStory testType complexity count = some g ∧
      g.service.supportedModels = self.supportedModels ∧
      ((∃ r, attempt self userStory testType
          (api 0 self.model (buildPrompt userStory testType complexity count)) = .ok r) →
        g.service = self) ∧
      (fallbackModel backend self = none → g.service = self) ∧
      (∀ e alternate, attempt self userStory testType
          (api 0 self.model (buildPrompt userStory testType complexity count)) = .error e →
        fallbackModel backend self = some alternate →
        g.service = { self with model := alternate }) := by
  refine ⟨_, generateTestCases_eq backend api self userStory testType complexity count, ?_⟩
  cases ha : attempt self userStory testType
      (api 0 self.model (buildPrompt userStory testType complexity count)) with
  | ok r =>
    have heq : twoAttempts backend api self userStory testType complexity count =
        ⟨.ok r, self, [(self.model, buildPrompt userStory testType complexity count)]⟩ := by
      simp only [twoAttempts, ha]
    rw [heq]
    exact ⟨rfl, fun _ => rfl, fun _ => rfl, fun e alt h => (by cases h)⟩
  | error e =>
    cases hf : fallbackModel backend self with
    | none =>
      have heq : twoAttempts backend api self userStory testType complexity count =
          ⟨.error (generationFailure e), self,
            [(self.model, buildPrompt userStory testType complexity count)]⟩ := by
        simp only [twoAttempts, ha, hf]
      rw [heq]
      exact ⟨rfl, fun _ => rfl, fun _ => rfl, fun e1 alt _ h => (by cases h)⟩
    | some alt =>
      have hsvc : (twoAttempts backend api self userStory testType complexity count).service =
          { self with model := alt } := by
        simp only [twoAttempts, ha, hf]
        split <;> rfl
      rw [hsvc]
      refine ⟨rfl, ?_, fun h => (by cases h), ?_⟩
      · rintro ⟨r, hr⟩
        cases hr
      · intro e1 alt1 _ h
        rw [Option.some.inj h]

set_option maxRecDepth 100000 in
/-- Counterexample to C15: when the call returns a batch whose one element has a title,
an expected output and the number five as steps, the OpenAI service returns that
element after one call; its steps are not a non-empty sequence. -/
theorem C15_number_steps_counterexample :
    (twoAttempts .openai alwaysNumberSteps openaiService (js "story") (js "functional")
      (js "medium") 1).calls.length = 1 ∧
    (resultOf (twoAttempts .openai alwaysNumberSteps openaiService (js "story")
      (js "functional") (js "medium") 1).outcome).map (fun o => getField o (js "steps")) =
      [some (numVal 5)] ∧
    nonEmptySequence (some (numVal 5)) = false ∧
    generateTestCases .openai alwaysNumberSteps openaiService (js "story") (js "functional")
      (js "medium") 1 =
      some (twoAttempts .openai alwaysNumberSteps openaiService (js "story") (js "functional")
        (js "medium") 1) :=
  ⟨rfl, rfl, rfl, rfl⟩

/-- What one invocation returns is the whole batch its last attempt parsed, and the
validation accepted it. -/
theorem twoAttempts_ok (backend : Backend) (api : ExternalCall) (self : AIService)
    (userStory testType complexity : JStr) (count : Int) (r : List Obj)
    (hok : (twoAttempts backend api self userStory testType complexity count).outcome = .ok r) :
    attempt (twoAttempts backend api self userStory testType complexity count).service
      userStory testType
      (api ((twoAttempts backend api self userStory testType complexity count).calls.length - 1)
        (twoAttempts backend api self userStory testType complexity count).service.model
        (buildPrompt userStory testType complexity count)) = .ok r := by
  cases ha : attempt self userStory testType
      (api 0 self.model (buildPrompt userStory testType complexity count)) with
  | ok r1 =>
    simp only [twoAttempts, ha, Except.ok.injEq] at hok
    subst hok
    simp only [twoAttempts, ha]
    exact ha
  | error e =>
    cases hf : fallbackModel backend self with
    | none =>
      simp only [twoAttempts, ha, hf] at hok
      cases hok
    | some alt =>
      cases ha2 : attempt { self with model := alt } userStory testType
          (api 1 alt (buildPrompt userStory testType complexity count)) with
      | ok r2 =>
        simp only [twoAttempts, ha, hf, ha2, Except.ok.injEq] at hok
        subst hok
        simp only [twoAttempts, ha, hf, ha2]
        exact ha2
      | error e2 =>
        simp only [twoAttempts, ha, hf, ha2] at hok
        cases hok

/-- C15 (amended). All-or-nothing validation: for every behaviour of the external call,
a sequence `generateTestCases` of either service returns is the whole batch parsed
from the completion of its last attempt, and every element of it passes the three
checks of the validator (a truthy title, a truthy expected output, a truthy `steps`
whose `length` is not zero; for an element typed as the data model types it: a
non-empty title, a non-empty expected output, a non-empty sequence of steps); an
attempt whose parsed batch holds an element that fails a check throws and returns
no element. -/
theorem C15_all_or_nothing (backend : Backend) (api : ExternalCall) (self : AIService)
    (userStory testType complexity : JStr) (count : Int) :
    ∃ g, generateTestCases backend api self userStory testType complexity count = some g ∧
      (∀ r, g.outcome = .ok r →
        (∃ content,
          api (g.calls.length - 1) g.service.model
            (buildPrompt userStory testType complexity count) = .returns content ∧
          parseContent g.service.toBaseAIService content userStory testType = .ok r) ∧
        (∀ o ∈ r, passesChecks o = true) ∧
        (∀ o ∈ r, typedTestCase o →
          nonEmptyText (getField o (js "title")) = true ∧
          nonEmptyText (getField o (js "expectedOutput")) = true ∧
          nonEmptySequence (getField o (js "steps")) = true)) ∧
      (∀ (service : AIService) (content : Option JStr) (batch : List Obj),
        parseContent service.toBaseAIService content userStory testType = .ok batch →
        (∃ o ∈ batch, passesChecks o = false) →
        ∃ m, attempt service userStory testType (.returns content) = .error (.error m)) := by
  refine ⟨_, generateTestCases_eq backend api self userStory testType complexity count, ?_, ?_⟩
  · intro r hr
    have hat := twoAttempts_ok backend api self userStory testType complexity count r hr
    obtain ⟨content, hc, hp, hv⟩ := (attempt_ok_iff _ _ _ _ _).mp hat
    have hall := (validateTestCases_iff r).1.mp hv
    exact ⟨⟨content, hc, hp⟩, hall,
      fun o ho ht => (passesChecks_typed o ht).mp (hall o ho)⟩
  · intro service content batch hp hbad
    obtain ⟨m, hm⟩ := (validateTestCases_iff batch).2 hbad
    exact ⟨m, by simp only [attempt, hp, hm]⟩

/-- C20. End-to-end success without retry: when the first external call returns a text
that `parseResponse` parses to the enrichment `r` of an array and the validation
accepts `r`, `generateTestCases` makes exactly one external call, leaves the
service as it was and returns exactly `r`: as many elements as the array has, the
i-th one being the enrichment of the i-th element of the array, each with
`testType` and `userStory` equal to the requested ones, `aiGenerated` true and
`status` equal to `not_started`. -/
theorem C20_success_without_retry (backend : Backend) (api : ExternalCall)
    (self : AIService) (userStory testType complexity : JStr) (count : Int)
    (text : JStr) (A : List JVal) (r : List Obj)
    (hcall : api 0 self.model (buildPrompt userStory testType complexity count)
      = .returns (some text))
    (hparse : jsonParse (cleanResponse text) = some (.arr A))
    (hok : parseResponse self.toBaseAIService text userStory testType = .ok r)
    (hvalid : validateTestCases r = .ok true) :
    generateTestCases backend api self userStory testType complexity count =
      some ⟨.ok r, self, [(self.model, buildPrompt userStory testType complexity count)]⟩ ∧
    r.length = A.length ∧
    (∀ i (h1 : i < A.length) (h2 : i < r.length),
      enrich self.toBaseAIService userStory testType (A.get ⟨i, h1⟩) = .ok (r.get ⟨i, h2⟩)) ∧
    (∀ o ∈ r,
      getField o (js "testType") = some (strVal testType) ∧
      getField o (js "userStory") = some (strVal userStory) ∧
      getField o (js "aiGenerated") = some (.json (.bool true)) ∧
      getField o (js "status") = some (strVal (js "not_started"))) := by
  have ha : attempt self userStory testType
      (api 0 self.model (buildPrompt userStory testType complexity count)) = .ok r :=
    (attempt_ok_iff _ _ _ _ _).mpr ⟨some text, hcall, hok, hvalid⟩
  obtain ⟨hlen, hget⟩ := parseResponse_pairs hparse hok
  refine ⟨?_, hlen, hget, ?_⟩
  · rw [generateTestCases_eq]
    simp only [twoAttempts, ha]
  · intro o ho
    obtain ⟨h1, h2, h3, _, h5⟩ := enriched_overwritten hok o ho
    exact ⟨h2, h1, h3, h5⟩

set_option maxRecDepth 100000 in
/-- Witness of C20: when the call returns the response of the unit test, the OpenAI
service makes one call on `gpt-4` and returns the one enriched test case. -/
theorem C20_success_without_retry_witness :
    generateTestCases .openai alwaysValid openaiService (js "story") (js "edge")
        (js "medium") 1 =
      some ⟨.ok (resultOf (parseResponse openaiService.toBaseAIService validSample
          (js "story") (js "edge"))),
        openaiService, [(js "gpt-4", buildPrompt (js "story") (js "edge") (js "medium") 1)]⟩ ∧
    (resultOf (parseResponse openaiService.toBaseAIService validSample
      (js "story") (js "edge"))).length = 1 :=
  ⟨(C20_success_without_retry .openai alwaysValid openaiService (js "story") (js "edge")
      (js "medium") 1 validSample
      [.obj [(js "title", .str (js "Test Case")),
        (js "description", .str (js "Test description")),
        (js "steps", .arr [.obj [(js "stepNumber", .num ⟨false, 1, 0⟩),
          (js "action", .str (js "test")), (js "expectedResult", .str (js "result"))]]),
        (js "expectedOutput", .str (js "expected output"))]]
      _ rfl rfl rfl rfl).1, rfl⟩


/-- The last external call of one invocation passes the model the service has
afterwards, and the prompt of the request. -/
theorem twoAttempts_last_call (backend : Backend) (api : ExternalCall) (self : AIService)
    (userStory testType complexity : JStr) (count : Int) :
    (twoAttempts backend api self userStory testType complexity count).calls.getLast? =
      some ((twoAttempts backend api self userStory testType complexity count).service.model,
        buildPrompt userStory testType complexity count) := by
  cases ha : attempt self userStory testType
      (api 0 self.model (buildPrompt userStory testType complexity count)) with
  | ok r => simp only [twoAttempts, ha]; rfl
  | error e =>
    cases hf : fallbackModel backend self with
    | none => simp only [twoAttempts, ha, hf]; rfl
    | some alt =>
      cases ha2 : attempt { self with model := alt } userStory testType
          (api 1 alt (buildPrompt userStory testType complexity count)) with
      | ok r2 => simp only [twoAttempts, ha, hf, ha2]; rfl
      | error e2 => simp only [twoAttempts, ha, hf, ha2]; rfl

/-- After a failed first attempt of a service that can fall back, the service runs on
the alternate model. -/
theorem twoAttempts_fallback_model (backend : Backend) (api : ExternalCall)
    (self : AIService) (userStory testType complexity : JStr) (count : Int)
    (e : JSError) (alternate : JStr)
    (ha : attempt self userStory testType
      (api 0 self.model (buildPrompt userStory testType complexity count)) = .error e)
    (hf : fallbackModel backend self = some alternate) :
    (twoAttempts backend api self userStory testType complexity count).service.model =
      alternate := by
  simp only [twoAttempts, ha, hf]
  split <;> rfl

/-- A successful call of `parseContent` is a call of `parseResponse` on a string. -/
theorem parseContent_ok {self : BaseAIService} {content : Option JStr}
    {userStory testType : JStr} {r : List Obj}
    (h : parseContent self content userStory testType = .ok r) :
    ∃ response, content = some response ∧
      parseResponse self response userStory testType = .ok r := by
  cases content with
  | none => simp [parseContent] at h
  | some response => exact ⟨response, rfl, h⟩

/-- C21. Every element `generateTestCases` returns was parsed from the text the last
external call of the invocation returned, and its `aiModel` is the model that call
passed; when the first attempt failed and the service fell back, that model is the
alternate. -/
theorem C21_aiModel_of_producing_call (backend : Backend) (api : ExternalCall)
    (self : AIService) (userStory testType complexity : JStr) (count : Int) :
    ∃ g, generateTestCases backend api self userStory testType complexity count = some g ∧
      ∀ r, g.outcome = .ok r →
        ∃ model response,
          g.calls.getLast? = some (model, buildPrompt userStory testType complexity count) ∧
          api (g.calls.length - 1) model (buildPrompt userStory testType complexity count) =
            .returns (some response) ∧
          parseResponse ⟨model⟩ response userStory testType = .ok r ∧
          (∀ o ∈ r, getField o (js "aiModel") = some (strVal model)) ∧
          (∀ e alternate, attempt self userStory testType
              (api 0 self.model (buildPrompt userStory testType complexity count)) = .error e →
            fallbackModel backend self = some alternate → model = alternate) := by
  refine ⟨_, generateTestCases_eq backend api self userStory testType complexity count, ?_⟩
  intro r hr
  have hat := twoAttempts_ok backend api self userStory testType complexity count r hr
  obtain ⟨content, hc, hp, _⟩ := (attempt_ok_iff _ _ _ _ _).mp hat
  obtain ⟨response, hresp, hparse⟩ := parseContent_ok hp
  subst hresp
  exact ⟨_, response,
    twoAttempts_last_call backend api self userStory testType complexity count, hc, hparse,
    fun o ho => (enriched_overwritten hparse o ho).2.2.2.1,
    fun e alternate ha hf =>
      twoAttempts_fallback_model backend api self userStory testType complexity count
        e alternate ha hf⟩

/-- The estimated time of every element `parseResponse` returns comes from the element
it was parsed from: thirty when that element has no complexity of its own, and
`estimateTime` of its own complexity otherwise. -/
theorem parsed_estimated_time {self : BaseAIService} {raw userStory testType : JStr}
    {A : List JVal} {r : List Obj}
    (hparse : jsonParse (cleanResponse raw) = some (.arr A))
    (h : parseResponse self raw userStory testType = .ok r) :
    List.Forall₂ (fun x o =>
      (ownField x (js "complexity") = none →
        getField o (js "estimatedTime") = some (numVal 30)) ∧
      (∀ c, ownField x (js "complexity") = some c →
        ∃ t, estimateTime (.json c) = .ok t ∧ getField o (js "estimatedTime") = some t)) A r := by
  obtain ⟨hlen, hget⟩ := parseResponse_pairs hparse h
  rw [List.forall₂_iff_get]
  refine ⟨hlen.symm, fun i h1 h2 => ?_⟩
  obtain ⟨_, t, ht, hl⟩ := enrich_ok_own (hget i h1 h2)
  have hf : getField (r.get ⟨i, h2⟩) (js "estimatedTime") = some t := by
    simp only [getField, hl]
    rfl
  constructor
  · intro hc
    rw [hc] at ht
    have h6 : estimateTime (strVal (js "medium")) = .ok (numVal 30) := rfl
    have h5 : estimateTime (strVal (js "medium")) = .ok t := by
      simpa [orDefault] using ht
    rw [h6] at h5
    rw [hf, ← Except.ok.inj h5]
  · intro c hc
    rw [hc] at ht
    by_cases htr : truthy (.json c) = true
    · refine ⟨t, ?_, hf⟩
      simpa [orDefault, htr] using ht
    · have hfalse : truthy (.json c) = false := by simpa using htr
      refine ⟨numVal 30, estimateTime_falsy c hfalse, ?_⟩
      have h30 : t = numVal 30 := by
        have h5 : estimateTime (strVal (js "medium")) = .ok t := by
          simpa [orDefault, hfalse] using ht
        have h6 : estimateTime (strVal (js "medium")) = .ok (numVal 30) := rfl
        rw [h6] at h5
        exact (Except.ok.inj h5).symm
      rw [hf, h30]

set_option maxRecDepth 100000 in
/-- Counterexample to C22: the request asks for the complexity `simple`, for which
`estimateTime` gives fifteen, and the model answers with one valid element that
carries no complexity of its own; the OpenAI service returns that element after
one call with the estimated time thirty.  The same answer to a request for
`complex` gets thirty too. -/
theorem C22_simple_request_counterexample :
    estimateTime (strVal (js "simple")) = .ok (numVal 15) ∧
    jsonParse (cleanResponse validSample) = some (.arr [validSampleElement]) ∧
    ownField validSampleElement (js "complexity") = none ∧
    (twoAttempts .openai alwaysValid openaiService (js "story") (js "functional")
      (js "simple") 1).calls.length = 1 ∧
    (resultOf (twoAttempts .openai alwaysValid openaiService (js "story") (js "functional")
      (js "simple") 1).outcome).map (fun o => getField o (js "estimatedTime")) =
      [some (numVal 30)] ∧
    (resultOf (twoAttempts .openai alwaysValid openaiService (js "story") (js "functional")
      (js "complex") 1).outcome).map (fun o => getField o (js "estimatedTime")) =
      [some (numVal 30)] ∧
    generateTestCases .openai alwaysValid openaiService (js "story") (js "functional")
      (js "simple") 1 =
      some (twoAttempts .openai alwaysValid openaiService (js "story") (js "functional")
        (js "simple") 1) :=
  ⟨rfl, rfl, rfl, rfl, rfl, rfl, rfl⟩

/-- C22 (amended). Whatever complexity the request names, the estimated time of every
element `generateTestCases` returns comes from the element the model returned:
thirty, the value of `estimateTime('medium')`, when that element carries no
complexity of its own, and `estimateTime` of its own complexity otherwise.  The
complexity of the request reaches the prompt only. -/
theorem C22_estimated_time_from_element (backend : Backend) (api : ExternalCall)
    (self : AIService) (userStory testType complexity : JStr) (count : Int) :
    ∃ g, generateTestCases backend api self userStory testType complexity count = some g ∧
      ∀ r, g.outcome = .ok r →
        ∃ response A,
          api (g.calls.length - 1) g.service.model
            (buildPrompt userStory testType complexity count) = .returns (some response) ∧
          jsonParse (cleanResponse response) = some (.arr A) ∧
          List.Forall₂ (fun x o =>
            (ownField x (js "complexity") = none →
              getField o (js "estimatedTime") = some (numVal 30)) ∧
            (∀ c, ownField x (js "complexity") = some c →
              ∃ t, estimateTime (.json c) = .ok t ∧
                getField o (js "estimatedTime") = some t)) A r := by
  refine ⟨_, generateTestCases_eq backend api self userStory testType complexity count, ?_⟩
  intro r hr
  have hat := twoAttempts_ok backend api self userStory testType complexity count r hr
  obtain ⟨content, hc, hp, _⟩ := (attempt_ok_iff _ _ _ _ _).mp hat
  obtain ⟨response, hresp, hparse⟩ := parseContent_ok hp
  subst hresp
  obtain ⟨A, hA, _⟩ := parseResponse_ok hparse
  exact ⟨response, A, hc, hA, parsed_estimated_time hA hparse⟩

/-! ## The offline service -/

/-- The loop pushes `count` literals, none for a count below one. -/
theorem pushLoop_length (literal : Nat → Obj) (count : Int) :
    (pushLoop literal count).length = count.toNat := by
  simp [pushLoop]

/-- The literal at a position is the one for the loop variable one above it. -/
theorem pushLoop_get (literal : Nat → Obj) (count : Int) (i : Nat)
    (h : i < (pushLoop literal count).length) :
    (pushLoop literal count).get ⟨i, h⟩ = literal (i + 1) := by
  simp [pushLoop]

/-- Every element the loop pushes is a literal. -/
theorem pushLoop_mem (literal : Nat → Obj) (count : Int) (o : Obj)
    (h : o ∈ pushLoop literal count) : ∃ i, o = literal i := by
  simp only [pushLoop, List.mem_map] at h
  obtain ⟨k, _, hk⟩ := h
  exact ⟨k + 1, hk.symm⟩

/-- For the test type `functional` the offline service returns what the functional
generator pushes. -/
theorem mock_functional (self : MockAIService) (userStory complexity : JStr) (count : Int) :
    self.generateTestCases userStory (js "functional") complexity count =
      .testCases (pushLoop (self.functionalTestCase userStory) count) := rfl

/-- For the test type `edge` the offline service returns what the edge generator
pushes. -/
theorem mock_edge (self : MockAIService) (userStory complexity : JStr) (count : Int) :
    self.generateTestCases userStory (js "edge") complexity count =
      .testCases (pushLoop (self.edgeTestCase userStory) count) := rfl

/-- For the test type `negative` the offline service returns what the negative
generator pushes. -/
theorem mock_negative (self : MockAIService) (userStory complexity : JStr) (count : Int) :
    self.generateTestCases userStory (js "negative") complexity count =
      .testCases (pushLoop (self.negativeTestCase userStory) count) := rfl

/-- For a test type that is neither one of the three nor a property name of
`Object.prototype` the offline service returns what the functional generator
pushes. -/
theorem mock_unlisted (self : MockAIService) (userStory testType complexity : JStr)
    (count : Int) (ht : testType ∉ mockTypes) (hp : objectProtoGet testType = none) :
    self.generateTestCases userStory testType complexity count =
      .testCases (pushLoop (self.functionalTestCase userStory) count) := by
  simp only [mockTypes, List.mem_cons, List.mem_singleton, not_or, List.not_mem_nil,
    or_false] at ht
  obtain ⟨h1, h2, h3⟩ := ht
  have hl : lookup testType (self.mockResponses userStory count) = none := by
    simp [MockAIService.mockResponses, lookup, Ne.symm h1, Ne.symm h2, Ne.symm h3]
  simp only [MockAIService.generateTestCases, hl, hp]
  rfl

/-- For a property name of `Object.prototype` the offline service returns the built-in
of that name. -/
theorem mock_inherited (self : MockAIService) (userStory testType complexity : JStr)
    (count : Int) (f : Native) (hp : objectProtoGet testType = some f) :
    self.generateTestCases userStory testType complexity count = .native f := by
  have h1 : testType ≠ js "functional" := by
    intro h
    have h0 : objectProtoGet (js "functional") = none := by decide
    rw [h, h0] at hp; cases hp
  have h2 : testType ≠ js "edge" := by
    intro h
    have h0 : objectProtoGet (js "edge") = none := by decide
    rw [h, h0] at hp; cases hp
  have h3 : testType ≠ js "negative" := by
    intro h
    have h0 : objectProtoGet (js "negative") = none := by decide
    rw [h, h0] at hp; cases hp
  have hl : lookup testType (self.mockResponses userStory count) = none := by
    simp [MockAIService.mockResponses, lookup, Ne.symm h1, Ne.symm h2, Ne.symm h3]
  simp only [MockAIService.generateTestCases, hl, hp]

/-- The generator a test type selects, when the type is not a property name of
`Object.prototype`: its own for the three types, the functional one otherwise. -/
theorem mock_selected (self : MockAIService) (userStory testType complexity : JStr)
    (count : Int) (hp : objectProtoGet testType = none) :
    self.generateTestCases userStory testType complexity count =
      .testCases (pushLoop
        (if testType = js "edge" then self.edgeTestCase userStory
         else if testType = js "negative" then self.negativeTestCase userStory
         else self.functionalTestCase userStory) count) := by
  by_cases h2 : testType = js "edge"
  · subst h2; rw [if_pos rfl]; rfl
  · by_cases h3 : testType = js "negative"
    · subst h3; rw [if_neg h2, if_pos rfl]; rfl
    · rw [if_neg h2, if_neg h3]
      by_cases h1 : testType = js "functional"
      · subst h1; rfl
      · exact mock_unlisted self userStory testType complexity count
          (by simp [mockTypes, h1, h2, h3]) hp

/-- The steps of a list of step literals numbered 1, 2, 3 are numbered in order. -/
theorem stepsNumbered_of (testCase : Obj) (steps : List JVal)
    (hs : getField testCase (js "steps") = some (.json (.arr steps))) (hne : steps ≠ [])
    (hn : ∀ j (h : j < steps.length),
      ownField (steps.get ⟨j, h⟩) (js "stepNumber") = some (.num (JNum.ofNat (j + 1)))) :
    stepsNumbered testCase :=
  ⟨steps, hs, hne, hn⟩

/-- The fields of the literal of the functional generator that do not depend on the
test type. -/
theorem functionalTestCase_fields (self : MockAIService) (userStory : JStr) (i : Nat) :
    getField (self.functionalTestCase userStory i) (js "title") =
      some (strVal (js "Functional Test " ++ natToJStr i ++
        (js " - " ++ userStory.take 30 ++ js "..."))) ∧
    getField (self.functionalTestCase userStory i) (js "userStory") = some (strVal userStory) ∧
    getField (self.functionalTestCase userStory i) (js "testType") =
      some (strVal (js "functional")) ∧
    getField (self.functionalTestCase userStory i) (js "aiGenerated") =
      some (.json (.bool true)) ∧
    getField (self.functionalTestCase userStory i) (js "status") =
      some (strVal (js "not_started")) ∧
    getField (self.functionalTestCase userStory i) (js "estimatedTime") = some (numVal 30) ∧
    stepsNumbered (self.functionalTestCase userStory i) ∧
    ∀ index, caseErrors index (self.functionalTestCase userStory i) = [] := by
  refine ⟨?_, rfl, rfl, rfl, rfl, rfl, ?_, ?_⟩
  · show some (strVal _) = some (strVal _)
    simp only [List.append_assoc]
  · refine stepsNumbered_of _ _ rfl (by intro h; cases h) ?_
    intro j h
    match j, h with
    | 0, _ => rfl
    | 1, _ => rfl
    | 2, _ => rfl
  · intro index
    exact caseErrors_nil index _ rfl rfl rfl rfl rfl

/-- The fields of the literal of the edge generator. -/
theorem edgeTestCase_fields (self : MockAIService) (userStory : JStr) (i : Nat) :
    getField (self.edgeTestCase userStory i) (js "title") =
      some (strVal (js "Edge Case " ++ natToJStr i ++ js " - Boundary condition testing")) ∧
    getField (self.edgeTestCase userStory i) (js "userStory") = some (strVal userStory) ∧
    getField (self.edgeTestCase userStory i) (js "testType") = some (strVal (js "edge")) ∧
    getField (self.edgeTestCase userStory i) (js "aiGenerated") = some (.json (.bool true)) ∧
    getField (self.edgeTestCase userStory i) (js "status") =
      some (strVal (js "not_started")) ∧
    getField (self.edgeTestCase userStory i) (js "estimatedTime") = some (numVal 45) ∧
    stepsNumbered (self.edgeTestCase userStory i) ∧
    ∀ index, caseErrors index (self.edgeTestCase userStory i) = [] := by
  refine ⟨rfl, rfl, rfl, rfl, rfl, rfl, ?_, ?_⟩
  · refine stepsNumbered_of _ _ rfl (by intro h; cases h) ?_
    intro j h
    match j, h with
    | 0, _ => rfl
    | 1, _ => rfl
  · intro index
    exact caseErrors_nil index _ rfl rfl rfl rfl rfl

/-- The fields of the literal of the negative generator. -/
theorem negativeTestCase_fields (self : MockAIService) (userStory : JStr) (i : Nat) :
    getField (self.negativeTestCase userStory i) (js "title") =
      some (strVal (js "Negative Test " ++ natToJStr i ++ js " - Error condition testing")) ∧
    getField (self.negativeTestCase userStory i) (js "userStory") = some (strVal userStory) ∧
    getField (self.negativeTestCase userStory i) (js "testType") =
      some (strVal (js "negative")) ∧
    getField (self.negativeTestCase userStory i) (js "aiGenerated") =
      some (.json (.bool true)) ∧
    getField (self.negativeTestCase userStory i) (js "status") =
      some (strVal (js "not_started")) ∧
    getField (self.negativeTestCase userStory i) (js "estimatedTime") = some (numVal 35) ∧
    stepsNumbered (self.negativeTestCase userStory i) ∧
    ∀ index, caseErrors index (self.negativeTestCase userStory i) = [] := by
  refine ⟨rfl, rfl, rfl, rfl, rfl, rfl, ?_, ?_⟩
  · refine stepsNumbered_of _ _ rfl (by intro h; cases h) ?_
    intro j h
    match j, h with
    | 0, _ => rfl
    | 1, _ => rfl
  · intro index
    exact caseErrors_nil index _ rfl rfl rfl rfl rfl

/-- The fields of the literal the generator selected by a test type pushes for the loop
variable `i`. -/
theorem selected_fields (self : MockAIService) (userStory testType : JStr) (i : Nat) :
    (∃ p ∈ mockTitleParts userStory,
      getField ((if testType = js "edge" then self.edgeTestCase userStory
        else if testType = js "negative" then self.negativeTestCase userStory
        else self.functionalTestCase userStory) i) (js "title") =
        some (strVal (p.1 ++ natToJStr i ++ p.2))) ∧
    getField ((if testType = js "edge" then self.edgeTestCase userStory
      else if testType = js "negative" then self.negativeTestCase userStory
      else self.functionalTestCase userStory) i) (js "userStory") = some (strVal userStory) ∧
    getField ((if testType = js "edge" then self.edgeTestCase userStory
      else if testType = js "negative" then self.negativeTestCase userStory
      else self.functionalTestCase userStory) i) (js "testType") =
      some (strVal (if testType ∈ mockTypes then testType else js "functional")) ∧
    getField ((if testType = js "edge" then self.edgeTestCase userStory
      else if testType = js "negative" then self.negativeTestCase userStory
      else self.functionalTestCase userStory) i) (js "aiGenerated") =
      some (.json (.bool true)) ∧
    getField ((if testType = js "edge" then self.edgeTestCase userStory
      else if testType = js "negative" then self.negativeTestCase userStory
      else self.functionalTestCase userStory) i) (js "status") =
      some (strVal (js "not_started")) ∧
    getField ((if testType = js "edge" then self.edgeTestCase userStory
      else if testType = js "negative" then self.negativeTestCase userStory
      else self.functionalTestCase userStory) i) (js "estimatedTime") =
      some (numVal (if testType = js "edge" then 45
        else if testType = js "negative" then 35 else 30)) ∧
    stepsNumbered ((if testType = js "edge" then self.edgeTestCase userStory
      else if testType = js "negative" then self.negativeTestCase userStory
      else self.functionalTestCase userStory) i) ∧
    ∀ index, caseErrors index ((if testType = js "edge" then self.edgeTestCase userStory
      else if testType = js "negative" then self.negativeTestCase userStory
      else self.functionalTestCase userStory) i) = [] := by
  by_cases h2 : testType = js "edge"
  · subst h2
    obtain ⟨a, b, c, d, e, f, g, h⟩ := edgeTestCase_fields self userStory i
    simp only [if_true]
    refine ⟨⟨(js "Edge Case ", js " - Boundary condition testing"), ?_, a⟩, b, ?_, d, e, f, g, h⟩
    · simp [mockTitleParts]
    · rw [c, if_pos (by simp [mockTypes])]
  · by_cases h3 : testType = js "negative"
    · subst h3
      obtain ⟨a, b, c, d, e, f, g, h⟩ := negativeTestCase_fields self userStory i
      simp only [if_neg h2, if_true]
      refine ⟨⟨(js "Negative Test ", js " - Error condition testing"), ?_, a⟩, b, ?_,
        d, e, f, g, h⟩
      · simp [mockTitleParts]
      · rw [c, if_pos (by simp [mockTypes])]
    · obtain ⟨a, b, c, d, e, f, g, h⟩ := functionalTestCase_fields self userStory i
      simp only [if_neg h2, if_neg h3]
      refine ⟨⟨(js "Functional Test ", js " - " ++ userStory.take 30 ++ js "..."), ?_, a⟩,
        b, ?_, d, e, f, g, h⟩
      · simp [mockTitleParts]
      · rw [c]
        by_cases h1 : testType = js "functional"
        · subst h1
          rw [if_pos (by simp [mockTypes])]
        · rw [if_neg (by simp [mockTypes, h1, h2, h3])]

/-- What the offline service returns for a test type that is not a property name of
`Object.prototype`: as many elements as the count says (none for a count below
one); the element at position `i` is titled with the number `i + 1`; every
element has `aiGenerated` true, the status `not_started` and steps numbered from
one; and the validation of the offline service accepts the whole sequence. -/
theorem mock_generates_count (self : MockAIService) (userStory testType complexity : JStr)
    (count : Int) (hp : objectProtoGet testType = none) :
    ∃ cases, self.generateTestCases userStory testType complexity count = .testCases cases ∧
      cases.length = count.toNat ∧
      (0 ≤ count → (cases.length : Int) = count) ∧
      (∀ i (h : i < cases.length),
        (∃ p ∈ mockTitleParts userStory,
          getField (cases.get ⟨i, h⟩) (js "title") =
            some (strVal (p.1 ++ natToJStr (i + 1) ++ p.2))) ∧
        getField (cases.get ⟨i, h⟩) (js "aiGenerated") = some (.json (.bool true)) ∧
        getField (cases.get ⟨i, h⟩) (js "status") = some (strVal (js "not_started")) ∧
        stepsNumbered (cases.get ⟨i, h⟩)) ∧
      MockAIService.validateTestCases cases = .ok true := by
  refine ⟨_, mock_selected self userStory testType complexity count hp,
    pushLoop_length _ _, ?_, ?_, ?_⟩
  · intro h0
    rw [pushLoop_length]
    exact Int.toNat_of_nonneg h0
  · intro i h
    rw [pushLoop_get]
    obtain ⟨a, _, _, d, e, _, g, _⟩ := selected_fields self userStory testType (i + 1)
    exact ⟨a, d, e, g⟩
  · apply validateTestCases_ok
    intro o ho index
    obtain ⟨i, hi⟩ := pushLoop_mem _ _ o ho
    rw [hi]
    exact (selected_fields self userStory testType i).2.2.2.2.2.2.2 index

set_option maxRecDepth 100000 in
/-- Counterexample to C23: for the test type `edge` and the complexity `simple`, for
which `estimateTime` gives fifteen, the offline service returns an element with
the estimated time forty-five, which is none of 15, 30 and 60; for the test type
`functional` and the complexity `simple` it returns an element with the estimated
time thirty. -/
theorem C23_edge_estimate_counterexample :
    estimateTime (strVal (js "simple")) = .ok (numVal 15) ∧
    mockAIService.generateTestCases (js "story") (js "edge") (js "simple") 1 =
      .testCases [mockAIService.edgeTestCase (js "story") 1] ∧
    getField (mockAIService.edgeTestCase (js "story") 1) (js "estimatedTime") =
      some (numVal 45) ∧
    numVal 45 ≠ numVal 15 ∧ numVal 45 ≠ numVal 30 ∧ numVal 45 ≠ numVal 60 ∧
    mockAIService.generateTestCases (js "story") (js "functional") (js "simple") 1 =
      .testCases [mockAIService.functionalTestCase (js "story") 1] ∧
    getField (mockAIService.functionalTestCase (js "story") 1) (js "estimatedTime") =
      some (numVal 30) ∧
    numVal 30 ≠ numVal 15 ∧
    postGenerate ⟨js "story", some (js "edge"), some (js "simple"), some 1⟩ =
      (200, .testCases [mockAIService.edgeTestCase (js "story") 1]) := by
  refine ⟨rfl, rfl, rfl, ?_, ?_, ?_, rfl, rfl, ?_, rfl⟩ <;>
  · intro h
    simp [numVal, JNum.ofNat] at h

/-- C23 (amended). The estimated time of every element the offline service returns is
the constant written in the generator that produced it, whatever the complexity
of the request: thirty for `functional`, forty-five for `edge`, thirty-five for
`negative`, and thirty for any other test type that is not a property name of
`Object.prototype`. -/
theorem C23_mock_estimated_time (self : MockAIService) (userStory complexity : JStr)
    (count : Int) :
    (∃ cases, self.generateTestCases userStory (js "functional") complexity count =
        .testCases cases ∧
      ∀ o ∈ cases, getField o (js "estimatedTime") = some (numVal 30)) ∧
    (∃ cases, self.generateTestCases userStory (js "edge") complexity count =
        .testCases cases ∧
      ∀ o ∈ cases, getField o (js "estimatedTime") = some (numVal 45)) ∧
    (∃ cases, self.generateTestCases userStory (js "negative") complexity count =
        .testCases cases ∧
      ∀ o ∈ cases, getField o (js "estimatedTime") = some (numVal 35)) ∧
    (∀ testType, testType ∉ mockTypes → objectProtoGet testType = none →
      ∃ cases, self.generateTestCases userStory testType complexity count =
          .testCases cases ∧
        ∀ o ∈ cases, getField o (js "estimatedTime") = some (numVal 30)) := by
  refine ⟨⟨_, mock_functional self userStory complexity count, ?_⟩,
    ⟨_, mock_edge self userStory complexity count, ?_⟩,
    ⟨_, mock_negative self userStory complexity count, ?_⟩, ?_⟩
  · intro o ho
    obtain ⟨i, hi⟩ := pushLoop_mem _ _ o ho
    rw [hi]
    exact (functionalTestCase_fields self userStory i).2.2.2.2.2.1
  · intro o ho
    obtain ⟨i, hi⟩ := pushLoop_mem _ _ o ho
    rw [hi]
    exact (edgeTestCase_fields self userStory i).2.2.2.2.2.1
  · intro o ho
    obtain ⟨i, hi⟩ := pushLoop_mem _ _ o ho
    rw [hi]
    exact (negativeTestCase_fields self userStory i).2.2.2.2.2.1
  · intro testType ht hp
    refine ⟨_, mock_unlisted self userStory testType complexity count ht hp, ?_⟩
    intro o ho
    obtain ⟨i, hi⟩ := pushLoop_mem _ _ o ho
    rw [hi]
    exact (functionalTestCase_fields self userStory i).2.2.2.2.2.1

set_option maxRecDepth 100000 in
/-- Counterexample to C24: for the test type `regression` the offline service, and the
route `POST /generate`, return an element whose test type is `functional`. -/
theorem C24_unknown_type_counterexample :
    mockAIService.generateTestCases (js "story") (js "regression") (js "medium") 1 =
      .testCases [mockAIService.functionalTestCase (js "story") 1] ∧
    postGenerate ⟨js "story", some (js "regression"), some (js "medium"), some 1⟩ =
      (200, .testCases [mockAIService.functionalTestCase (js "story") 1]) ∧
    getField (mockAIService.functionalTestCase (js "story") 1) (js "testType") =
      some (strVal (js "functional")) ∧
    strVal (js "functional") ≠ strVal (js "regression") := by
  refine ⟨rfl, rfl, rfl, ?_⟩
  intro h
  simp only [strVal, Val.json.injEq, JVal.str.injEq] at h
  revert h
  decide

/-- C24 (amended). For a test type that is not a property name of `Object.prototype`,
every element the offline service returns, and hence every element the route
`POST /generate` sends, has the user story of the request, and the test type of
the request when that is `functional`, `edge` or `negative`, and `functional` for
any other test type. -/
theorem C24_mock_echo (userStory testType complexity : JStr) (count : Int)
    (hp : objectProtoGet testType = none) :
    ∃ cases,
      mockAIService.generateTestCases userStory testType complexity count =
        .testCases cases ∧
      postGenerate ⟨userStory, some testType, some complexity, some count⟩ =
        (200, .testCases cases) ∧
      ∀ o ∈ cases,
        getField o (js "userStory") = some (strVal userStory) ∧
        getField o (js "testType") =
          some (strVal (if testType ∈ mockTypes then testType else js "functional")) := by
  have hsel := mock_selected mockAIService userStory testType complexity count hp
  refine ⟨_, hsel, ?_, ?_⟩
  · simp only [postGenerate, Option.getD_some, hsel]
  · intro o ho
    obtain ⟨i, hi⟩ := pushLoop_mem _ _ o ho
    rw [hi]
    obtain ⟨_, b, c, _⟩ := selected_fields mockAIService userStory testType i
    exact ⟨b, c⟩

set_option maxRecDepth 100000 in
/-- Witness of C24 (amended): the test types `edge` and `regression`. -/
theorem C24_mock_echo_witness :
    objectProtoGet (js "regression") = none ∧
    ∃ cases,
      mockAIService.generateTestCases (js "story") (js "regression") (js "medium") 2 =
        .testCases cases ∧
      postGenerate ⟨js "story", some (js "regression"), some (js "medium"), some 2⟩ =
        (200, .testCases cases) ∧
      ∀ o ∈ cases,
        getField o (js "userStory") = some (strVal (js "story")) ∧
        getField o (js "testType") =
          some (strVal (if js "regression" ∈ mockTypes then js "regression"
            else js "functional")) :=
  ⟨by decide, C24_mock_echo (js "story") (js "regression") (js "medium") 2 (by decide)⟩

set_option maxRecDepth 100000 in
/-- C29 (the code at the failing input). For the test type `constructor` the offline
service returns, for every user story, complexity and count, the function that the
object literal `mockResponses` inherits from `Object.prototype`, and no sequence
of test cases; so does the route.  For the test type `functional` and the count
three it returns three elements. -/
theorem C29_mock_inherited_name (userStory complexity : JStr) (count : Int) :
    mockAIService.generateTestCases userStory (js "constructor") complexity count =
      .native .objectCtor ∧
    postGenerate ⟨userStory, some (js "constructor"), some complexity, some count⟩ =
      (200, .native .objectCtor) ∧
    (∀ cases, mockAIService.generateTestCases userStory (js "constructor") complexity count ≠
      .testCases cases) ∧
    mockAIService.generateTestCases (js "story") (js "functional") (js "medium") 3 =
      .testCases [mockAIService.functionalTestCase (js "story") 1,
        mockAIService.functionalTestCase (js "story") 2,
        mockAIService.functionalTestCase (js "story") 3] := by
  have h := mock_inherited mockAIService userStory (js "constructor") complexity count
    .objectCtor (by decide)
  refine ⟨h, ?_, ?_, rfl⟩
  · simp only [postGenerate, Option.getD_some, h]
  · intro cases hc
    rw [h] at hc
    cases hc

/-! ## `setModel` and the step editor -/

/-- C28. The current model of the OpenAI service and of the HuggingFace service is in
the list of supported models when the service is constructed; `setModel` keeps it
there (it sets the model to a name of the list and changes nothing for any other
name), and so does every invocation of `generateTestCases`, which changes the
model, if at all, to an entry of the list, and never changes the list. -/
theorem C28_model_is_supported :
    openaiService.model ∈ openaiService.supportedModels ∧
    huggingfaceService.model ∈ huggingfaceService.supportedModels ∧
    (∀ (self : AIService) (modelName : JStr),
      (modelName ∈ self.supportedModels →
        setModel self modelName = { self with model := modelName }) ∧
      (modelName ∉ self.supportedModels → setModel self modelName = self) ∧
      (setModel self modelName).supportedModels = self.supportedModels ∧
      (self.model ∈ self.supportedModels →
        (setModel self modelName).model ∈ (setModel self modelName).supportedModels)) ∧
    (∀ (backend : Backend) (api : ExternalCall) (self : AIService)
        (userStory testType complexity : JStr) (count : Int),
      self.model ∈ self.supportedModels →
      ∃ g, generateTestCases backend api self userStory testType complexity count = some g ∧
        g.service.supportedModels = self.supportedModels ∧
        g.service.model ∈ g.service.supportedModels) := by
  refine ⟨by decide, by decide, ?_, ?_⟩
  · intro self modelName
    refine ⟨fun h => by simp only [setModel, if_pos h],
      fun h => by simp only [setModel, if_neg h], ?_, ?_⟩
    · by_cases h : modelName ∈ self.supportedModels
      · simp only [setModel, if_pos h]
      · simp only [setModel, if_neg h]
    · intro hinv
      by_cases h : modelName ∈ self.supportedModels
      · simp only [setModel, if_pos h]
        exact h
      · simp only [setModel, if_neg h]
        exact hinv
  · intro backend api self userStory testType complexity count hinv
    refine ⟨_, generateTestCases_eq backend api self userStory testType complexity count, ?_⟩
    cases ha : attempt self userStory testType
        (api 0 self.model (buildPrompt userStory testType complexity count)) with
    | ok r =>
      have hs : (twoAttempts backend api self userStory testType complexity count).service =
          self := by
        simp only [twoAttempts, ha]
      rw [hs]
      exact ⟨rfl, hinv⟩
    | error e =>
      cases hf : fallbackModel backend self with
      | none =>
        have hs : (twoAttempts backend api self userStory testType complexity count).service =
            self := by
          simp only [twoAttempts, ha, hf]
        rw [hs]
        exact ⟨rfl, hinv⟩
      | some alt =>
        have hs : (twoAttempts backend api self userStory testType complexity count).service =
            { self with model := alt } := by
          simp only [twoAttempts, ha, hf]
          split <;> rfl
        rw [hs]
        refine ⟨rfl, ?_⟩
        show alt ∈ self.supportedModels
        simp only [fallbackModel] at hf
        cases hg : self.supportedModels[backend.fallbackIndex]? with
        | none => simp [hg] at hf
        | some m =>
          simp only [hg] at hf
          split at hf
          · cases hf
            exact List.getElem?_mem hg
          · cases hf

/-- Filtering a numbered list on the number drops the element at that position. -/
theorem filter_enumFrom_ne {α : Type} (l : List α) (n index : Nat) :
    ((l.enumFrom n).filter (fun p => p.1 != n + index)).map Prod.snd = l.eraseIdx index := by
  induction l generalizing n index with
  | nil => rfl
  | cons a t ih =>
    cases index with
    | zero =>
      have hall : (t.enumFrom (n + 1)).filter (fun p => p.1 != n + 0) = t.enumFrom (n + 1) := by
        rw [List.filter_eq_self]
        intro p hp
        have := List.le_fst_of_mem_enumFrom hp
        simp only [Nat.add_zero, bne_iff_ne, ne_eq]
        omega
      simp only [List.enumFrom_cons, List.filter_cons, Nat.add_zero, bne_self_eq_false,
        Bool.false_eq_true, if_false, List.eraseIdx_cons_zero]
      simp only [Nat.add_zero] at hall
      rw [hall, List.enumFrom_map_snd]
    | succ k =>
      have hne : (n != n + (k + 1)) = true := by
        simp only [bne_iff_ne, ne_eq]
        omega
      have h2 : n + (k + 1) = (n + 1) + k := by omega
      simp only [List.enumFrom_cons, List.filter_cons, hne, if_true, List.map_cons,
        List.eraseIdx_cons_succ]
      rw [h2, ih (n + 1) k]

/-- The steps after `removeStep(index)` are the old steps without the one at `index`,
each with the number one above its new position. -/
theorem removeStep_eq (steps : List Obj) (index : Nat) :
    removeStep steps index =
      (steps.eraseIdx index).enum.map
        (fun p => setProp p.2 (js "stepNumber") (numVal (p.1 + 1))) := by
  have h := filter_enumFrom_ne steps 0 index
  simp only [Nat.zero_add] at h
  simp only [removeStep, List.enum, h]

/-- The step at a position after `removeStep(index)`. -/
theorem removeStep_get (steps : List Obj) (index i : Nat)
    (h : i < (removeStep steps index).length) :
    ∃ old, (steps.eraseIdx index)[i]? = some old ∧
      (removeStep steps index).get ⟨i, h⟩ = setProp old (js "stepNumber") (numVal (i + 1)) := by
  have hlen : i < (steps.eraseIdx index).length := by
    rw [removeStep_eq] at h
    simpa using h
  refine ⟨(steps.eraseIdx index)[i], List.getElem?_eq_getElem hlen, ?_⟩
  simp only [removeStep_eq, List.get_eq_getElem, List.getElem_map, List.getElem_enum]

/-- After `removeStep(index)` the steps are numbered 1, 2, ... in order. -/
theorem removeStep_numbered (steps : List Obj) (index : Nat) :
    numbered (removeStep steps index) := by
  intro i h
  obtain ⟨old, _, hget⟩ := removeStep_get steps index i h
  rw [hget, lookup_setProp]
  simp

/-- After `addStep()` steps numbered 1, ..., n are numbered 1, ..., n + 1. -/
theorem addStep_numbered (steps : List Obj) (hn : numbered steps) :
    numbered (addStep steps) := by
  intro i h
  simp only [addStep, List.length_append, List.length_singleton] at h
  by_cases hi : i < steps.length
  · have := hn i hi
    simp only [addStep, List.get_eq_getElem, List.getElem_append_left hi]
    simpa using this
  · have hi2 : i = steps.length := by omega
    subst hi2
    simp only [addStep, List.get_eq_getElem, List.getElem_concat_length]
    rfl

/-- Every sequence of operations of the editor keeps the steps numbered. -/
theorem applyEdits_numbered (edits : List StepEdit) :
    ∀ steps, numbered steps → numbered (applyEdits steps edits) := by
  induction edits with
  | nil => intro steps hn; exact hn
  | cons e rest ih =>
    intro steps hn
    cases e with
    | add => exact ih _ (addStep_numbered steps hn)
    | remove index => exact ih _ (removeStep_numbered steps index)

/-- C27. For every list of steps and every valid index, `removeStep(index)` gives a
list one shorter, which holds the old steps without the one at `index`, in their
old order, every one with its other fields unchanged and with the number one
above its new position; `addStep()` keeps the old steps and appends a blank step
numbered `length + 1`; hence steps numbered 1, ..., n are numbered 1, ..., m in order
after every sequence of the two operations. -/
theorem C27_step_renumbering :
    (∀ (steps : List Obj) (index : Nat), index < steps.length →
      (removeStep steps index).length + 1 = steps.length ∧
      ∀ i (h : i < (removeStep steps index).length),
        ∃ old, (steps.eraseIdx index)[i]? = some old ∧
          some old = (if i < index then steps[i]? else steps[i + 1]?) ∧
          lookup (js "stepNumber") ((removeStep steps index).get ⟨i, h⟩) =
            some (numVal (i + 1)) ∧
          ∀ k, k ≠ js "stepNumber" →
            lookup k ((removeStep steps index).get ⟨i, h⟩) = lookup k old) ∧
    (∀ (steps : List Obj),
      (addStep steps).length = steps.length + 1 ∧
      (addStep steps).take steps.length = steps ∧
      (addStep steps)[steps.length]? =
        some [(js "stepNumber", numVal (steps.length + 1)), (js "action", strVal []),
          (js "expectedResult", strVal [])]) ∧
    (∀ (steps : List Obj) (edits : List StepEdit),
      numbered steps → numbered (applyEdits steps edits)) := by
  refine ⟨?_, ?_, fun steps edits hn => applyEdits_numbered edits steps hn⟩
  · intro steps index hi
    constructor
    · rw [removeStep_eq]
      simp only [List.length_map, List.enum_length, List.length_eraseIdx, if_pos hi]
      omega
    · intro i h
      obtain ⟨old, hold, hget⟩ := removeStep_get steps index i h
      refine ⟨old, hold, ?_, ?_, ?_⟩
      · rw [List.getElem?_eraseIdx] at hold
        exact hold.symm
      · rw [hget, lookup_setProp]
        simp
      · intro k hk
        rw [hget, lookup_setProp, if_neg (Ne.symm hk)]
  · intro steps
    refine ⟨by simp [addStep], by simp [addStep], ?_⟩
    simp [addStep]

set_option maxRecDepth 100000 in
/-- Witness of C27: removing the second of three steps and then adding a step leaves
the first and the third step, numbered 1 and 2, with their identifiers, and a blank
step numbered 3. -/
theorem C27_step_renumbering_witness :
    numbered threeSteps ∧
    applyEdits threeSteps [.remove 1, .add] =
      [ [(js "stepNumber", numVal 1), (js "action", strVal (js "open")),
          (js "expectedResult", strVal (js "opened")), (js "_id", strVal (js "a1"))],
        [(js "stepNumber", numVal 2), (js "action", strVal (js "send")),
          (js "expectedResult", strVal (js "sent")), (js "_id", strVal (js "a3"))],
        [(js "stepNumber", numVal 3), (js "action", strVal []),
          (js "expectedResult", strVal [])] ] ∧
    numbered (applyEdits threeSteps [.remove 1, .add]) :=
  have hn : numbered threeSteps := by
    intro i h
    match i, h with
    | 0, _ => rfl
    | 1, _ => rfl
    | 2, _ => rfl
  ⟨hn, rfl, C27_step_renumbering.2.2 threeSteps [.remove 1, .add] hn⟩

/-! ## The routes on stored test cases -/

/-- The query of the list and export handlers returns records of the store that the
user created, and all of them. -/
theorem mem_find (store : Store) (user : ObjectId) (d : TestCaseDoc) :
    d ∈ find store user ↔ d ∈ store ∧ d.createdBy = user := by
  simp [find]

/-- The handlers of `GET /`, `GET /csv` and `GET /excel` read only the records the user
created: every record they send was created by the user, and their responses are
the same on two stores that hold the same records of the user. -/
theorem list_and_exports_read_own_records (user : ObjectId) (store : Store) :
    getTestCases user store = ⟨200, .testCases (find store user)⟩ ∧
    (∀ d ∈ find store user, d ∈ store ∧ d.createdBy = user) ∧
    (∀ other : Store, find other user = find store user →
      getTestCases user other = getTestCases user store ∧
      exportCsv user other = exportCsv user store ∧
      exportExcel user other = exportExcel user store) := by
  refine ⟨rfl, fun d hd => (mem_find store user d).mp hd, ?_⟩
  intro other h
  simp only [getTestCases, exportCsv, exportExcel, h, and_self]

set_option maxRecDepth 100000 in
/-- C25 (the code at the failing input). The store holds one test case, created by
Alice.  Bob, who is not Alice, sends the identifier of that test case to the routes
`GET /:id`, `PUT /:id` and `DELETE /:id`: the first sends him the test case, the
second changes its title and makes Bob its creator, the third removes it.  The
three handlers never read the user: their results are the same for every user. -/
theorem C25_foreign_record_by_id :
    aliceCase.createdBy = alice ∧ alice ≠ bob ∧
    getTestCases bob [aliceCase] = ⟨200, .testCases []⟩ ∧
    getTestCase bob [aliceCase] aliceCase._id = ⟨200, .testCase aliceCase⟩ ∧
    putTestCase bob [aliceCase] aliceCase._id takeOver =
      (⟨200, .testCase { aliceCase with title := js "Taken", createdBy := bob }⟩,
        [{ aliceCase with title := js "Taken", createdBy := bob }]) ∧
    deleteTestCase bob [aliceCase] aliceCase._id = (⟨204, .empty⟩, []) ∧
    (∀ (user other : ObjectId) (store : Store) (id : ObjectId) (body : UpdateBody),
      getTestCase user store id = getTestCase other store id ∧
      putTestCase user store id body = putTestCase other store id body ∧
      deleteTestCase user store id = deleteTestCase other store id) :=
  ⟨rfl, by decide, rfl, rfl, rfl, rfl, fun _ _ _ _ _ => ⟨rfl, rfl, rfl⟩⟩

/-- The loop of the CSV export appends the rows in the order of the test cases. -/
theorem foldl_csvRow (testCases : List TestCaseDoc) (csvContent : JStr) :
    testCases.foldl (fun csvContent testCase => csvContent ++ csvRow testCase) csvContent =
      csvContent ++ testCases.flatMap csvRow := by
  induction testCases generalizing csvContent with
  | nil => simp
  | cons d rest ih =>
    simp only [List.foldl_cons, ih, List.flatMap_cons, List.append_assoc]

/-- The row of a test case, code unit by code unit: the eight values between double
quotes, separated by commas, ended by a line feed; the title, the description and
the expected output with their double quotes doubled. -/
theorem csvRow_eq (d : TestCaseDoc) :
    csvRow d =
      34 :: (testCaseId d ++ 34 :: 44 :: 34 :: (escapeCSV d.title ++ 34 :: 44 :: 34 ::
        (escapeCSV d.description ++ 34 :: 44 :: 34 :: (d.testType ++ 34 :: 44 :: 34 ::
        (d.priority ++ 34 :: 44 :: 34 :: (d.status ++ 34 :: 44 :: 34 ::
        (assignedToText d ++ 34 :: 44 :: 34 :: (escapeCSV d.expectedOutput ++
          [34, 10])))))))) := by
  have h1 : js "\"" = [34] := by decide
  have h2 : js "\",\"" = [34, 44, 34] := by decide
  have h3 : js "\"," = [34, 44] := by decide
  have h4 : js "\"\n" = [34, 10] := by decide
  simp only [csvRow, h1, h2, h3, h4, List.append_assoc, List.cons_append, List.nil_append]

set_option maxRecDepth 100000 in
/-- C26. The CSV export answers 404 with the message `No test cases found to export`
exactly when the store holds no test case the user created; otherwise it answers
200 with the header line followed by one row for each of the user's test cases, in
the order in which the store returns them; a row holds the title, the description
and the expected output of its test case, each between double quotes with its own
double quotes doubled. -/
theorem C26_csv_export (user : ObjectId) (store : Store) :
    (exportCsv user store = ⟨404, .message (js "No test cases found to export")⟩ ↔
      find store user = []) ∧
    (find store user ≠ [] →
      exportCsv user store =
        ⟨200, .csv (csvHeader ++ (find store user).flatMap csvRow)⟩) ∧
    csvHeader =
      js ("Test Case ID,Title,Description,Test Type,Priority,Status,Assigned To," ++
        "Expected Output") ++ [10] ∧
    (∀ d, d ∈ find store user ↔ d ∈ store ∧ d.createdBy = user) ∧
    (∀ d, csvRow d =
      34 :: (testCaseId d ++ 34 :: 44 :: 34 :: (escapeCSV d.title ++ 34 :: 44 :: 34 ::
        (escapeCSV d.description ++ 34 :: 44 :: 34 :: (d.testType ++ 34 :: 44 :: 34 ::
        (d.priority ++ 34 :: 44 :: 34 :: (d.status ++ 34 :: 44 :: 34 ::
        (assignedToText d ++ 34 :: 44 :: 34 :: (escapeCSV d.expectedOutput ++
          [34, 10]))))))))) := by
  refine ⟨?_, ?_, by decide, mem_find store user, csvRow_eq⟩
  · constructor
    · intro h
      by_contra hne
      have hlen : (find store user).length ≠ 0 := by
        intro h0
        exact hne (List.length_eq_zero.mp h0)
      simp only [exportCsv, if_neg hlen] at h
      cases h
    · intro h
      simp only [exportCsv, h, List.length_nil, if_true]
  · intro hne
    have hlen : (find store user).length ≠ 0 := by
      intro h0
      exact hne (List.length_eq_zero.mp h0)
    simp only [exportCsv, if_neg hlen, foldl_csvRow]

/-! ## The CSV content read back -/

set_option maxRecDepth 100000 in
/-- The identifier shown for the sample test case of Alice. -/
theorem testCaseId_example : testCaseId aliceCase = js "TC-AB12CD34" := by decide

/-- Un-doubling keeps a code unit that is not a double quote. -/
theorem undouble_cons_ne (c : Nat) (s : JStr) (h : c ≠ 34) :
    undouble (c :: s) = c :: undouble s := by
  cases s with
  | nil => rfl
  | cons d rest =>
    rw [undouble]
    rw [if_neg (fun hc => h hc.1)]

/-- Un-doubling the double quotes of `escapeCSV(s)` gives back `s`. -/
theorem undouble_escapeCSV (s : JStr) : undouble (escapeCSV s) = s := by
  induction s with
  | nil => rfl
  | cons c t ih =>
    by_cases hc : c = 34
    · subst hc
      simp only [escapeCSV, if_true]
      rw [undouble, if_pos ⟨rfl, rfl⟩, ih]
    · simp only [escapeCSV, if_neg hc]
      rw [undouble_cons_ne c _ hc, ih]

/-- A text without double quotes is its own escaped form. -/
theorem escapeCSV_quoteFree (s : JStr) (h : quoteFree s) : escapeCSV s = s := by
  induction s with
  | nil => rfl
  | cons c t ih =>
    have hc : c ≠ 34 := by
      intro hc
      exact h (by simp [hc])
    have ht : quoteFree t := fun hm => h (List.mem_cons_of_mem c hm)
    simp only [escapeCSV, if_neg hc, ih ht]

/-- Reading an escaped text inside a quoted field up to the closing double quote adds
the text to the field. -/
theorem readCsvFrom_quoted (s field : JStr) (fields : List JStr) (rest : JStr) :
    readCsvFrom .quoted field fields (escapeCSV s ++ 34 :: rest) =
      readCsvFrom .afterQuote (field ++ s) fields rest := by
  induction s generalizing field with
  | nil => simp [escapeCSV, readCsvFrom]
  | cons c t ih =>
    by_cases hc : c = 34
    · subst hc
      simp only [escapeCSV, if_true, List.cons_append]
      rw [readCsvFrom, if_pos rfl, readCsvFrom, if_pos rfl, ih]
      simp
    · simp only [escapeCSV, if_neg hc, List.cons_append]
      rw [readCsvFrom, if_neg hc, ih]
      simp

/-- Reading back a record written under the standard quoting rules gives its fields. -/
theorem readCsvFrom_write (values : List JStr) (hne : values ≠ []) (fields : List JStr) :
    readCsvFrom .fieldStart [] fields (writeCsvRecord values) = some (fields ++ values, []) := by
  induction values generalizing fields with
  | nil => exact absurd rfl hne
  | cons f rest ih =>
    cases rest with
    | nil =>
      simp only [writeCsvRecord]
      rw [readCsvFrom, if_pos rfl]
      have h := readCsvFrom_quoted f [] fields [10]
      rw [h]
      simp [readCsvFrom]
    | cons g rest2 =>
      simp only [writeCsvRecord]
      rw [readCsvFrom, if_pos rfl]
      have h := readCsvFrom_quoted f [] fields (44 :: writeCsvRecord (g :: rest2))
      rw [h]
      rw [readCsvFrom, if_neg (by decide), if_pos rfl, ih (by simp)]
      simp

/-- The row of a test case whose test type, priority, status and assignee names hold no
double quote is the record of its eight values under the standard quoting rules,
and reading it back gives the eight values. -/
theorem csvRow_round_trip (d : TestCaseDoc)
    (h1 : quoteFree d.testType) (h2 : quoteFree d.priority) (h3 : quoteFree d.status)
    (h4 : quoteFree (assignedToText d)) :
    csvRow d = writeCsvRecord (csvValues d) ∧
    readCsvRecord (csvRow d) = some (csvValues d, []) := by
  have hid : quoteFree (testCaseId d) := by
    intro hm
    simp only [testCaseId, List.mem_append, toUpperCase, List.mem_map] at hm
    rcases hm with hm | ⟨c, hc, hm⟩
    · revert hm; decide
    · have hc2 := List.mem_of_mem_take hc
      simp only [objectIdText, List.mem_map, List.mem_range] at hc2
      obtain ⟨k, _, hk⟩ := hc2
      have hlt : d._id / 16 ^ (23 - k) % 16 < 16 := Nat.mod_lt _ (by decide)
      rw [← hk] at hm
      simp only [hexDigit] at hm
      split at hm <;> split at hm <;> omega
  have hrow : csvRow d = writeCsvRecord (csvValues d) := by
    rw [csvRow_eq]
    simp only [csvValues, writeCsvRecord, escapeCSV_quoteFree _ hid, escapeCSV_quoteFree _ h1,
      escapeCSV_quoteFree _ h2, escapeCSV_quoteFree _ h3, escapeCSV_quoteFree _ h4]
  refine ⟨hrow, ?_⟩
  rw [hrow, readCsvRecord, readCsvFrom_write _ (by simp [csvValues])]
  simp

set_option maxRecDepth 100000 in
/-- C30 (the code at the failing input). Un-doubling the double quotes of
`escapeCSV(s)` gives back `s`, and the row of a test case without assignee reads
back as its eight values.  The row of a test case whose assignee has a first name
with a nickname in double quotes is no record under the standard quoting rules,
and the row of a test case whose assignee has the first name `x","y` reads back
as nine values: the export writes the name of the assignee between double quotes
without doubling the double quotes in it. -/
theorem C30_assignee_name_not_escaped :
    (∀ s, undouble (escapeCSV s) = s) ∧
    readCsvRecord (csvRow aliceCase) = some (csvValues aliceCase, []) ∧
    (csvValues aliceCase).length = 8 ∧
    assignedToText nicknameCase = js "Ann \"AJ\" Lee" ∧
    readCsvRecord (csvRow nicknameCase) = none ∧
    assignedToText splitNameCase = js "x\",\"y Lee" ∧
    readCsvRecord (csvRow splitNameCase) =
      some ([js "TC-AB12CD34", js "Login", js "Say \"hi\"", js "functional", js "high",
        js "passed", js "x", js "y Lee", js "Dashboard, then menu"], []) ∧
    csvValues splitNameCase =
      [js "TC-AB12CD34", js "Login", js "Say \"hi\"", js "functional", js "high",
        js "passed", js "x\",\"y Lee", js "Dashboard, then menu"] := by
  refine ⟨undouble_escapeCSV, ?_, rfl, ?_, ?_, ?_, ?_, ?_⟩ <;> decide
end AITestGen
